import Mathlib

/-!
# Arclight TGA decoder

A shallow embedding of `src/arclight/core/image/decode/tgadecoder.cpp` and the
properties of it that the specification states.

Conventions of the embedding.

* Unsigned machine integers are natural numbers; every place where the C++
  arithmetic can leave its range carries an explicit reduction (`toU32`,
  `toU8`, `wrapInt32`).  Sub-`int` operands are promoted to 32-bit `int`
  before arithmetic, as C++ does.
* An exception is a value of `DecodeError`.  `decode` returns the decoder
  object as it is left behind together with `Except DecodeError Unit`.
* An access outside a `std::vector`, `std::span` or image is undefined
  behaviour in C++; the embedding stops there with `undefinedAccess`, so that
  no theorem can claim a result for such a run.
* Collaborators whose source is not part of the decoder are either parameters
  (`Externals`) or small models written from the specification.  `Bool::none(v, a, ...)`
  and `Bool::any(v, a, ...)` (util/bool.hpp) are read as "`v` equals none of" and
  "`v` equals one of" the listed values, which is how the specification words the checks;
  `Log::warn` has no effect on the decoder.
-/

namespace Arclight

/-- One octet of input (`u8`). -/
abbrev Byte := Fin 256

/-- The exceptions that can leave the decoder. -/
inductive DecodeError where
  /-- `ImageDecoderException`: the format error of the specification (and the error of `getImage`). -/
  | imageDecoder (msg : String)
  /-- `UnsupportedOperationException`. -/
  | unsupportedOperation (msg : String)
  /-- The byte reader was asked to read or seek past the end of its buffer. -/
  | outOfBounds
  /-- An unchecked container access outside its range (undefined behaviour in C++). -/
  | undefinedAccess
  deriving DecidableEq, Repr

/-- Source pixel encodings named by the decoder (`Pixel::RGB5`, `Pixel::RGB8`, `Pixel::RGBA8`). -/
inductive Pixel where
  | RGB5
  | RGB8
  | RGBA8
  deriving DecidableEq, Repr

/-- Modelled from the spec: the canonical output pixel (`PixelBGRA8`), four channels;
its declaration is not among the sources.  The default pixel has all channels zero. -/
structure PixelBGRA8 where
  b : Nat
  g : Nat
  r : Nat
  a : Nat
  deriving DecidableEq, Repr, Inhabited

/-- Collaborators of the decoder whose code is not among the sources.
`mask v start count` stands for `Bits::mask(v, start, count)` and
`convert P bytes` for `PixelConverter::convert<Pixel::BGRA8>(PixelType<P>(bytes))`. -/
structure Externals where
  mask : Nat → Nat → Nat → Nat
  convert : Pixel → List Byte → PixelBGRA8

/-- Modelled from the spec: `Bits::mask` (util/bits.hpp is not among the sources).  The
specification splits the descriptor byte into bit fields and has descriptor bit `0x20`
decide the row order, so the field is kept at its place in the byte:
`count` bits starting at bit `start`. -/
def Bits.mask (v start count : Nat) : Nat :=
  v &&& ((2 ^ count - 1) <<< start)

/-! ## Machine arithmetic -/

/-- Conversion of an integer to `u32`. -/
def toU32 (z : Int) : Nat := (z % 4294967296).toNat

/-- Conversion of an unsigned value to `u8`. -/
def toU8 (n : Nat) : Nat := n % 256

/-- The value a 32-bit two's complement `int` holds after an operation whose exact result is `z`. -/
def wrapInt32 (z : Int) : Int := (2147483648 + z) % 4294967296 - 2147483648

/-! ## Header structures -/

structure TGAColorMapSpecification where
  firstEntryIndex : Nat
  colorMapLength : Nat
  colorMapEntrySize : Nat
  deriving DecidableEq, Repr

structure TGAImageSpecification where
  originX : Nat
  originY : Nat
  width : Nat
  height : Nat
  pixelDepth : Nat
  imageDescriptor : Nat
  deriving DecidableEq, Repr

structure TGAHeader where
  idLength : Nat
  colorMapType : Nat
  imageType : Nat
  colorMapSpec : TGAColorMapSpecification
  imageSpec : TGAImageSpecification
  deriving DecidableEq, Repr

/-- `getColorMapSize`: `colorMapLength * colorMapEntrySize / 8`, computed in `int`, returned as `u32`. -/
def getColorMapSize (spec : TGAColorMapSpecification) : Nat :=
  toU32 (Int.tdiv (wrapInt32 ((spec.colorMapLength : Int) * (spec.colorMapEntrySize : Int))) 8)

/-- `getImageOriginMode`: `Bits::mask(imageDescriptor, 4, 2)` returned as `u8`. -/
def getImageOriginMode (E : Externals) (spec : TGAImageSpecification) : Nat :=
  toU8 (E.mask spec.imageDescriptor 4 2)

/-- `getImageReservedBits`: `Bits::mask(imageDescriptor, 6, 2)` returned as `u8`. -/
def getImageReservedBits (E : Externals) (spec : TGAImageSpecification) : Nat :=
  toU8 (E.mask spec.imageDescriptor 6 2)

/-- `getImageDataSize`: `width * height * pixelDepth / 8`, computed in `int`
(the operands are `u16`, `u16` and `u8`), returned as `u32`. -/
def getImageDataSize (spec : TGAImageSpecification) : Nat :=
  toU32 (Int.tdiv
    (wrapInt32 (wrapInt32 ((spec.width : Int) * (spec.height : Int)) * (spec.pixelDepth : Int))) 8)

/-- `getTransformedX`: `(originMode & 0x10) ? width - x - 1 : x` in `u32` arithmetic. -/
def getTransformedX (E : Externals) (spec : TGAImageSpecification) (x : Nat) : Nat :=
  if getImageOriginMode E spec &&& 0x10 ≠ 0 then toU32 ((spec.width : Int) - (x : Int) - 1) else x

/-- `getTransformedY`: `(originMode & 0x20) ? y : height - y - 1` in `u32` arithmetic. -/
def getTransformedY (E : Externals) (spec : TGAImageSpecification) (y : Nat) : Nat :=
  if getImageOriginMode E spec &&& 0x20 ≠ 0 then y else toU32 ((spec.height : Int) - (y : Int) - 1)

/-! ## The byte reader -/

/-- Modelled from the spec: the sequential byte reader (`BinaryReader`, stream/binaryreader.hpp
is not among the sources): a fixed buffer and a cursor, typed reads, a relative seek, and an
error on any access past the end of the buffer that consumes nothing. -/
structure BinaryReader where
  data : List Byte
  position : Nat
  deriving DecidableEq, Repr

namespace BinaryReader

/-- `read<u8>()`. -/
def readU8 (r : BinaryReader) : Except DecodeError (Nat × BinaryReader) :=
  match r.data[r.position]? with
  | some b => .ok (b.val, { r with position := r.position + 1 })
  | none => .error .outOfBounds

/-- `read<u16>()`: two octets, least significant first. -/
def readU16 (r : BinaryReader) : Except DecodeError (Nat × BinaryReader) :=
  match r.data[r.position]?, r.data[r.position + 1]? with
  | some lo, some hi => .ok (lo.val + 256 * hi.val, { r with position := r.position + 2 })
  | _, _ => .error .outOfBounds

/-- `seek(n)`: moves the cursor forward by `n` octets. -/
def seek (r : BinaryReader) (n : Nat) : Except DecodeError BinaryReader :=
  if r.position + n ≤ r.data.length then .ok { r with position := r.position + n }
  else .error .outOfBounds

/-- `read<u8>(span)` for a destination of `n` octets. -/
def readSpan (r : BinaryReader) (n : Nat) : Except DecodeError (List Byte × BinaryReader) :=
  if r.position + n ≤ r.data.length then
    .ok ((r.data.drop r.position).take n, { r with position := r.position + n })
  else .error .outOfBounds

end BinaryReader

/-! ## The output image -/

/-- Modelled from the spec: the raw output image container keyed by width and height
(`Image<Pixel::BGRA8>` and `RawImage`, whose sources are not present): `width * height`
pixels, row after row. -/
structure Image where
  width : Nat
  height : Nat
  pixels : List PixelBGRA8
  deriving DecidableEq, Repr

namespace Image

/-- `Image<Pixel::BGRA8>(width, height)`: every pixel is the default pixel. -/
def create (width height : Nat) : Image :=
  ⟨width, height, List.replicate (width * height) default⟩

/-- `setPixel(x, y, pixel)`; a position outside the image is an undefined access. -/
def setPixel (img : Image) (x y : Nat) (p : PixelBGRA8) : Except DecodeError Image :=
  if x < img.width ∧ y < img.height then
    .ok { img with pixels := img.pixels.set (y * img.width + x) p }
  else .error .undefinedAccess

/-- `getPixel(x, y)`, `none` outside the image. -/
def getPixel (img : Image) (x y : Nat) : Option PixelBGRA8 :=
  if x < img.width ∧ y < img.height then img.pixels[y * img.width + x]? else none

end Image

/-- `std::vector::resize(n)` on a byte vector: truncates, or pads with zero octets. -/
def resize (v : List Byte) (n : Nat) : List Byte :=
  v.take n ++ List.replicate (n - v.length) 0

/-- `std::span::subspan(offset, count)`; a range outside the span is an undefined access. -/
def subspan (v : List Byte) (offset count : Nat) : Except DecodeError (List Byte) :=
  if offset + count ≤ v.length then .ok ((v.drop offset).take count) else .error .undefinedAccess

/-- The loop `for (u32 i = start; i < start + n; i++) body(i)` over a state, left by the
first exception. -/
def forLoop {σ : Type} (body : Nat → σ → Except DecodeError σ) :
    Nat → Nat → σ → Except DecodeError σ
  | _, 0, s => .ok s
  | i, n + 1, s =>
    match body i s with
    | .error e => .error e
    | .ok s1 => forLoop body (i + 1) n s1

/-! ## The decoder -/

/-- The image origin recorded by the decoder (`origin.x`, `origin.y`). -/
structure Origin where
  x : Nat
  y : Nat
  deriving DecidableEq, Repr

/-- The data members of `TGADecoder`. -/
structure TGADecoder where
  validDecode : Bool
  image : Image
  origin : Origin
  colorMapData : List Byte
  imageData : List Byte
  deriving DecidableEq, Repr

/-- `Pixel` and `Size` template arguments chosen for a 16, 24 or 32 bit entry. -/
def pixelOfDepth (depth : Nat) : Option (Pixel × Nat) :=
  if depth = 16 then some (Pixel.RGB5, 2)
  else if depth = 24 then some (Pixel.RGB8, 3)
  else if depth = 32 then some (Pixel.RGBA8, 4)
  else none

/-- The lambda `convertColorMap<P, Size>` of `parseColorMapImageData`: the table of
`colorMapLength` canonical colours. -/
def convertColorMap (E : Externals) (self : TGADecoder) (hdr : TGAHeader) (P : Pixel) (Size : Nat) :
    Except DecodeError (List PixelBGRA8) :=
  forLoop
    (fun i colorMap =>
      match subspan self.colorMapData (i * Size) Size with
      | .error e => .error e
      | .ok pixelData => .ok (colorMap.set i (E.convert P pixelData)))
    0 hdr.colorMapSpec.colorMapLength
    (List.replicate hdr.colorMapSpec.colorMapLength default)

/-- The pixel loops of the lambda `buildImage` of `parseColorMapImageData`: the buffer image
`bufImage` after both loops. -/
def buildImagePixels (E : Externals) (self : TGADecoder) (hdr : TGAHeader)
    (colorMap : List PixelBGRA8) : Except DecodeError Image :=
  forLoop
    (fun y bufImage =>
      let ry := getTransformedY E hdr.imageSpec y
      forLoop
        (fun x bufImage =>
          let rx := getTransformedX E hdr.imageSpec x
          -- x + y * width stays below 2 ^ 32 for 16 bit dimensions
          let imageIndex := x + y * hdr.imageSpec.width
          match self.imageData[imageIndex]? with
          | none => .error .undefinedAccess
          | some colorIndex =>
            if colorIndex.val ≥ hdr.colorMapSpec.colorMapLength then
              .error (.imageDecoder "Invalid color map index found in image data")
            else
              match colorMap[colorIndex.val]? with
              | none => .error .undefinedAccess
              | some c => bufImage.setPixel rx ry c)
        0 hdr.imageSpec.width bufImage)
    0 hdr.imageSpec.height (Image.create hdr.imageSpec.width hdr.imageSpec.height)

/-- The lambda `buildImage` of `parseColorMapImageData`: the loops, then
`image = bufImage.makeRaw()`. -/
def buildImage (E : Externals) (self : TGADecoder) (hdr : TGAHeader) (colorMap : List PixelBGRA8) :
    Except DecodeError TGADecoder :=
  match buildImagePixels E self hdr colorMap with
  | .error e => .error e
  | .ok bufImage => .ok { self with image := bufImage }

/-- `TGADecoder::parseColorMapImageData`. -/
def parseColorMapImageData (E : Externals) (self : TGADecoder) (hdr : TGAHeader) :
    Except DecodeError TGADecoder :=
  match pixelOfDepth hdr.colorMapSpec.colorMapEntrySize with
  | none => .error (.imageDecoder "Invalid color map color format")
  | some (P, Size) =>
    match convertColorMap E self hdr P Size with
    | .error e => .error e
    | .ok colorMap =>
      if hdr.imageSpec.pixelDepth = 8 then buildImage E self hdr colorMap
      else if hdr.imageSpec.pixelDepth = 16 ∨ hdr.imageSpec.pixelDepth = 24
          ∨ hdr.imageSpec.pixelDepth = 32 then
        .error (.unsupportedOperation "Color map TGA format with %d-bits indices is not supported")
      else .error (.imageDecoder "Invalid pixel format")

/-- The pixel loops of the lambda `loadData<P, Size>` of `parseTrueColorImageData`: the
reader over `imageData` and the buffer image after both loops. -/
def loadDataPixels (E : Externals) (self : TGADecoder) (hdr : TGAHeader) (P : Pixel) (Size : Nat) :
    Except DecodeError (BinaryReader × Image) :=
  forLoop
    (fun y (st : BinaryReader × Image) =>
      let ry := getTransformedY E hdr.imageSpec y
      forLoop
        (fun x (st : BinaryReader × Image) =>
          let rx := getTransformedX E hdr.imageSpec x
          match st.1.readSpan Size with
          | .error e => .error e
          | .ok (pixelData, reader) =>
            match st.2.setPixel rx ry (E.convert P pixelData) with
            | .error e => .error e
            | .ok bufImage => .ok (reader, bufImage))
        0 hdr.imageSpec.width st)
    0 hdr.imageSpec.height
    ((⟨self.imageData, 0⟩ : BinaryReader), Image.create hdr.imageSpec.width hdr.imageSpec.height)

/-- The lambda `loadData<P, Size>` of `parseTrueColorImageData`: the loops, then
`image = bufImage.makeRaw()`. -/
def loadData (E : Externals) (self : TGADecoder) (hdr : TGAHeader) (P : Pixel) (Size : Nat) :
    Except DecodeError TGADecoder :=
  match loadDataPixels E self hdr P Size with
  | .error e => .error e
  | .ok st => .ok { self with image := st.2 }

/-- `TGADecoder::parseTrueColorImageData`. -/
def parseTrueColorImageData (E : Externals) (self : TGADecoder) (hdr : TGAHeader) :
    Except DecodeError TGADecoder :=
  match pixelOfDepth hdr.imageSpec.pixelDepth with
  | some (P, Size) => loadData E self hdr P Size
  | none => .error (.imageDecoder "Invalid pixel format")

/-- The block "Read image ID" of `TGADecoder::decode`: `idLength` octets are read (and
dropped) when `idLength` is nonzero. -/
def readImageId (reader : BinaryReader) (hdr : TGAHeader) : Except DecodeError BinaryReader :=
  if hdr.idLength ≠ 0 then
    match reader.readSpan hdr.idLength with
    | .error e => .error e
    | .ok (_, reader) => .ok reader
  else .ok reader

/-- The block "Read color map data" of `TGADecoder::decode`: with a nonzero colour-map type
`colorMapData` is resized to `getColorMapSize` octets and filled from the reader; a failed
read leaves the resized vector behind. -/
def readColorMapData (self : TGADecoder) (reader : BinaryReader) (hdr : TGAHeader) :
    TGADecoder × Except DecodeError BinaryReader :=
  if hdr.colorMapType ≠ 0 then
    match reader.readSpan (getColorMapSize hdr.colorMapSpec) with
    | .error e =>
      ({ self with colorMapData := resize self.colorMapData (getColorMapSize hdr.colorMapSpec) },
        .error e)
    | .ok (bytes, reader) => ({ self with colorMapData := bytes }, .ok reader)
  else (self, .ok reader)

/-- The block "Read image data" of `TGADecoder::decode`: for the image types 1, 2 and 3
`imageData` is resized to `getImageDataSize` octets and filled from the reader; a failed
read leaves the resized vector behind. -/
def readImageData (self : TGADecoder) (reader : BinaryReader) (hdr : TGAHeader) :
    TGADecoder × Except DecodeError BinaryReader :=
  if hdr.imageType = 1 ∨ hdr.imageType = 2 ∨ hdr.imageType = 3 then
    match reader.readSpan (getImageDataSize hdr.imageSpec) with
    | .error e =>
      ({ self with imageData := resize self.imageData (getImageDataSize hdr.imageSpec) },
        .error e)
    | .ok (bytes, reader) => ({ self with imageData := bytes }, .ok reader)
  else (self, .ok reader)

/-- The `switch (hdr.imageType)` of `TGADecoder::decode`. -/
def parseImage (E : Externals) (self : TGADecoder) (hdr : TGAHeader) :
    Except DecodeError TGADecoder :=
  if hdr.imageType = 0 then
    .ok { self with image := Image.create hdr.imageSpec.width hdr.imageSpec.height }
  else if hdr.imageType = 1 then parseColorMapImageData E self hdr
  else if hdr.imageType = 2 then parseTrueColorImageData E self hdr
  else if hdr.imageType = 3 then .ok self
  else if hdr.imageType = 9 ∨ hdr.imageType = 10 ∨ hdr.imageType = 11 then
    .error (.unsupportedOperation "Run-Length Encoded images are not supported")
  else .ok self

/-- `TGADecoder::decode` from "Read image ID" to its end: the id field, the colour map,
the image data, the dispatch on the image type, and `validDecode = true`.  (The
reserved-bits test before it only writes a log line.) -/
def decodeBody (E : Externals) (self : TGADecoder) (reader : BinaryReader) (hdr : TGAHeader) :
    TGADecoder × Except DecodeError Unit :=
  match readImageId reader hdr with
  | .error e => (self, .error e)
  | .ok reader =>
    match readColorMapData self reader hdr with
    | (self, .error e) => (self, .error e)
    | (self, .ok reader) =>
      match readImageData self reader hdr with
      | (self, .error e) => (self, .error e)
      | (self, .ok _) =>
        match parseImage E self hdr with
        | .error e => (self, .error e)
        | .ok self => ({ self with validDecode := true }, .ok ())

/-- `TGADecoder::decode`: the header, then `decodeBody`. -/
def decode (E : Externals) (self : TGADecoder) (data : List Byte) :
    TGADecoder × Except DecodeError Unit :=
  let self := { self with validDecode := false }
  let reader : BinaryReader := ⟨data, 0⟩
  -- Read header
  match reader.readU8 with
  | .error e => (self, .error e)
  | .ok (idLength, reader) =>
  match reader.readU8 with
  | .error e => (self, .error e)
  | .ok (colorMapType, reader) =>
  if colorMapType > 1 then (self, .error (.imageDecoder "Invalid color map type")) else
  match reader.readU8 with
  | .error e => (self, .error e)
  | .ok (imageType, reader) =>
  if imageType ≠ 0 ∧ imageType ≠ 1 ∧ imageType ≠ 2 ∧ imageType ≠ 3 ∧ imageType ≠ 9
      ∧ imageType ≠ 10 ∧ imageType ≠ 11 then
    (self, .error (.imageDecoder "Invalid image type"))
  else
  -- Read color map specification
  match
    (if colorMapType ≠ 0 then
      match reader.readU16 with
      | .error e => Except.error e
      | .ok (firstEntryIndex, reader) =>
      match reader.readU16 with
      | .error e => Except.error e
      | .ok (colorMapLength, reader) =>
      match reader.readU8 with
      | .error e => Except.error e
      | .ok (colorMapEntrySize, reader) =>
        Except.ok
          ((⟨firstEntryIndex, colorMapLength, colorMapEntrySize⟩ : TGAColorMapSpecification), reader)
    else
      match reader.seek 5 with
      | .error e => Except.error e
      | .ok reader => Except.ok ((⟨0, 0, 0⟩ : TGAColorMapSpecification), reader))
  with
  | .error e => (self, .error e)
  | .ok (colorMapSpec, reader) =>
  -- Read image specification
  match reader.readU16 with
  | .error e => (self, .error e)
  | .ok (originX, reader) =>
  let self := { self with origin := { self.origin with x := originX } }
  match reader.readU16 with
  | .error e => (self, .error e)
  | .ok (originY, reader) =>
  let self := { self with origin := { self.origin with y := originY } }
  match reader.readU16 with
  | .error e => (self, .error e)
  | .ok (width, reader) =>
  if width = 0 then (self, .error (.imageDecoder "Width should not be zero")) else
  match reader.readU16 with
  | .error e => (self, .error e)
  | .ok (height, reader) =>
  if height = 0 then (self, .error (.imageDecoder "Width should not be zero")) else
  match reader.readU8 with
  | .error e => (self, .error e)
  | .ok (pixelDepth, reader) =>
  match reader.readU8 with
  | .error e => (self, .error e)
  | .ok (imageDescriptor, reader) =>
  decodeBody E self reader
    ⟨idLength, colorMapType, imageType, colorMapSpec,
      ⟨originX, originY, width, height, pixelDepth, imageDescriptor⟩⟩

/-- `TGADecoder::getImage`. -/
def getImage (self : TGADecoder) : Except DecodeError Image :=
  if !self.validDecode then .error (.imageDecoder "Bad image decode") else .ok self.image

/-- A run of `decode` calls on one decoder object; a caller catches each exception and goes on. -/
def decodeAll (E : Externals) (self : TGADecoder) (inputs : List (List Byte)) : TGADecoder :=
  inputs.foldl (fun d data => (decode E d data).1) self

/-! ## Vocabulary of the statements -/

/-- Whether an outcome is a format error (an `ImageDecoderException`). -/
def isFormatError : Except DecodeError Unit → Bool
  | .error (.imageDecoder _) => true
  | _ => false

/-- Whether an outcome is an unsupported-operation error. -/
def isUnsupported : Except DecodeError Unit → Bool
  | .error (.unsupportedOperation _) => true
  | _ => false

/-- Octet `i` of an input as a number (0 when the input is shorter). -/
def byteAt (data : List Byte) (i : Nat) : Nat := (data.getD i 0).val

/-- The 16 bit field at offset `i` of an input, least significant octet first. -/
def wordAt (data : List Byte) (i : Nat) : Nat := byteAt data i + 256 * byteAt data (i + 1)

/-- The header record that `decode` builds from an input holding the 18 header octets:
the colour-map specification is read when the colour-map type is nonzero and stays zero
otherwise.  (`decode_header` proves that this is the record handed to `decodeBody`.) -/
def headerOf (data : List Byte) : TGAHeader :=
  ⟨byteAt data 0, byteAt data 1, byteAt data 2,
    if byteAt data 1 ≠ 0 then ⟨wordAt data 3, wordAt data 5, byteAt data 7⟩ else ⟨0, 0, 0⟩,
    ⟨wordAt data 8, wordAt data 10, wordAt data 12, wordAt data 14, byteAt data 16,
      byteAt data 17⟩⟩

/-- Whether an image type is one of the seven accepted values. -/
def validImageType (t : Nat) : Bool :=
  t = 0 || t = 1 || t = 2 || t = 3 || t = 9 || t = 10 || t = 11

/-- The number of colour-map octets `decode` reads for a header. -/
def colorMapBytes (hdr : TGAHeader) : Nat :=
  if hdr.colorMapType ≠ 0 then getColorMapSize hdr.colorMapSpec else 0

/-- The offset of the image data: the fixed header, the id field and the colour map. -/
def imageDataOffset (hdr : TGAHeader) : Nat := 18 + hdr.idLength + colorMapBytes hdr

/-- The octets `[offset, offset + count)` of a buffer. -/
def slice (v : List Byte) (offset count : Nat) : List Byte := (v.drop offset).take count

/-- The shape of a `w` by `h` image: its dimensions and a full pixel store. -/
def Image.hasShape (img : Image) (w h : Nat) : Prop :=
  img.width = w ∧ img.height = h ∧ img.pixels.length = w * h

instance (img : Image) (w h : Nat) : Decidable (img.hasShape w h) := by
  unfold Image.hasShape
  exact inferInstance

/-- The decoder object once the image specification has been read: the validity flag is
reset and the origin of the header is recorded. -/
def afterHeader (self : TGADecoder) (hdr : TGAHeader) : TGADecoder :=
  { self with validDecode := false, origin := ⟨hdr.imageSpec.originX, hdr.imageSpec.originY⟩ }

/-- The decoder object once the colour map (if any) has been read from `data`. -/
def withColorMap (self : TGADecoder) (data : List Byte) (hdr : TGAHeader) : TGADecoder :=
  if hdr.colorMapType ≠ 0 then
    { self with colorMapData := slice data (18 + hdr.idLength) (getColorMapSize hdr.colorMapSpec) }
  else self

/-- The decoder object once colour map and image data have been read from `data`. -/
def withImageData (self : TGADecoder) (data : List Byte) (hdr : TGAHeader) : TGADecoder :=
  { withColorMap self data hdr with
    imageData := slice data (imageDataOffset hdr) (getImageDataSize hdr.imageSpec) }

/-- The pixels written so far when the loops of a plane decoder stand at row `y`, column `x`:
the image has the shape of the header and every logical position before `(x, y)` in
storage order holds, at its remapped place, the pixel `px` assigns to it. -/
def Written (E : Externals) (spec : TGAImageSpecification) (px : Nat → Nat → PixelBGRA8)
    (img : Image) (y x : Nat) : Prop :=
  img.hasShape spec.width spec.height ∧
    ∀ x2 y2, x2 < spec.width → (y2 < y ∨ (y2 = y ∧ x2 < x)) →
      img.getPixel (getTransformedX E spec x2) (getTransformedY E spec y2) = some (px x2 y2)

/-- The pixel `loadData<P, Size>` assigns to the logical position `(x, y)`: the conversion of
the `Size` octets of the image data at `(x + y * width) * Size`. -/
def trueColorPixel (E : Externals) (imageData : List Byte) (width : Nat) (P : Pixel) (Size : Nat)
    (x y : Nat) : PixelBGRA8 :=
  E.convert P (slice imageData ((x + y * width) * Size) Size)

/-- The pixel `buildImage` assigns to the logical position `(x, y)`: the table entry at the
index found at `x + y * width` of the image data. -/
def colorMappedPixel (colorMap : List PixelBGRA8) (imageData : List Byte) (width : Nat)
    (x y : Nat) : PixelBGRA8 :=
  colorMap.getD (imageData.getD (x + y * width) 0).val default

/-- Whether an input holds the 18 header octets and passes the four validations of `decode`:
colour-map type 0 or 1, an accepted image type, nonzero width and height. -/
def validHeader (data : List Byte) : Bool :=
  decide (18 ≤ data.length) && decide (byteAt data 1 ≤ 1) && validImageType (byteAt data 2)
    && decide (wordAt data 12 ≠ 0) && decide (wordAt data 14 ≠ 0)

/-- Collaborators used to run the decoder on sample inputs: the specification's bit-field
mask, and a conversion that copies the first three octets and takes alpha from a fourth
octet when the source has one (255 otherwise). -/
def sampleExternals : Externals :=
  ⟨Bits.mask, fun P bs =>
    ⟨(bs.getD 0 0).val, (bs.getD 1 0).val, (bs.getD 2 0).val,
      match P with
      | .RGBA8 => (bs.getD 3 0).val
      | _ => 255⟩⟩

/-- A decoder object on which `decode` has not been called: no valid image, empty buffers. -/
def freshDecoder : TGADecoder := ⟨false, Image.create 0 0, ⟨0, 0⟩, [], []⟩

/-- A true-colour sample: 2 by 1 pixels of 24 bits, descriptor `0x20`, octets 1 to 6. -/
def sampleTrueColor : List Byte :=
  [0, 0, 2, 0, 0, 0, 0, 0, 0, 0, 0, 0, 2, 0, 1, 0, 24, 0x20, 1, 2, 3, 4, 5, 6]

/-- A black-and-white sample (image type 3): 1 by 1 pixel of 8 bits. -/
def sampleBlackWhite : List Byte :=
  [0, 0, 3, 0, 0, 0, 0, 0, 0, 0, 0, 0, 1, 0, 1, 0, 8, 0x20, 7]

/-- A sample without image data (image type 0): 3 by 2 pixels, origin (5, 6), nothing after
the header. -/
def sampleNoData : List Byte :=
  [0, 0, 0, 0, 0, 0, 0, 0, 5, 0, 6, 0, 3, 0, 2, 0, 24, 0]

/-- A sample whose colour-map type is invalid; its origin fields hold (3, 4). -/
def sampleBadColorMapType : List Byte :=
  [0, 2, 2, 0, 0, 0, 0, 0, 3, 0, 4, 0, 1, 0, 1, 0, 24, 0]

/-- A sample with valid colour-map and image type, origin fields (3, 4) and width 0. -/
def sampleZeroWidth : List Byte :=
  [0, 0, 2, 0, 0, 0, 0, 0, 3, 0, 4, 0, 0, 0, 1, 0, 24, 0]

/-- A run-length encoded sample (image type 10) with a colour map of one 24 bit entry and
no octet after the colour map. -/
def sampleRunLength : List Byte :=
  [0, 1, 10, 0, 0, 1, 0, 24, 0, 0, 0, 0, 2, 0, 1, 0, 24, 0, 9, 9, 9]

/-- A colour-mapped sample with 16 bit indices: one 24 bit colour-map entry, 2 by 1 pixels. -/
def sampleIndexed16 : List Byte :=
  [0, 1, 1, 0, 0, 1, 0, 24, 0, 0, 0, 0, 2, 0, 1, 0, 16, 0x20, 1, 2, 3, 0, 0, 0, 0]

/-- A colour-mapped sample with 4 bit indices: one 24 bit colour-map entry, 2 by 1 pixels,
one octet of image data. -/
def sampleIndexed4 : List Byte :=
  [0, 1, 1, 0, 0, 1, 0, 24, 0, 0, 0, 0, 2, 0, 1, 0, 4, 0x20, 1, 2, 3, 0]

/-- The header of an uncompressed true-colour image of 16384 by 16384 pixels of 16 bits
(descriptor `0x20`, no id field, no colour map): 536870912 octets of image data. -/
def headerTrueColor16384x16384x16 : List Byte :=
  [0, 0, 2, 0, 0, 0, 0, 0, 0, 0, 0, 0, 0, 64, 0, 64, 16, 0x20]

/-- The header of an uncompressed true-colour image of 16384 by 8192 pixels of 32 bits
(descriptor `0x20`, no id field, no colour map): 536870912 octets of image data. -/
def headerTrueColor16384x8192x32 : List Byte :=
  [0, 0, 2, 0, 0, 0, 0, 0, 0, 0, 0, 0, 0, 64, 0, 32, 32, 0x20]

/-- The header and colour map of an uncompressed colour-mapped image of 32768 by 16384
pixels with 8 bit indices and one 24 bit colour-map entry: 536870912 index octets. -/
def headerIndexed32768x16384 : List Byte :=
  [0, 1, 1, 0, 0, 1, 0, 24, 0, 0, 0, 0, 0, 128, 0, 64, 8, 0x20, 10, 20, 30]

/-- The header and colour map of an uncompressed colour-mapped image of 16384 by 32768
pixels with 8 bit indices and two 16 bit colour-map entries: 536870912 index octets. -/
def headerIndexed16384x32768 : List Byte :=
  [0, 1, 1, 0, 0, 2, 0, 16, 0, 0, 0, 0, 0, 64, 0, 128, 8, 0x20, 10, 20, 30, 40]

/-- A colour-mapped sample: two 24 bit colour-map entries, 2 by 1 pixels with the 8 bit
indices 1 and 0, descriptor `0x20`. -/
def sampleIndexed8 : List Byte :=
  [0, 1, 1, 0, 0, 2, 0, 24, 0, 0, 0, 0, 2, 0, 1, 0, 8, 0x20, 1, 2, 3, 4, 5, 6, 1, 0]

/-- Two readers at the same cursor, at or after offset 18, over buffers of the same length
that agree from offset 18 on. -/
def sameFrom18 (r1 r2 : BinaryReader) : Prop :=
  r1.position = r2.position ∧ 18 ≤ r1.position ∧ r1.data.length = r2.data.length
    ∧ r1.data.drop 18 = r2.data.drop 18

/-- The number of image-data octets a header declares: `width * height * pixelDepth / 8` in
unbounded arithmetic, the size the specification gives the raw image-data buffer.
(`getImageDataSize` is the decoder's 32 bit computation of this number.) -/
def declaredImageBytes (hdr : TGAHeader) : Nat :=
  hdr.imageSpec.width * hdr.imageSpec.height * hdr.imageSpec.pixelDepth / 8

/-- The header and colour map of an uncompressed colour-mapped image of 16384 by 8192 pixels
with 16 bit indices and one 24 bit colour-map entry: 268435456 octets of image data. -/
def headerIndexed16384x8192x16 : List Byte :=
  [0, 1, 1, 0, 0, 1, 0, 24, 0, 0, 0, 0, 0, 64, 0, 32, 16, 0x20, 10, 20, 30]

/-- The header and colour map of an uncompressed colour-mapped image of 16384 by 8192 pixels
with 24 bit indices and one 24 bit colour-map entry: 402653184 octets of image data. -/
def headerIndexed16384x8192x24 : List Byte :=
  [0, 1, 1, 0, 0, 1, 0, 24, 0, 0, 0, 0, 0, 64, 0, 32, 24, 0x20, 10, 20, 30]

/-- The header and colour map of an uncompressed colour-mapped image of 16384 by 16384
pixels with 8 bit indices and one 8 bit colour-map entry: 268435456 index octets. -/
def headerIndexedEntry8x16384x16384 : List Byte :=
  [0, 1, 1, 0, 0, 1, 0, 8, 0, 0, 0, 0, 0, 64, 0, 64, 8, 0x20, 9]

/-! ## Machine arithmetic: when the reductions are the identity -/

theorem toU32_of_range (z : Int) (h0 : 0 ≤ z) (h1 : z < 4294967296) : toU32 z = z.toNat := by
  unfold toU32
  rw [Int.emod_eq_of_lt h0 h1]

theorem toU32_natCast (n : Nat) (h : n < 4294967296) : toU32 (n : Int) = n := by
  rw [toU32_of_range _ (by omega) (by omega)]
  simp

theorem wrapInt32_of_range (z : Int) (h0 : -2147483648 ≤ z) (h1 : z < 2147483648) :
    wrapInt32 z = z := by
  unfold wrapInt32
  omega

theorem tdiv_natCast_eight (n : Nat) : Int.tdiv (n : Int) 8 = ((n / 8 : Nat) : Int) := by
  rw [Int.tdiv_eq_ediv (by omega) (by omega)]
  simp

/-- No overflow can occur in `getColorMapSize` for a 16 bit length and an 8 bit entry size. -/
theorem getColorMapSize_eq (spec : TGAColorMapSpecification)
    (hl : spec.colorMapLength < 65536) (he : spec.colorMapEntrySize < 256) :
    getColorMapSize spec = spec.colorMapLength * spec.colorMapEntrySize / 8 := by
  unfold getColorMapSize
  have h1 : spec.colorMapLength * spec.colorMapEntrySize < 65536 * 256 :=
    Nat.mul_lt_mul'' hl he
  have h2 : ((spec.colorMapLength : Int) * (spec.colorMapEntrySize : Int))
      = ((spec.colorMapLength * spec.colorMapEntrySize : Nat) : Int) := by push_cast; rfl
  have h3 : wrapInt32 ((spec.colorMapLength * spec.colorMapEntrySize : Nat) : Int)
      = ((spec.colorMapLength * spec.colorMapEntrySize : Nat) : Int) :=
    wrapInt32_of_range _ (by omega) (by omega)
  rw [h2, h3, tdiv_natCast_eight, toU32_natCast]
  omega

/-- Below `2 ^ 31` bits of image data `getImageDataSize` is the exact quotient. -/
theorem getImageDataSize_eq (spec : TGAImageSpecification)
    (h : spec.width * spec.height * spec.pixelDepth < 2147483648) :
    getImageDataSize spec = spec.width * spec.height * spec.pixelDepth / 8 := by
  unfold getImageDataSize
  rcases Nat.eq_zero_or_pos spec.pixelDepth with hd | hd
  · have h0 : toU32 (Int.tdiv (wrapInt32 0) 8) = 0 := by decide
    rw [hd, Nat.cast_zero, Int.mul_zero, h0, Nat.mul_zero, Nat.zero_div]
  · have h1 : spec.width * spec.height ≤ spec.width * spec.height * spec.pixelDepth :=
      Nat.le_mul_of_pos_right _ hd
    have h2 : ((spec.width : Int) * (spec.height : Int))
        = ((spec.width * spec.height : Nat) : Int) := by push_cast; rfl
    have h3 : wrapInt32 ((spec.width * spec.height : Nat) : Int)
        = ((spec.width * spec.height : Nat) : Int) :=
      wrapInt32_of_range _ (by omega) (by omega)
    have h4 : (((spec.width * spec.height : Nat) : Int) * (spec.pixelDepth : Int))
        = ((spec.width * spec.height * spec.pixelDepth : Nat) : Int) := by push_cast; rfl
    have h5 : wrapInt32 ((spec.width * spec.height * spec.pixelDepth : Nat) : Int)
        = ((spec.width * spec.height * spec.pixelDepth : Nat) : Int) :=
      wrapInt32_of_range _ (by omega) (by omega)
    rw [h2, h3, h4, h5, tdiv_natCast_eight, toU32_natCast]
    omega

/-! ## The loop rule -/

/-- Hoare rule for `forLoop`: an invariant kept by every iteration that does not throw
holds at the end, and an exception satisfies what every throwing iteration guarantees. -/
theorem forLoop_rule {σ : Type} (body : Nat → σ → Except DecodeError σ)
    (Inv : Nat → σ → Prop) (Bad : DecodeError → Prop) :
    ∀ (n i : Nat) (s : σ), Inv i s →
      (∀ j t, i ≤ j → j < i + n → Inv j t →
        (∃ t2, body j t = .ok t2 ∧ Inv (j + 1) t2) ∨ (∃ e, body j t = .error e ∧ Bad e)) →
      (∃ t, forLoop body i n s = .ok t ∧ Inv (i + n) t)
        ∨ (∃ e, forLoop body i n s = .error e ∧ Bad e) := by
  intro n
  induction n with
  | zero =>
    intro i s hinv _
    exact Or.inl ⟨s, rfl, by simpa using hinv⟩
  | succ n ih =>
    intro i s hinv hstep
    rcases hstep i s (Nat.le_refl _) (by omega) hinv with ⟨t2, hb, hi2⟩ | ⟨e, hb, he⟩
    · have hrec := ih (i + 1) t2 hi2 (fun j t hj1 hj2 hj => hstep j t (by omega) (by omega) hj)
      simp only [forLoop, hb]
      rcases hrec with ⟨t, h1, h2⟩ | ⟨e, h1, h2⟩
      · exact Or.inl ⟨t, h1, by rw [show i + (n + 1) = i + 1 + n by omega]; exact h2⟩
      · exact Or.inr ⟨e, h1, h2⟩
    · simp only [forLoop, hb]
      exact Or.inr ⟨e, rfl, he⟩

/-- The rule for a loop none of whose iterations throws. -/
theorem forLoop_ok {σ : Type} (body : Nat → σ → Except DecodeError σ)
    (Inv : Nat → σ → Prop) (n i : Nat) (s : σ) (h0 : Inv i s)
    (hstep : ∀ j t, i ≤ j → j < i + n → Inv j t → ∃ t2, body j t = .ok t2 ∧ Inv (j + 1) t2) :
    ∃ t, forLoop body i n s = .ok t ∧ Inv (i + n) t := by
  rcases forLoop_rule body Inv (fun _ => False) n i s h0
    (fun j t h1 h2 h3 => Or.inl (hstep j t h1 h2 h3)) with h | ⟨e, _, he⟩
  · exact h
  · exact he.elim

/-- A loop whose first iteration throws. -/
theorem forLoop_first_error {σ : Type} (body : Nat → σ → Except DecodeError σ)
    (n i : Nat) (s : σ) (e : DecodeError) (hn : 0 < n) (h : body i s = .error e) :
    forLoop body i n s = .error e := by
  obtain ⟨m, rfl⟩ : ∃ m, n = m + 1 := ⟨n - 1, by omega⟩
  simp only [forLoop, h]

/-! ## The output image -/

theorem index_lt {w h x y : Nat} (hx : x < w) (hy : y < h) : y * w + x < w * h := by
  have h1 : (y + 1) * w ≤ h * w := Nat.mul_le_mul_right w hy
  have h2 : (y + 1) * w = y * w + w := Nat.succ_mul y w
  have h3 : h * w = w * h := Nat.mul_comm h w
  omega

theorem index_inj {w x y x2 y2 : Nat} (hx : x < w) (hx2 : x2 < w)
    (h : y * w + x = y2 * w + x2) : x = x2 ∧ y = y2 := by
  have hy : y = y2 := by
    rcases Nat.lt_trichotomy y y2 with hlt | heq | hgt
    · have h1 : (y + 1) * w ≤ y2 * w := Nat.mul_le_mul_right w hlt
      have h2 : (y + 1) * w = y * w + w := Nat.succ_mul y w
      omega
    · exact heq
    · have h1 : (y2 + 1) * w ≤ y * w := Nat.mul_le_mul_right w hgt
      have h2 : (y2 + 1) * w = y2 * w + w := Nat.succ_mul y2 w
      omega
  subst hy
  exact ⟨by omega, rfl⟩

theorem Image.create_hasShape (w h : Nat) : (Image.create w h).hasShape w h := by
  simp [Image.create, Image.hasShape]

/-- Writing a pixel inside a well-shaped image succeeds and keeps the shape. -/
theorem Image.setPixel_ok {img : Image} {w h x y : Nat} (p : PixelBGRA8)
    (hs : img.hasShape w h) (hx : x < w) (hy : y < h) :
    ∃ img2, img.setPixel x y p = .ok img2 ∧ img2.hasShape w h
      ∧ img2.getPixel x y = some p
      ∧ ∀ x2 y2, x2 < w → (x2 ≠ x ∨ y2 ≠ y) → img2.getPixel x2 y2 = img.getPixel x2 y2 := by
  obtain ⟨hw, hh, hl⟩ := hs
  refine ⟨{ img with pixels := img.pixels.set (y * img.width + x) p }, ?_, ?_, ?_, ?_⟩
  · simp [Image.setPixel, hw, hh, hx, hy]
  · simp [Image.hasShape, hw, hh, hl]
  · have hi : y * w + x < w * h := index_lt hx hy
    simp [Image.getPixel, hw, hh, hx, hy, List.getElem?_set, hl, hi]
  · intro x2 y2 hx2 hne
    simp only [Image.getPixel, hw, hh]
    split
    · have hne2 : y * w + x ≠ y2 * w + x2 := by
        intro heq
        have := index_inj hx hx2 heq
        omega
      rw [List.getElem?_set_ne hne2]
    · rfl

/-! ## The coordinate mapper -/

theorem toU32_flip (n x : Nat) (hn : n < 4294967296) (hx : x < n) :
    toU32 ((n : Int) - (x : Int) - 1) = n - 1 - x := by
  have h : (n : Int) - (x : Int) - 1 = ((n - 1 - x : Nat) : Int) := by omega
  rw [h, toU32_natCast _ (by omega)]

/-- Within a row the mapper is either the identity or the mirror, the same for every `x`. -/
theorem getTransformedX_cases (E : Externals) (spec : TGAImageSpecification)
    (hw : spec.width < 4294967296) :
    (∀ x, x < spec.width → getTransformedX E spec x = x)
      ∨ (∀ x, x < spec.width → getTransformedX E spec x = spec.width - 1 - x) := by
  by_cases hf : getImageOriginMode E spec &&& 0x10 ≠ 0
  · right
    intro x hx
    rw [getTransformedX, if_pos hf]
    exact toU32_flip _ _ hw hx
  · left
    intro x _
    rw [getTransformedX, if_neg hf]

/-- Within a column the mapper is either the identity or the mirror, the same for every `y`. -/
theorem getTransformedY_cases (E : Externals) (spec : TGAImageSpecification)
    (hh : spec.height < 4294967296) :
    (∀ y, y < spec.height → getTransformedY E spec y = y)
      ∨ (∀ y, y < spec.height → getTransformedY E spec y = spec.height - 1 - y) := by
  by_cases hf : getImageOriginMode E spec &&& 0x20 ≠ 0
  · left
    intro y _
    rw [getTransformedY, if_pos hf]
  · right
    intro y hy
    rw [getTransformedY, if_neg hf]
    exact toU32_flip _ _ hh hy

theorem getTransformedX_lt (E : Externals) (spec : TGAImageSpecification)
    (hw : spec.width < 4294967296) (x : Nat) (hx : x < spec.width) :
    getTransformedX E spec x < spec.width := by
  rcases getTransformedX_cases E spec hw with h | h <;> rw [h x hx] <;> omega

theorem getTransformedY_lt (E : Externals) (spec : TGAImageSpecification)
    (hh : spec.height < 4294967296) (y : Nat) (hy : y < spec.height) :
    getTransformedY E spec y < spec.height := by
  rcases getTransformedY_cases E spec hh with h | h <;> rw [h y hy] <;> omega

theorem getTransformedX_inj (E : Externals) (spec : TGAImageSpecification)
    (hw : spec.width < 4294967296) (x x2 : Nat) (hx : x < spec.width) (hx2 : x2 < spec.width)
    (h : getTransformedX E spec x = getTransformedX E spec x2) : x = x2 := by
  rcases getTransformedX_cases E spec hw with hc | hc <;> rw [hc x hx, hc x2 hx2] at h <;> omega

theorem getTransformedY_inj (E : Externals) (spec : TGAImageSpecification)
    (hh : spec.height < 4294967296) (y y2 : Nat) (hy : y < spec.height) (hy2 : y2 < spec.height)
    (h : getTransformedY E spec y = getTransformedY E spec y2) : y = y2 := by
  rcases getTransformedY_cases E spec hh with hc | hc <;> rw [hc y hy, hc y2 hy2] at h <;> omega

theorem getTransformedX_invol (E : Externals) (spec : TGAImageSpecification)
    (hw : spec.width < 4294967296) (x : Nat) (hx : x < spec.width) :
    getTransformedX E spec (getTransformedX E spec x) = x := by
  rcases getTransformedX_cases E spec hw with hc | hc
  · rw [hc x hx, hc x hx]
  · rw [hc x hx, hc _ (by omega)]
    omega

theorem getTransformedY_invol (E : Externals) (spec : TGAImageSpecification)
    (hh : spec.height < 4294967296) (y : Nat) (hy : y < spec.height) :
    getTransformedY E spec (getTransformedY E spec y) = y := by
  rcases getTransformedY_cases E spec hh with hc | hc
  · rw [hc y hy, hc y hy]
  · rw [hc y hy, hc _ (by omega)]
    omega

/-! ## The header -/

theorem exists_cons18 (data : List Byte) (h : 18 ≤ data.length) :
    ∃ b0 b1 b2 b3 b4 b5 b6 b7 b8 b9 b10 b11 b12 b13 b14 b15 b16 b17 rest,
      data = b0 :: b1 :: b2 :: b3 :: b4 :: b5 :: b6 :: b7 :: b8 :: b9 :: b10 :: b11 :: b12
        :: b13 :: b14 :: b15 :: b16 :: b17 :: rest := by
  rcases data with _ | ⟨b0, _ | ⟨b1, _ | ⟨b2, _ | ⟨b3, _ | ⟨b4, _ | ⟨b5, _ | ⟨b6, _ | ⟨b7,
    _ | ⟨b8, _ | ⟨b9, _ | ⟨b10, _ | ⟨b11, _ | ⟨b12, _ | ⟨b13, _ | ⟨b14, _ | ⟨b15, _ | ⟨b16,
    _ | ⟨b17, rest⟩⟩⟩⟩⟩⟩⟩⟩⟩⟩⟩⟩⟩⟩⟩⟩⟩⟩ <;> first
    | (simp at h; done)
    | (simp only [List.length_cons] at h; omega)
    | exact ⟨_, _, _, _, _, _, _, _, _, _, _, _, _, _, _, _, _, _, _, rfl⟩

/-- What `decode` does on an input that holds the 18 header octets: the four validations
in their order, then `decodeBody` on the header record, with the cursor at offset 18. -/
theorem decode_header (E : Externals) (s : TGADecoder) (data : List Byte)
    (hlen : 18 ≤ data.length) :
    decode E s data =
      if 1 < byteAt data 1 then
        ({ s with validDecode := false }, .error (.imageDecoder "Invalid color map type"))
      else if validImageType (byteAt data 2) = false then
        ({ s with validDecode := false }, .error (.imageDecoder "Invalid image type"))
      else if wordAt data 12 = 0 then
        (afterHeader s (headerOf data), .error (.imageDecoder "Width should not be zero"))
      else if wordAt data 14 = 0 then
        (afterHeader s (headerOf data), .error (.imageDecoder "Width should not be zero"))
      else decodeBody E (afterHeader s (headerOf data)) ⟨data, 18⟩ (headerOf data) := by
  obtain ⟨b0, b1, b2, b3, b4, b5, b6, b7, b8, b9, b10, b11, b12, b13, b14, b15, b16, b17, rest,
    rfl⟩ := exists_cons18 data hlen
  by_cases h1 : 1 < b1.val
  · simp [decode, BinaryReader.readU8, byteAt, h1]
  · by_cases h2 : validImageType b2.val = false
    · have h2b := h2
      simp [validImageType] at h2b
      simp [decode, BinaryReader.readU8, byteAt, h1, h2, h2b]
    · have h2b := h2
      simp [validImageType] at h2b
      have h2c : ¬ (b2.val ≠ 0 ∧ b2.val ≠ 1 ∧ b2.val ≠ 2 ∧ b2.val ≠ 3 ∧ b2.val ≠ 9
          ∧ b2.val ≠ 10 ∧ b2.val ≠ 11) := by omega
      by_cases h3 : b1.val = 0
      · by_cases hw : b12.val + 256 * b13.val = 0
        · simp [decode, BinaryReader.readU8, BinaryReader.readU16, BinaryReader.seek, byteAt,
            wordAt, headerOf, afterHeader, h1, h2, h2c, h3, hw]
        · by_cases hh : b14.val + 256 * b15.val = 0
          · simp [decode, BinaryReader.readU8, BinaryReader.readU16, BinaryReader.seek, byteAt,
              wordAt, headerOf, afterHeader, h1, h2, h2c, h3, hw, hh]
          · simp [decode, BinaryReader.readU8, BinaryReader.readU16, BinaryReader.seek, byteAt,
              wordAt, headerOf, afterHeader, h1, h2, h2c, h3, hw, hh]
      · by_cases hw : b12.val + 256 * b13.val = 0
        · simp [decode, BinaryReader.readU8, BinaryReader.readU16, BinaryReader.seek, byteAt,
            wordAt, headerOf, afterHeader, h1, h2, h2c, h3, hw]
        · by_cases hh : b14.val + 256 * b15.val = 0
          · simp [decode, BinaryReader.readU8, BinaryReader.readU16, BinaryReader.seek, byteAt,
              wordAt, headerOf, afterHeader, h1, h2, h2c, h3, hw, hh]
          · simp [decode, BinaryReader.readU8, BinaryReader.readU16, BinaryReader.seek, byteAt,
              wordAt, headerOf, afterHeader, h1, h2, h2c, h3, hw, hh]

/-! ## The reads of `decodeBody` -/

theorem BinaryReader.readSpan_ok (data : List Byte) (pos n : Nat) (h : pos + n ≤ data.length) :
    BinaryReader.readSpan ⟨data, pos⟩ n = .ok (slice data pos n, ⟨data, pos + n⟩) := by
  simp [BinaryReader.readSpan, h, slice]

theorem readImageId_ok (data : List Byte) (hdr : TGAHeader)
    (hlen : 18 + hdr.idLength ≤ data.length) :
    readImageId ⟨data, 18⟩ hdr = .ok ⟨data, 18 + hdr.idLength⟩ := by
  unfold readImageId
  by_cases hid : hdr.idLength = 0
  · simp [hid]
  · rw [if_pos hid, BinaryReader.readSpan_ok data 18 hdr.idLength hlen]

theorem readColorMapData_ok (s : TGADecoder) (data : List Byte) (hdr : TGAHeader)
    (hlen : imageDataOffset hdr ≤ data.length) :
    readColorMapData s ⟨data, 18 + hdr.idLength⟩ hdr
      = (withColorMap s data hdr, .ok ⟨data, imageDataOffset hdr⟩) := by
  unfold imageDataOffset colorMapBytes at *
  unfold readColorMapData withColorMap
  by_cases hc : hdr.colorMapType = 0
  · simp [hc]
  · rw [if_pos hc] at hlen
    rw [if_pos hc, if_pos hc, if_pos hc]
    generalize getColorMapSize hdr.colorMapSpec = n at hlen ⊢
    rw [BinaryReader.readSpan_ok data (18 + hdr.idLength) n hlen]

theorem readImageData_ok (s : TGADecoder) (data : List Byte) (hdr : TGAHeader)
    (ht : hdr.imageType = 1 ∨ hdr.imageType = 2 ∨ hdr.imageType = 3)
    (hlen : imageDataOffset hdr + getImageDataSize hdr.imageSpec ≤ data.length) :
    readImageData (withColorMap s data hdr) ⟨data, imageDataOffset hdr⟩ hdr
      = (withImageData s data hdr,
          .ok ⟨data, imageDataOffset hdr + getImageDataSize hdr.imageSpec⟩) := by
  unfold readImageData withImageData
  rw [if_pos ht]
  generalize getImageDataSize hdr.imageSpec = n at hlen ⊢
  generalize imageDataOffset hdr = m at hlen ⊢
  generalize withColorMap s data hdr = s1
  rw [BinaryReader.readSpan_ok data m n hlen]

theorem readImageData_skip (s : TGADecoder) (r : BinaryReader) (hdr : TGAHeader)
    (ht : ¬ (hdr.imageType = 1 ∨ hdr.imageType = 2 ∨ hdr.imageType = 3)) :
    readImageData s r hdr = (s, .ok r) := by
  unfold readImageData
  rw [if_neg ht]

/-- The image types without image data, with id field and colour map present. -/
theorem decodeBody_noData (E : Externals) (s : TGADecoder) (data : List Byte) (hdr : TGAHeader)
    (ht : ¬ (hdr.imageType = 1 ∨ hdr.imageType = 2 ∨ hdr.imageType = 3))
    (hlen : imageDataOffset hdr ≤ data.length) :
    decodeBody E s ⟨data, 18⟩ hdr =
      match parseImage E (withColorMap s data hdr) hdr with
      | .error e => (withColorMap s data hdr, .error e)
      | .ok s2 => ({ s2 with validDecode := true }, .ok ()) := by
  have h1 : 18 + hdr.idLength ≤ data.length := by unfold imageDataOffset at hlen; omega
  unfold decodeBody
  rw [readImageId_ok data hdr h1]
  simp only []
  rw [readColorMapData_ok s data hdr hlen]
  simp only []
  rw [readImageData_skip _ _ hdr ht]

/-- The image types with image data, with id field, colour map and image data present. -/
theorem decodeBody_data (E : Externals) (s : TGADecoder) (data : List Byte) (hdr : TGAHeader)
    (ht : hdr.imageType = 1 ∨ hdr.imageType = 2 ∨ hdr.imageType = 3)
    (hlen : imageDataOffset hdr + getImageDataSize hdr.imageSpec ≤ data.length) :
    decodeBody E s ⟨data, 18⟩ hdr =
      match parseImage E (withImageData s data hdr) hdr with
      | .error e => (withImageData s data hdr, .error e)
      | .ok s2 => ({ s2 with validDecode := true }, .ok ()) := by
  have h1 : 18 + hdr.idLength ≤ data.length := by unfold imageDataOffset at hlen; omega
  have h2 : imageDataOffset hdr ≤ data.length := by omega
  unfold decodeBody
  rw [readImageId_ok data hdr h1]
  simp only []
  rw [readColorMapData_ok s data hdr h2]
  simp only []
  rw [readImageData_ok s data hdr ht hlen]

/-! ## The validity flag -/

theorem readColorMapData_flag (s : TGADecoder) (r : BinaryReader) (hdr : TGAHeader) :
    (readColorMapData s r hdr).1.validDecode = s.validDecode := by
  unfold readColorMapData
  split
  · split <;> rfl
  · rfl

theorem readImageData_flag (s : TGADecoder) (r : BinaryReader) (hdr : TGAHeader) :
    (readImageData s r hdr).1.validDecode = s.validDecode := by
  unfold readImageData
  split
  · split <;> rfl
  · rfl

/-- From a decoder whose flag is reset, `decodeBody` sets the flag exactly when it does
not throw. -/
theorem decodeBody_flag (E : Externals) (s : TGADecoder) (r : BinaryReader) (hdr : TGAHeader)
    (hs : s.validDecode = false) :
    ((decodeBody E s r hdr).2 = .ok () ∧ (decodeBody E s r hdr).1.validDecode = true)
      ∨ (∃ e, (decodeBody E s r hdr).2 = .error e ∧ (decodeBody E s r hdr).1.validDecode = false) := by
  unfold decodeBody
  cases h1 : readImageId r hdr with
  | error e => exact Or.inr ⟨e, rfl, hs⟩
  | ok r1 =>
    simp only []
    have hf2 := readColorMapData_flag s r1 hdr
    rcases h2 : readColorMapData s r1 hdr with ⟨s2, res2⟩
    rw [h2] at hf2
    simp only [] at hf2
    cases res2 with
    | error e => exact Or.inr ⟨e, rfl, by rw [← hs]; exact hf2⟩
    | ok r2 =>
      simp only []
      have hf3 := readImageData_flag s2 r2 hdr
      rcases h3 : readImageData s2 r2 hdr with ⟨s3, res3⟩
      rw [h3] at hf3
      simp only [] at hf3
      cases res3 with
      | error e => exact Or.inr ⟨e, rfl, by rw [← hs, ← hf2]; exact hf3⟩
      | ok r3 =>
        simp only []
        cases h4 : parseImage E s3 hdr with
        | error e => exact Or.inr ⟨e, rfl, by rw [← hs, ← hf2]; exact hf3⟩
        | ok s4 => exact Or.inl ⟨rfl, rfl⟩

/-- `decode` sets the flag exactly when it does not throw. -/
theorem decode_flag (E : Externals) (s : TGADecoder) (data : List Byte) :
    ((decode E s data).2 = .ok () ∧ (decode E s data).1.validDecode = true)
      ∨ (∃ e, (decode E s data).2 = .error e ∧ (decode E s data).1.validDecode = false) := by
  unfold decode
  simp only []
  repeat' split
  all_goals first
    | exact Or.inr ⟨_, rfl, rfl⟩
    | exact decodeBody_flag _ _ _ _ rfl

/-! ## The colour-map table -/

/-- With `colorMapLength * Size` octets of colour-map data the table is built without any
access outside the data: entry `i` is the conversion of octets `[i * Size, i * Size + Size)`. -/
theorem convertColorMap_ok (E : Externals) (self : TGADecoder) (hdr : TGAHeader) (P : Pixel)
    (Size : Nat)
    (hlen : hdr.colorMapSpec.colorMapLength * Size ≤ self.colorMapData.length) :
    ∃ cm, convertColorMap E self hdr P Size = .ok cm
      ∧ cm.length = hdr.colorMapSpec.colorMapLength
      ∧ ∀ i, i < hdr.colorMapSpec.colorMapLength →
          cm[i]? = some (E.convert P (slice self.colorMapData (i * Size) Size)) := by
  unfold convertColorMap
  generalize hdr.colorMapSpec.colorMapLength = len at hlen ⊢
  have key := forLoop_ok
    (fun i colorMap =>
      match subspan self.colorMapData (i * Size) Size with
      | .error e => .error e
      | .ok pixelData => .ok (colorMap.set i (E.convert P pixelData)))
    (fun i (cm : List PixelBGRA8) => cm.length = len
      ∧ ∀ j, j < i → cm[j]? = some (E.convert P (slice self.colorMapData (j * Size) Size)))
    len 0 (List.replicate len default)
    ⟨by simp, fun j hj => by omega⟩
    (by
      intro j cm _ hj ⟨hl, hprev⟩
      have hb : j * Size + Size ≤ self.colorMapData.length := by
        have h1 : (j + 1) * Size ≤ len * Size := Nat.mul_le_mul_right Size (by omega)
        have h2 : (j + 1) * Size = j * Size + Size := Nat.succ_mul j Size
        omega
      refine ⟨cm.set j (E.convert P (slice self.colorMapData (j * Size) Size)), ?_, ?_, ?_⟩
      · simp only [subspan, hb, if_true, slice]
      · simp [hl]
      · intro k hk
        by_cases hkj : k = j
        · subst hkj
          rw [List.getElem?_set_self (by omega)]
        · rw [List.getElem?_set_ne (by omega)]
          exact hprev k (by omega))
  obtain ⟨cm, h1, h2, h3⟩ := key
  exact ⟨cm, h1, h2, fun i hi => h3 i (by omega)⟩

/-! ## Writing the pixel plane -/

theorem Written.init (E : Externals) (spec : TGAImageSpecification)
    (px : Nat → Nat → PixelBGRA8) :
    Written E spec px (Image.create spec.width spec.height) 0 0 :=
  ⟨Image.create_hasShape _ _, fun _ _ _ h => by omega⟩

theorem Written.nextRow {E : Externals} {spec : TGAImageSpecification}
    {px : Nat → Nat → PixelBGRA8} {img : Image} {y : Nat}
    (h : Written E spec px img y spec.width) : Written E spec px img (y + 1) 0 := by
  refine ⟨h.1, fun x2 y2 hx2 hy2 => h.2 x2 y2 hx2 ?_⟩
  omega

/-- One iteration of the inner loop: the pixel of `(x, y)` is written at its remapped place
and no pixel written before is overwritten. -/
theorem Written.step {E : Externals} {spec : TGAImageSpecification}
    {px : Nat → Nat → PixelBGRA8} {img : Image} {x y : Nat}
    (hw : spec.width < 4294967296) (hh : spec.height < 4294967296)
    (h : Written E spec px img y x) (hx : x < spec.width) (hy : y < spec.height) :
    ∃ img2, img.setPixel (getTransformedX E spec x) (getTransformedY E spec y) (px x y) = .ok img2
      ∧ Written E spec px img2 y (x + 1) := by
  obtain ⟨img2, h1, h2, h3, h4⟩ := Image.setPixel_ok (px x y) h.1
    (getTransformedX_lt E spec hw x hx) (getTransformedY_lt E spec hh y hy)
  refine ⟨img2, h1, h2, ?_⟩
  intro x2 y2 hx2 hpos
  by_cases hsame : x2 = x ∧ y2 = y
  · rw [hsame.1, hsame.2]
    exact h3
  · rw [h4 _ _ (getTransformedX_lt E spec hw x2 hx2)]
    · exact h.2 x2 y2 hx2 (by omega)
    · by_cases hxe : x2 = x
      · right
        intro heq
        have hy2 : y2 < spec.height := by omega
        exact hsame ⟨hxe, getTransformedY_inj E spec hh y2 y hy2 hy heq⟩
      · left
        intro heq
        exact hxe (getTransformedX_inj E spec hw x2 x hx2 hx heq)

/-! ## The true-colour loops -/

/-- With `width * height * Size` octets of image data the loops of `loadData` run to their
end: no read leaves the data, the reader ends exactly at `width * height * Size`, and every
pixel is written. -/
theorem loadDataPixels_ok (E : Externals) (self : TGADecoder) (hdr : TGAHeader) (P : Pixel)
    (Size : Nat)
    (hw : hdr.imageSpec.width < 4294967296) (hh : hdr.imageSpec.height < 4294967296)
    (hlen : hdr.imageSpec.width * hdr.imageSpec.height * Size ≤ self.imageData.length) :
    ∃ img, loadDataPixels E self hdr P Size
        = .ok (⟨self.imageData, hdr.imageSpec.height * hdr.imageSpec.width * Size⟩, img)
      ∧ Written E hdr.imageSpec
          (trueColorPixel E self.imageData hdr.imageSpec.width P Size) img
          hdr.imageSpec.height 0 := by
  unfold loadDataPixels
  have key := forLoop_ok
    (fun y (st : BinaryReader × Image) =>
      let ry := getTransformedY E hdr.imageSpec y
      forLoop
        (fun x (st : BinaryReader × Image) =>
          let rx := getTransformedX E hdr.imageSpec x
          match st.1.readSpan Size with
          | .error e => .error e
          | .ok (pixelData, reader) =>
            match st.2.setPixel rx ry (E.convert P pixelData) with
            | .error e => .error e
            | .ok bufImage => .ok (reader, bufImage))
        0 hdr.imageSpec.width st)
    (fun y (st : BinaryReader × Image) =>
      st.1 = ⟨self.imageData, y * hdr.imageSpec.width * Size⟩
        ∧ Written E hdr.imageSpec
            (trueColorPixel E self.imageData hdr.imageSpec.width P Size) st.2 y 0)
    hdr.imageSpec.height 0
    ((⟨self.imageData, 0⟩ : BinaryReader),
      Image.create hdr.imageSpec.width hdr.imageSpec.height)
    ⟨by simp, Written.init _ _ _⟩
    (by
      intro y st _ hy ⟨hr, hwr⟩
      have hy2 : y < hdr.imageSpec.height := by omega
      have inner := forLoop_ok
        (fun x (st : BinaryReader × Image) =>
          let rx := getTransformedX E hdr.imageSpec x
          match st.1.readSpan Size with
          | .error e => .error e
          | .ok (pixelData, reader) =>
            match st.2.setPixel rx (getTransformedY E hdr.imageSpec y)
                (E.convert P pixelData) with
            | .error e => .error e
            | .ok bufImage => .ok (reader, bufImage))
        (fun x (st : BinaryReader × Image) =>
          st.1 = ⟨self.imageData, (y * hdr.imageSpec.width + x) * Size⟩
            ∧ Written E hdr.imageSpec
                (trueColorPixel E self.imageData hdr.imageSpec.width P Size) st.2 y x)
        hdr.imageSpec.width 0 st
        ⟨by simpa using hr, hwr⟩
        (by
          intro x st2 _ hx ⟨hr2, hwr2⟩
          have hx2 : x < hdr.imageSpec.width := by omega
          obtain ⟨r2, img2⟩ := st2
          simp only [] at hr2 hwr2
          subst hr2
          have hb : (y * hdr.imageSpec.width + x) * Size + Size ≤ self.imageData.length := by
            have h1 : y * hdr.imageSpec.width + x + 1
                ≤ hdr.imageSpec.width * hdr.imageSpec.height := by
              have := index_lt hx2 hy2
              omega
            have h2 : (y * hdr.imageSpec.width + x + 1) * Size
                ≤ hdr.imageSpec.width * hdr.imageSpec.height * Size :=
              Nat.mul_le_mul_right Size h1
            have h3 : (y * hdr.imageSpec.width + x + 1) * Size
                = (y * hdr.imageSpec.width + x) * Size + Size := Nat.succ_mul _ Size
            omega
          obtain ⟨img3, hset, hwr3⟩ := Written.step hw hh hwr2 hx2 hy2
          refine ⟨(⟨self.imageData, (y * hdr.imageSpec.width + (x + 1)) * Size⟩, img3), ?_, ?_, hwr3⟩
          · simp only [BinaryReader.readSpan_ok self.imageData _ Size hb]
            have hpx : E.convert P (slice self.imageData ((y * hdr.imageSpec.width + x) * Size) Size)
                = trueColorPixel E self.imageData hdr.imageSpec.width P Size x y := by
              unfold trueColorPixel
              rw [Nat.add_comm x]
            rw [hpx, hset]
            have h3 : (y * hdr.imageSpec.width + x) * Size + Size
                = (y * hdr.imageSpec.width + (x + 1)) * Size := by
              rw [← Nat.add_assoc, Nat.succ_mul]
            rw [h3]
          · rfl)
      obtain ⟨st3, hrun, hr3, hwr3⟩ := inner
      refine ⟨st3, hrun, ?_, ?_⟩
      · rw [hr3]
        congr 1
        rw [Nat.zero_add, Nat.succ_mul]
      · rw [Nat.zero_add] at hwr3
        exact hwr3.nextRow)
  obtain ⟨st, hrun, hr, hwr⟩ := key
  obtain ⟨r, img⟩ := st
  simp only [] at hr hwr
  rw [Nat.zero_add] at hr hwr
  subst hr
  exact ⟨img, hrun, hwr⟩

/-! ## The colour-mapped loops -/

theorem getElem?_of_getD_lt (l : List Byte) (i : Nat) (h : i < l.length) :
    l[i]? = some (l.getD i 0) := by
  simp [List.getD, List.getElem?_eq_getElem h]

theorem getElem?_pixel_of_lt (l : List PixelBGRA8) (i : Nat) (h : i < l.length) :
    l[i]? = some (l.getD i default) := by
  simp [List.getD, List.getElem?_eq_getElem h]

/-- With `width * height` index octets and a table of `colorMapLength` entries the loops of
`buildImage` access nothing outside their containers.  Either every index is below
`colorMapLength` and every pixel is written, or some index is not and the loops throw the
format error. -/
theorem buildImagePixels_rule (E : Externals) (self : TGADecoder) (hdr : TGAHeader)
    (cm : List PixelBGRA8)
    (hw : hdr.imageSpec.width < 4294967296) (hh : hdr.imageSpec.height < 4294967296)
    (hcm : cm.length = hdr.colorMapSpec.colorMapLength)
    (hlen : hdr.imageSpec.width * hdr.imageSpec.height ≤ self.imageData.length) :
    (∃ img, buildImagePixels E self hdr cm = .ok img
        ∧ Written E hdr.imageSpec (colorMappedPixel cm self.imageData hdr.imageSpec.width) img
            hdr.imageSpec.height 0
        ∧ ∀ x y, x < hdr.imageSpec.width → y < hdr.imageSpec.height →
            (self.imageData.getD (x + y * hdr.imageSpec.width) 0).val
              < hdr.colorMapSpec.colorMapLength)
      ∨ (buildImagePixels E self hdr cm
            = .error (.imageDecoder "Invalid color map index found in image data")
          ∧ ∃ x y, x < hdr.imageSpec.width ∧ y < hdr.imageSpec.height
              ∧ hdr.colorMapSpec.colorMapLength
                ≤ (self.imageData.getD (x + y * hdr.imageSpec.width) 0).val) := by
  unfold buildImagePixels
  have key := forLoop_rule
    (fun y bufImage =>
      let ry := getTransformedY E hdr.imageSpec y
      forLoop
        (fun x bufImage =>
          let rx := getTransformedX E hdr.imageSpec x
          let imageIndex := x + y * hdr.imageSpec.width
          match self.imageData[imageIndex]? with
          | none => .error .undefinedAccess
          | some colorIndex =>
            if colorIndex.val ≥ hdr.colorMapSpec.colorMapLength then
              .error (.imageDecoder "Invalid color map index found in image data")
            else
              match cm[colorIndex.val]? with
              | none => .error .undefinedAccess
              | some c => Image.setPixel bufImage rx ry c)
        0 hdr.imageSpec.width bufImage)
    (fun y (img : Image) =>
      Written E hdr.imageSpec (colorMappedPixel cm self.imageData hdr.imageSpec.width) img y 0
        ∧ ∀ x2 y2, x2 < hdr.imageSpec.width → y2 < y →
            (self.imageData.getD (x2 + y2 * hdr.imageSpec.width) 0).val
              < hdr.colorMapSpec.colorMapLength)
    (fun e => e = .imageDecoder "Invalid color map index found in image data"
      ∧ ∃ x y, x < hdr.imageSpec.width ∧ y < hdr.imageSpec.height
          ∧ hdr.colorMapSpec.colorMapLength
            ≤ (self.imageData.getD (x + y * hdr.imageSpec.width) 0).val)
    hdr.imageSpec.height 0 (Image.create hdr.imageSpec.width hdr.imageSpec.height)
    ⟨Written.init _ _ _, fun _ _ _ h => by omega⟩
    (by
      intro y img _ hy ⟨hwr, hidx⟩
      have hy2 : y < hdr.imageSpec.height := by omega
      have inner := forLoop_rule
        (fun x bufImage =>
          let rx := getTransformedX E hdr.imageSpec x
          let imageIndex := x + y * hdr.imageSpec.width
          match self.imageData[imageIndex]? with
          | none => .error .undefinedAccess
          | some colorIndex =>
            if colorIndex.val ≥ hdr.colorMapSpec.colorMapLength then
              .error (.imageDecoder "Invalid color map index found in image data")
            else
              match cm[colorIndex.val]? with
              | none => .error .undefinedAccess
              | some c => Image.setPixel bufImage rx (getTransformedY E hdr.imageSpec y) c)
        (fun x (img : Image) =>
          Written E hdr.imageSpec (colorMappedPixel cm self.imageData hdr.imageSpec.width)
              img y x
            ∧ ∀ x2 y2, x2 < hdr.imageSpec.width → (y2 < y ∨ (y2 = y ∧ x2 < x)) →
                (self.imageData.getD (x2 + y2 * hdr.imageSpec.width) 0).val
                  < hdr.colorMapSpec.colorMapLength)
        (fun e => e = .imageDecoder "Invalid color map index found in image data"
          ∧ ∃ x y, x < hdr.imageSpec.width ∧ y < hdr.imageSpec.height
              ∧ hdr.colorMapSpec.colorMapLength
                ≤ (self.imageData.getD (x + y * hdr.imageSpec.width) 0).val)
        hdr.imageSpec.width 0 img
        ⟨hwr, fun x2 y2 hx2 h => hidx x2 y2 hx2 (by omega)⟩
        (by
          intro x img2 _ hx ⟨hwr2, hidx2⟩
          have hx2 : x < hdr.imageSpec.width := by omega
          have hi : x + y * hdr.imageSpec.width < self.imageData.length := by
            have := index_lt hx2 hy2
            omega
          simp only [getElem?_of_getD_lt self.imageData _ hi]
          by_cases hbad : hdr.colorMapSpec.colorMapLength
              ≤ (self.imageData.getD (x + y * hdr.imageSpec.width) 0).val
          · right
            exact ⟨_, by rw [if_pos hbad], rfl, x, y, hx2, hy2, hbad⟩
          · left
            have hc : (self.imageData.getD (x + y * hdr.imageSpec.width) 0).val < cm.length := by
              omega
            obtain ⟨img3, hset, hwr3⟩ := Written.step hw hh hwr2 hx2 hy2
            refine ⟨img3, ?_, hwr3, ?_⟩
            · rw [if_neg hbad]
              simp only [getElem?_pixel_of_lt cm _ hc]
              exact hset
            · intro x3 y3 hx3 hpos
              by_cases hsame : x3 = x ∧ y3 = y
              · rw [hsame.1, hsame.2]
                omega
              · exact hidx2 x3 y3 hx3 (by omega))
      rcases inner with ⟨img3, hrun, hwr3, hidx3⟩ | ⟨e, hrun, hbad⟩
      · left
        rw [Nat.zero_add] at hwr3 hidx3
        exact ⟨img3, hrun, hwr3.nextRow, fun x2 y2 hx2 hy3 => hidx3 x2 y2 hx2 (by omega)⟩
      · right
        exact ⟨e, hrun, hbad⟩)
  rcases key with ⟨img, hrun, hwr, hidx⟩ | ⟨e, hrun, he, hbad⟩
  · left
    rw [Nat.zero_add] at hwr hidx
    exact ⟨img, hrun, hwr, fun x y hx hy => hidx x y hx hy⟩
  · right
    rw [he] at hrun
    exact ⟨hrun, hbad⟩

/-! ## Header fields -/

theorem byteAt_lt (data : List Byte) (i : Nat) : byteAt data i < 256 :=
  (data.getD i 0).isLt

theorem wordAt_lt (data : List Byte) (i : Nat) : wordAt data i < 65536 := by
  have h1 := byteAt_lt data i
  have h2 := byteAt_lt data (i + 1)
  unfold wordAt
  omega

theorem byteAt_of_getElem? (data : List Byte) (i : Nat) (b : Byte) (h : data[i]? = some b) :
    byteAt data i = b.val := by
  simp [byteAt, List.getD, h]

theorem validHeader_iff (data : List Byte) :
    validHeader data = true ↔ 18 ≤ data.length ∧ byteAt data 1 ≤ 1
      ∧ validImageType (byteAt data 2) = true ∧ wordAt data 12 ≠ 0 ∧ wordAt data 14 ≠ 0 := by
  simp [validHeader, and_assoc]

/-- On a valid header `decode` is `decodeBody` on the header record, cursor at offset 18. -/
theorem decode_valid (E : Externals) (s : TGADecoder) (data : List Byte)
    (hv : validHeader data = true) :
    decode E s data = decodeBody E (afterHeader s (headerOf data)) ⟨data, 18⟩ (headerOf data) := by
  obtain ⟨h1, h2, h3, h4, h5⟩ := (validHeader_iff data).1 hv
  rw [decode_header E s data h1, if_neg (by omega), if_neg (by simp [h3]), if_neg h4, if_neg h5]

theorem headerOf_colorMapSpec_bounds (data : List Byte) :
    (headerOf data).colorMapSpec.colorMapLength < 65536
      ∧ (headerOf data).colorMapSpec.colorMapEntrySize < 256 := by
  unfold headerOf
  by_cases h : byteAt data 1 ≠ 0
  · rw [if_pos h]
    exact ⟨wordAt_lt data 5, byteAt_lt data 7⟩
  · rw [if_neg h]
    exact ⟨Nat.zero_lt_succ _, Nat.zero_lt_succ _⟩

theorem headerOf_imageSpec_bounds (data : List Byte) :
    (headerOf data).imageSpec.width < 65536 ∧ (headerOf data).imageSpec.height < 65536
      ∧ (headerOf data).imageSpec.pixelDepth < 256 :=
  ⟨wordAt_lt data 12, wordAt_lt data 14, byteAt_lt data 16⟩

/-! ## The validations on inputs that may end before the header does -/

theorem decode_colorMapType_invalid (E : Externals) (s : TGADecoder) (data : List Byte) (b : Byte)
    (h : data[1]? = some b) (hb : 1 < b.val) :
    (decode E s data).2 = .error (.imageDecoder "Invalid color map type") := by
  rcases data with _ | ⟨b0, _ | ⟨b1, rest⟩⟩
  · simp at h
  · simp at h
  · simp at h
    subst h
    simp [decode, BinaryReader.readU8, hb]

theorem decode_imageType_invalid (E : Externals) (s : TGADecoder) (data : List Byte)
    (b1 b2 : Byte) (h1 : data[1]? = some b1) (hb1 : b1.val ≤ 1)
    (h2 : data[2]? = some b2) (hb2 : validImageType b2.val = false) :
    (decode E s data).2 = .error (.imageDecoder "Invalid image type") := by
  rcases data with _ | ⟨c0, _ | ⟨c1, _ | ⟨c2, rest⟩⟩⟩
  · simp at h2
  · simp at h2
  · simp at h2
  · simp at h1 h2
    subst h1 h2
    simp [validImageType] at hb2
    have hb1n : ¬ 1 < c1.val := by omega
    simp [decode, BinaryReader.readU8, hb1n, hb2]

theorem decode_width_zero (E : Externals) (s : TGADecoder) (data : List Byte)
    (b1 b2 : Byte) (h1 : data[1]? = some b1) (hb1 : b1.val ≤ 1)
    (h2 : data[2]? = some b2) (hb2 : validImageType b2.val = true)
    (h12 : data[12]? = some 0) (h13 : data[13]? = some 0) :
    (decode E s data).2 = .error (.imageDecoder "Width should not be zero") := by
  rcases data with _ | ⟨c0, _ | ⟨c1, _ | ⟨c2, _ | ⟨c3, _ | ⟨c4, _ | ⟨c5, _ | ⟨c6, _ | ⟨c7,
    _ | ⟨c8, _ | ⟨c9, _ | ⟨c10, _ | ⟨c11, _ | ⟨c12, _ | ⟨c13, rest⟩⟩⟩⟩⟩⟩⟩⟩⟩⟩⟩⟩⟩⟩ <;>
    try (simp at h12 h13; done)
  simp at h1 h2 h12 h13
  subst h1 h2 h12 h13
  simp [validImageType] at hb2
  have hb1n : ¬ 1 < c1.val := by omega
  have hb2n : ¬ (c2.val ≠ 0 ∧ c2.val ≠ 1 ∧ c2.val ≠ 2 ∧ c2.val ≠ 3 ∧ c2.val ≠ 9
      ∧ c2.val ≠ 10 ∧ c2.val ≠ 11) := by omega
  by_cases h3 : c1.val = 0
  · simp [decode, BinaryReader.readU8, BinaryReader.readU16, BinaryReader.seek, hb1n, hb2n, h3]
  · simp [decode, BinaryReader.readU8, BinaryReader.readU16, BinaryReader.seek, hb1n, hb2n, h3]

theorem decode_height_zero (E : Externals) (s : TGADecoder) (data : List Byte)
    (b1 b2 : Byte) (h1 : data[1]? = some b1) (hb1 : b1.val ≤ 1)
    (h2 : data[2]? = some b2) (hb2 : validImageType b2.val = true)
    (h14 : data[14]? = some 0) (h15 : data[15]? = some 0) :
    (decode E s data).2 = .error (.imageDecoder "Width should not be zero") := by
  rcases data with _ | ⟨c0, _ | ⟨c1, _ | ⟨c2, _ | ⟨c3, _ | ⟨c4, _ | ⟨c5, _ | ⟨c6, _ | ⟨c7,
    _ | ⟨c8, _ | ⟨c9, _ | ⟨c10, _ | ⟨c11, _ | ⟨c12, _ | ⟨c13, _ | ⟨c14, _ | ⟨c15,
    rest⟩⟩⟩⟩⟩⟩⟩⟩⟩⟩⟩⟩⟩⟩⟩⟩ <;>
    try (simp at h14 h15; done)
  simp at h1 h2 h14 h15
  subst h1 h2 h14 h15
  simp [validImageType] at hb2
  have hb1n : ¬ 1 < c1.val := by omega
  have hb2n : ¬ (c2.val ≠ 0 ∧ c2.val ≠ 1 ∧ c2.val ≠ 2 ∧ c2.val ≠ 3 ∧ c2.val ≠ 9
      ∧ c2.val ≠ 10 ∧ c2.val ≠ 11) := by omega
  by_cases h3 : c1.val = 0 <;> by_cases hw : c12.val + 256 * c13.val = 0 <;>
    simp [decode, BinaryReader.readU8, BinaryReader.readU16, BinaryReader.seek, hb1n, hb2n, h3, hw]

theorem exists_getElem?_of_le (data : List Byte) (i j : Nat) (b : Byte)
    (h : data[j]? = some b) (hij : i ≤ j) : ∃ c, data[i]? = some c := by
  have hj : j < data.length := by
    rcases Nat.lt_or_ge j data.length with hlt | hge
    · exact hlt
    · rw [List.getElem?_eq_none hge] at h
      cases h
  exact ⟨data[i], List.getElem?_eq_getElem (by omega)⟩

/-! ## C1: invalid header fields are format errors -/

/-- C1. For every input long enough to reach the offending field, `decode` fails with a
format error (`ImageDecoderException`) when the colour-map-type octet (offset 1) is greater
than 1, when the image-type octet (offset 2) is not one of 0, 1, 2, 3, 9, 10, 11, when both
octets of the width field (offsets 12, 13) are zero, or when both octets of the height field
(offsets 14, 15) are zero. -/
theorem decode_rejects_invalid_header (E : Externals) (s : TGADecoder) (data : List Byte) :
    (∀ b, data[1]? = some b → 1 < b.val → isFormatError (decode E s data).2 = true)
    ∧ (∀ b, data[2]? = some b → validImageType b.val = false →
        isFormatError (decode E s data).2 = true)
    ∧ (data[12]? = some 0 → data[13]? = some 0 → isFormatError (decode E s data).2 = true)
    ∧ (data[14]? = some 0 → data[15]? = some 0 → isFormatError (decode E s data).2 = true) := by
  have hA : ∀ b, data[1]? = some b → 1 < b.val → isFormatError (decode E s data).2 = true := by
    intro b h hb
    rw [decode_colorMapType_invalid E s data b h hb]
    rfl
  have hB : ∀ b, data[2]? = some b → validImageType b.val = false →
      isFormatError (decode E s data).2 = true := by
    intro b h hb
    obtain ⟨b1, h1⟩ := exists_getElem?_of_le data 1 2 b h (by omega)
    by_cases hb1 : 1 < b1.val
    · exact hA b1 h1 hb1
    · rw [decode_imageType_invalid E s data b1 b h1 (by omega) h hb]
      rfl
  refine ⟨hA, hB, ?_, ?_⟩
  · intro h12 h13
    obtain ⟨b1, h1⟩ := exists_getElem?_of_le data 1 12 0 h12 (by omega)
    obtain ⟨b2, h2⟩ := exists_getElem?_of_le data 2 12 0 h12 (by omega)
    by_cases hb1 : 1 < b1.val
    · exact hA b1 h1 hb1
    · by_cases hb2 : validImageType b2.val = false
      · exact hB b2 h2 hb2
      · rw [decode_width_zero E s data b1 b2 h1 (by omega) h2 (by simpa using hb2) h12 h13]
        rfl
  · intro h14 h15
    obtain ⟨b1, h1⟩ := exists_getElem?_of_le data 1 14 0 h14 (by omega)
    obtain ⟨b2, h2⟩ := exists_getElem?_of_le data 2 14 0 h14 (by omega)
    by_cases hb1 : 1 < b1.val
    · exact hA b1 h1 hb1
    · by_cases hb2 : validImageType b2.val = false
      · exact hB b2 h2 hb2
      · rw [decode_height_zero E s data b1 b2 h1 (by omega) h2 (by simpa using hb2) h14 h15]
        rfl

/-- C1 at sample inputs: colour-map type 2, image type 4, width 0, height 0. -/
theorem decode_rejects_invalid_header_witness :
    isFormatError (decode sampleExternals freshDecoder [0, 2]).2 = true
    ∧ isFormatError (decode sampleExternals freshDecoder [0, 0, 4]).2 = true
    ∧ isFormatError (decode sampleExternals freshDecoder
        [0, 0, 2, 0, 0, 0, 0, 0, 0, 0, 0, 0, 0, 0]).2 = true
    ∧ isFormatError (decode sampleExternals freshDecoder
        [0, 0, 2, 0, 0, 0, 0, 0, 0, 0, 0, 0, 1, 0, 0, 0]).2 = true :=
  ⟨(decode_rejects_invalid_header sampleExternals freshDecoder [0, 2]).1 2 rfl (by decide),
    (decode_rejects_invalid_header sampleExternals freshDecoder [0, 0, 4]).2.1 4 rfl (by decide),
    (decode_rejects_invalid_header sampleExternals freshDecoder
      [0, 0, 2, 0, 0, 0, 0, 0, 0, 0, 0, 0, 0, 0]).2.2.1 rfl rfl,
    (decode_rejects_invalid_header sampleExternals freshDecoder
      [0, 0, 2, 0, 0, 0, 0, 0, 0, 0, 0, 0, 1, 0, 0, 0]).2.2.2 rfl rfl⟩

/-! ## C18: the order of the validations -/

/-- C18. Header validation reports the first violation in the order colour-map type, image
type, width, height.  A colour-map type above 1 gives "Invalid color map type" whatever
follows, even when the input ends right after that octet; with a valid colour-map type an
invalid image type gives "Invalid image type" whatever follows, even when the input ends
right after that octet; with both valid a zero width gives the zero-dimension error
whatever the height is; and a zero height gives the error of the height check (whose
message in the code is the same "Width should not be zero").  None of them is a bounds
error. -/
theorem header_validation_order (E : Externals) (s : TGADecoder) (data : List Byte) :
    (∀ b, data[1]? = some b → 1 < b.val →
        (decode E s data).2 = .error (.imageDecoder "Invalid color map type"))
    ∧ (∀ b1 b2, data[1]? = some b1 → b1.val ≤ 1 → data[2]? = some b2 →
        validImageType b2.val = false →
        (decode E s data).2 = .error (.imageDecoder "Invalid image type"))
    ∧ (∀ b1 b2, data[1]? = some b1 → b1.val ≤ 1 → data[2]? = some b2 →
        validImageType b2.val = true → data[12]? = some 0 → data[13]? = some 0 →
        (decode E s data).2 = .error (.imageDecoder "Width should not be zero"))
    ∧ (∀ b1 b2, data[1]? = some b1 → b1.val ≤ 1 → data[2]? = some b2 →
        validImageType b2.val = true → wordAt data 12 ≠ 0 →
        data[14]? = some 0 → data[15]? = some 0 →
        (decode E s data).2 = .error (.imageDecoder "Width should not be zero")) :=
  ⟨fun b h hb => decode_colorMapType_invalid E s data b h hb,
    fun b1 b2 h1 hb1 h2 hb2 => decode_imageType_invalid E s data b1 b2 h1 hb1 h2 hb2,
    fun b1 b2 h1 hb1 h2 hb2 h12 h13 => decode_width_zero E s data b1 b2 h1 hb1 h2 hb2 h12 h13,
    fun b1 b2 h1 hb1 h2 hb2 _ h14 h15 =>
      decode_height_zero E s data b1 b2 h1 hb1 h2 hb2 h14 h15⟩

/-- C18 at sample inputs: three violations at once (colour-map type 2, image type 4,
width 0), an input cut after a bad colour-map type, one cut after a bad image type, a zero
width with a zero height, and a zero height alone. -/
theorem header_validation_order_witness :
    (decode sampleExternals freshDecoder
        [0, 2, 4, 0, 0, 0, 0, 0, 0, 0, 0, 0, 0, 0, 1, 0, 24, 0]).2
      = .error (.imageDecoder "Invalid color map type")
    ∧ (decode sampleExternals freshDecoder [0, 2]).2
      = .error (.imageDecoder "Invalid color map type")
    ∧ (decode sampleExternals freshDecoder [0, 1, 4]).2
      = .error (.imageDecoder "Invalid image type")
    ∧ (decode sampleExternals freshDecoder
        [0, 0, 2, 0, 0, 0, 0, 0, 0, 0, 0, 0, 0, 0, 0, 0, 24, 0]).2
      = .error (.imageDecoder "Width should not be zero")
    ∧ (decode sampleExternals freshDecoder
        [0, 0, 2, 0, 0, 0, 0, 0, 0, 0, 0, 0, 1, 0, 0, 0, 24, 0]).2
      = .error (.imageDecoder "Width should not be zero") :=
  ⟨(header_validation_order sampleExternals freshDecoder
      [0, 2, 4, 0, 0, 0, 0, 0, 0, 0, 0, 0, 0, 0, 1, 0, 24, 0]).1 2 rfl (by decide),
    (header_validation_order sampleExternals freshDecoder [0, 2]).1 2 rfl (by decide),
    (header_validation_order sampleExternals freshDecoder [0, 1, 4]).2.1 1 4 rfl (by decide)
      rfl (by decide),
    (header_validation_order sampleExternals freshDecoder
      [0, 0, 2, 0, 0, 0, 0, 0, 0, 0, 0, 0, 0, 0, 0, 0, 24, 0]).2.2.1 0 2 rfl (by decide)
      rfl (by decide) rfl rfl,
    (header_validation_order sampleExternals freshDecoder
      [0, 0, 2, 0, 0, 0, 0, 0, 0, 0, 0, 0, 1, 0, 0, 0, 24, 0]).2.2.2 0 2 rfl (by decide)
      rfl (by decide) (by decide) rfl rfl⟩

/-! ## Frame properties: what `decode` leaves untouched -/

/-- The dispatch on the image type changes nothing but the image. -/
theorem parseImage_frame (E : Externals) (s s2 : TGADecoder) (hdr : TGAHeader)
    (h : parseImage E s hdr = .ok s2) : s2 = { s with image := s2.image } := by
  unfold parseImage at h
  split at h
  · cases h; rfl
  · split at h
    · unfold parseColorMapImageData at h
      split at h
      · cases h
      · split at h
        · cases h
        · split at h
          · unfold buildImage at h
            split at h
            · cases h
            · cases h; rfl
          · split at h <;> cases h
    · split at h
      · unfold parseTrueColorImageData at h
        split at h
        · unfold loadData at h
          split at h
          · cases h
          · cases h; rfl
        · cases h
      · split at h
        · cases h; rfl
        · split at h
          · cases h
          · cases h; rfl

theorem readColorMapData_origin (s : TGADecoder) (r : BinaryReader) (hdr : TGAHeader) :
    (readColorMapData s r hdr).1.origin = s.origin := by
  unfold readColorMapData
  split
  · split <;> rfl
  · rfl

theorem readImageData_origin (s : TGADecoder) (r : BinaryReader) (hdr : TGAHeader) :
    (readImageData s r hdr).1.origin = s.origin := by
  unfold readImageData
  split
  · split <;> rfl
  · rfl

/-- `decodeBody` never changes the recorded origin. -/
theorem decodeBody_origin (E : Externals) (s : TGADecoder) (r : BinaryReader) (hdr : TGAHeader) :
    (decodeBody E s r hdr).1.origin = s.origin := by
  unfold decodeBody
  cases h1 : readImageId r hdr with
  | error e => rfl
  | ok r1 =>
    simp only []
    have hf2 := readColorMapData_origin s r1 hdr
    rcases h2 : readColorMapData s r1 hdr with ⟨s2, res2⟩
    rw [h2] at hf2
    simp only [] at hf2
    cases res2 with
    | error e => exact hf2
    | ok r2 =>
      simp only []
      have hf3 := readImageData_origin s2 r2 hdr
      rcases h3 : readImageData s2 r2 hdr with ⟨s3, res3⟩
      rw [h3] at hf3
      simp only [] at hf3
      cases res3 with
      | error e => exact hf3.trans hf2
      | ok r3 =>
        simp only []
        cases h4 : parseImage E s3 hdr with
        | error e => exact hf3.trans hf2
        | ok s4 =>
          have h5 := parseImage_frame E s3 s4 hdr h4
          simp only []
          rw [h5]
          exact hf3.trans hf2

/-! ## C10: `getImage` and the validity flag -/

/-- C10. Over any sequence of `decode` calls on one decoder, after the most recent call
`getImage` returns the stored image when that call did not throw and throws
`ImageDecoderException("Bad image decode")` when it threw any error, whatever the earlier
calls did. -/
theorem getImage_after_decode (E : Externals) (s : TGADecoder) (earlier : List (List Byte))
    (data : List Byte) :
    getImage (decode E (decodeAll E s earlier) data).1 =
      match (decode E (decodeAll E s earlier) data).2 with
      | .ok _ => .ok (decode E (decodeAll E s earlier) data).1.image
      | .error _ => .error (.imageDecoder "Bad image decode") := by
  rcases decode_flag E (decodeAll E s earlier) data with ⟨h1, h2⟩ | ⟨e, h1, h2⟩
  · rw [h1]
    simp [getImage, h2]
  · rw [h1]
    simp [getImage, h2]

/-! ## C15: image type 0 -/

/-- C15. For every input with a valid header and image type 0 whose id field and colour map
(if declared) are present, `decode` succeeds even when nothing follows them, and the image
it stores is the blank image of exactly the declared width and height. -/
theorem decode_without_image_data (E : Externals) (s : TGADecoder) (data : List Byte)
    (hv : validHeader data = true) (ht : byteAt data 2 = 0)
    (hlen : imageDataOffset (headerOf data) ≤ data.length) :
    (decode E s data).2 = .ok ()
    ∧ getImage (decode E s data).1 = .ok (Image.create (wordAt data 12) (wordAt data 14))
    ∧ (decode E s data).1.image.width = wordAt data 12
    ∧ (decode E s data).1.image.height = wordAt data 14 := by
  have ht2 : (headerOf data).imageType = 0 := ht
  have hnd : ¬ ((headerOf data).imageType = 1 ∨ (headerOf data).imageType = 2
      ∨ (headerOf data).imageType = 3) := by omega
  have hp : parseImage E (withColorMap (afterHeader s (headerOf data)) data (headerOf data))
      (headerOf data)
      = .ok { withColorMap (afterHeader s (headerOf data)) data (headerOf data) with
          image := Image.create (headerOf data).imageSpec.width (headerOf data).imageSpec.height } := by
    unfold parseImage
    rw [if_pos ht2]
  rw [decode_valid E s data hv, decodeBody_noData E _ data _ hnd hlen, hp]
  exact ⟨rfl, rfl, rfl, rfl⟩

/-- C15 at a sample: a 3 by 2 header of image type 0 with nothing after it. -/
theorem decode_without_image_data_witness :
    sampleNoData.length = 18
    ∧ (decode sampleExternals freshDecoder sampleNoData).2 = .ok ()
    ∧ getImage (decode sampleExternals freshDecoder sampleNoData).1 = .ok (Image.create 3 2)
    ∧ (decode sampleExternals freshDecoder sampleNoData).1.image.width = 3
    ∧ (decode sampleExternals freshDecoder sampleNoData).1.image.height = 2 :=
  ⟨rfl, decode_without_image_data sampleExternals freshDecoder sampleNoData (by decide) rfl
    (by decide)⟩

/-! ## C17: the recorded origin -/

/-- C17, as the code has it.  After every `decode` call on an input that holds the 18 header
octets and whose colour-map type and image type pass validation, whether the call then
succeeds or fails with any error, the recorded origin is the pair of origin fields of that
header (offsets 8 and 10). -/
theorem origin_recorded_after_type_checks (E : Externals) (s : TGADecoder) (data : List Byte)
    (hlen : 18 ≤ data.length) (hc : byteAt data 1 ≤ 1)
    (ht : validImageType (byteAt data 2) = true) :
    (decode E s data).1.origin = ⟨wordAt data 8, wordAt data 10⟩ := by
  rw [decode_header E s data hlen, if_neg (by omega), if_neg (by simp [ht])]
  split
  · rfl
  · split
    · rfl
    · rw [decodeBody_origin]
      rfl

/-- C17 at a sample whose decode fails (zero width) after the origin has been read. -/
theorem origin_recorded_after_type_checks_witness :
    isFormatError (decode sampleExternals freshDecoder sampleZeroWidth).2 = true
    ∧ (decode sampleExternals freshDecoder sampleZeroWidth).1.origin = ⟨3, 4⟩ :=
  ⟨by decide, origin_recorded_after_type_checks sampleExternals freshDecoder sampleZeroWidth
    (by decide) (by decide) (by decide)⟩

/-- C17 fails as stated: an input with all 18 header octets and origin fields (3, 4), but
colour-map type 2, leaves the recorded origin as it was, here (0, 0). -/
theorem origin_not_recorded_on_bad_colorMapType :
    18 ≤ sampleBadColorMapType.length
    ∧ wordAt sampleBadColorMapType 8 = 3 ∧ wordAt sampleBadColorMapType 10 = 4
    ∧ (decode sampleExternals freshDecoder sampleBadColorMapType).1.origin = ⟨0, 0⟩
    ∧ (decode sampleExternals freshDecoder sampleBadColorMapType).1.origin
        ≠ ⟨wordAt sampleBadColorMapType 8, wordAt sampleBadColorMapType 10⟩ := by
  decide

/-! ## C11: the image type 3 keeps the previous image -/

/-- C11 fails on the code for image type 3.  After a successful decode of a 2 by 1
true-colour image, a decode of a 1 by 1 black-and-white input succeeds, and `getImage`
then returns the 2 by 1 image of the earlier call. -/
theorem blackWhite_keeps_previous_image :
    (decode sampleExternals (decode sampleExternals freshDecoder sampleTrueColor).1
        sampleBlackWhite).2 = .ok ()
    ∧ getImage (decode sampleExternals (decode sampleExternals freshDecoder sampleTrueColor).1
        sampleBlackWhite).1
      = getImage (decode sampleExternals freshDecoder sampleTrueColor).1
    ∧ getImage (decode sampleExternals (decode sampleExternals freshDecoder sampleTrueColor).1
        sampleBlackWhite).1
      = .ok ⟨2, 1, [⟨1, 2, 3, 255⟩, ⟨4, 5, 6, 255⟩]⟩
    ∧ wordAt sampleBlackWhite 12 = 1 ∧ wordAt sampleBlackWhite 14 = 1 := by
  refine ⟨rfl, rfl, rfl, rfl, rfl⟩

/-! ## C12, C13: the coordinate mapper -/

theorem originMode_of_mask (E : Externals) (spec : TGAImageSpecification)
    (hmask : E.mask spec.imageDescriptor 4 2 = Bits.mask spec.imageDescriptor 4 2) :
    getImageOriginMode E spec &&& 0x10 = spec.imageDescriptor &&& 0x10
    ∧ getImageOriginMode E spec &&& 0x20 = spec.imageDescriptor &&& 0x20 := by
  have h48 : Bits.mask spec.imageDescriptor 4 2 = spec.imageDescriptor &&& 48 := by
    unfold Bits.mask
    rfl
  have hle : spec.imageDescriptor &&& 48 ≤ 48 := Nat.and_le_right
  have hmod : getImageOriginMode E spec = spec.imageDescriptor &&& 48 := by
    unfold getImageOriginMode toU8
    rw [hmask, h48]
    omega
  rw [hmod, Nat.land_assoc, Nat.land_assoc]
  exact ⟨rfl, rfl⟩

/-- C12. With `Bits::mask` keeping the origin-mode field at its place in the descriptor
octet: for every image specification with 16 bit width and height and every logical
`(x, y)` inside the image, `getTransformedX` is `width - 1 - x` when descriptor bit `0x10`
is set and `x` otherwise, `getTransformedY` is `y` when descriptor bit `0x20` is set and
`height - 1 - y` otherwise, and both results lie inside the image. -/
theorem coordinate_mapper_flips (E : Externals) (spec : TGAImageSpecification) (x y : Nat)
    (hmask : E.mask spec.imageDescriptor 4 2 = Bits.mask spec.imageDescriptor 4 2)
    (hw : spec.width < 65536) (hh : spec.height < 65536)
    (hx : x < spec.width) (hy : y < spec.height) :
    getTransformedX E spec x
        = (if spec.imageDescriptor &&& 0x10 ≠ 0 then spec.width - 1 - x else x)
    ∧ getTransformedY E spec y
        = (if spec.imageDescriptor &&& 0x20 ≠ 0 then y else spec.height - 1 - y)
    ∧ getTransformedX E spec x < spec.width
    ∧ getTransformedY E spec y < spec.height := by
  obtain ⟨h10, h20⟩ := originMode_of_mask E spec hmask
  refine ⟨?_, ?_, getTransformedX_lt E spec (by omega) x hx,
    getTransformedY_lt E spec (by omega) y hy⟩
  · unfold getTransformedX
    rw [h10]
    split
    · exact toU32_flip _ _ (by omega) hx
    · rfl
  · unfold getTransformedY
    rw [h20]
    split
    · rfl
    · exact toU32_flip _ _ (by omega) hy

/-- C12 at a 4 by 3 image: descriptor `0x10` mirrors the columns and, bit `0x20` being
clear, the rows; descriptor `0x20` keeps both. -/
theorem coordinate_mapper_flips_witness :
    (getTransformedX sampleExternals ⟨0, 0, 4, 3, 24, 0x10⟩ 1 = 2
      ∧ getTransformedY sampleExternals ⟨0, 0, 4, 3, 24, 0x10⟩ 0 = 2
      ∧ getTransformedX sampleExternals ⟨0, 0, 4, 3, 24, 0x10⟩ 1 < 4
      ∧ getTransformedY sampleExternals ⟨0, 0, 4, 3, 24, 0x10⟩ 0 < 3)
    ∧ (getTransformedX sampleExternals ⟨0, 0, 4, 3, 24, 0x20⟩ 1 = 1
      ∧ getTransformedY sampleExternals ⟨0, 0, 4, 3, 24, 0x20⟩ 0 = 0
      ∧ getTransformedX sampleExternals ⟨0, 0, 4, 3, 24, 0x20⟩ 1 < 4
      ∧ getTransformedY sampleExternals ⟨0, 0, 4, 3, 24, 0x20⟩ 0 < 3) :=
  ⟨coordinate_mapper_flips sampleExternals ⟨0, 0, 4, 3, 24, 0x10⟩ 1 0 rfl (by decide) (by decide)
      (by decide) (by decide),
    coordinate_mapper_flips sampleExternals ⟨0, 0, 4, 3, 24, 0x20⟩ 1 0 rfl (by decide) (by decide)
      (by decide) (by decide)⟩

/-- C13. The coordinate mapper is self-inverse: for every image specification with 16 bit
width and height, whatever the descriptor octet and whatever `Bits::mask` computes, and
every `(x, y)` inside the image, mapping twice returns `x` and `y`; the mapped position lies
inside the image, and every position of the image is the mapped place of exactly one
logical position, so the loops of a decode write every output pixel exactly once. -/
theorem coordinate_mapper_self_inverse (E : Externals) (spec : TGAImageSpecification)
    (hw : spec.width < 65536) (hh : spec.height < 65536) :
    (∀ x y, x < spec.width → y < spec.height →
      getTransformedX E spec (getTransformedX E spec x) = x
      ∧ getTransformedY E spec (getTransformedY E spec y) = y
      ∧ getTransformedX E spec x < spec.width
      ∧ getTransformedY E spec y < spec.height)
    ∧ (∀ rx ry, rx < spec.width → ry < spec.height →
      ∃! p : Nat × Nat, p.1 < spec.width ∧ p.2 < spec.height
        ∧ getTransformedX E spec p.1 = rx ∧ getTransformedY E spec p.2 = ry) := by
  have hw2 : spec.width < 4294967296 := by omega
  have hh2 : spec.height < 4294967296 := by omega
  refine ⟨fun x y hx hy => ⟨getTransformedX_invol E spec hw2 x hx,
    getTransformedY_invol E spec hh2 y hy, getTransformedX_lt E spec hw2 x hx,
    getTransformedY_lt E spec hh2 y hy⟩, ?_⟩
  intro rx ry hrx hry
  refine ⟨(getTransformedX E spec rx, getTransformedY E spec ry),
    ⟨getTransformedX_lt E spec hw2 rx hrx, getTransformedY_lt E spec hh2 ry hry,
      getTransformedX_invol E spec hw2 rx hrx, getTransformedY_invol E spec hh2 ry hry⟩, ?_⟩
  rintro ⟨px, py⟩ ⟨h1, h2, h3, h4⟩
  simp only [] at h1 h2 h3 h4
  rw [← h3, ← h4, getTransformedX_invol E spec hw2 px h1, getTransformedY_invol E spec hh2 py h2]

/-- C13 at a 4 by 3 image with both flips (descriptor `0x10`, bit `0x20` clear). -/
theorem coordinate_mapper_self_inverse_witness :
    (∀ x y, x < 4 → y < 3 →
      getTransformedX sampleExternals ⟨0, 0, 4, 3, 24, 0x10⟩
          (getTransformedX sampleExternals ⟨0, 0, 4, 3, 24, 0x10⟩ x) = x
      ∧ getTransformedY sampleExternals ⟨0, 0, 4, 3, 24, 0x10⟩
          (getTransformedY sampleExternals ⟨0, 0, 4, 3, 24, 0x10⟩ y) = y
      ∧ getTransformedX sampleExternals ⟨0, 0, 4, 3, 24, 0x10⟩ x < 4
      ∧ getTransformedY sampleExternals ⟨0, 0, 4, 3, 24, 0x10⟩ y < 3)
    ∧ (∀ rx ry, rx < 4 → ry < 3 →
      ∃! p : Nat × Nat, p.1 < 4 ∧ p.2 < 3
        ∧ getTransformedX sampleExternals ⟨0, 0, 4, 3, 24, 0x10⟩ p.1 = rx
        ∧ getTransformedY sampleExternals ⟨0, 0, 4, 3, 24, 0x10⟩ p.2 = ry) :=
  coordinate_mapper_self_inverse sampleExternals ⟨0, 0, 4, 3, 24, 0x10⟩ (by decide) (by decide)

/-! ## C16: the size of the image data -/

/-- C16 fails on the code: for a validated 16384 by 16384 header of depth 16 the product
`width * height * pixelDepth` is `2 ^ 32`, which the 32 bit arithmetic of
`getImageDataSize` reduces to 0, while the exact value is 536870912 octets. -/
theorem getImageDataSize_wraps :
    getImageDataSize ⟨0, 0, 16384, 16384, 16, 0⟩ = 0
    ∧ 16384 * 16384 * 16 / 8 = 536870912
    ∧ getImageDataSize ⟨0, 0, 16384, 16384, 16, 0⟩ ≠ 16384 * 16384 * 16 / 8 := by
  decide

/-! ## Decoding the two plane encodings -/

theorem slice_length (v : List Byte) (off n : Nat) (h : off + n ≤ v.length) :
    (slice v off n).length = n := by
  unfold slice
  rw [List.length_take, List.length_drop]
  omega

theorem pixelOfDepth_some (d : Nat) (h : d = 16 ∨ d = 24 ∨ d = 32) :
    ∃ P S, pixelOfDepth d = some (P, S) ∧ d = 8 * S := by
  rcases h with h | h | h
  · exact ⟨Pixel.RGB5, 2, by rw [h]; rfl, h⟩
  · exact ⟨Pixel.RGB8, 3, by rw [h]; rfl, h⟩
  · exact ⟨Pixel.RGBA8, 4, by rw [h]; rfl, h⟩

theorem pixelOfDepth_none (d : Nat) (h : ¬ (d = 16 ∨ d = 24 ∨ d = 32)) :
    pixelOfDepth d = none := by
  unfold pixelOfDepth
  rw [if_neg (by omega), if_neg (by omega), if_neg (by omega)]

theorem withImageData_imageData (s : TGADecoder) (data : List Byte) (hdr : TGAHeader) :
    (withImageData s data hdr).imageData
      = slice data (imageDataOffset hdr) (getImageDataSize hdr.imageSpec) := rfl

theorem withImageData_colorMapData (s : TGADecoder) (data : List Byte) (hdr : TGAHeader)
    (hc : hdr.colorMapType ≠ 0) :
    (withImageData s data hdr).colorMapData
      = slice data (18 + hdr.idLength) (getColorMapSize hdr.colorMapSpec) := by
  unfold withImageData withColorMap
  rw [if_pos hc]

/-- On a valid colour-mapped header with all requested octets present, `decode` is
`parseColorMapImageData` on the buffers read from the input. -/
theorem decode_colorMapped (E : Externals) (s : TGADecoder) (data : List Byte)
    (hv : validHeader data = true) (ht : byteAt data 2 = 1)
    (hlen : imageDataOffset (headerOf data) + getImageDataSize (headerOf data).imageSpec
      ≤ data.length) :
    decode E s data =
      match parseColorMapImageData E
          (withImageData (afterHeader s (headerOf data)) data (headerOf data)) (headerOf data) with
      | .error e => (withImageData (afterHeader s (headerOf data)) data (headerOf data), .error e)
      | .ok s2 => ({ s2 with validDecode := true }, .ok ()) := by
  have ht2 : (headerOf data).imageType = 1 := ht
  rw [decode_valid E s data hv, decodeBody_data E _ data _ (Or.inl ht2) hlen]
  unfold parseImage
  rw [if_neg (by omega), if_pos ht2]

/-- On a valid true-colour header with all requested octets present, `decode` is
`parseTrueColorImageData` on the buffers read from the input. -/
theorem decode_trueColor (E : Externals) (s : TGADecoder) (data : List Byte)
    (hv : validHeader data = true) (ht : byteAt data 2 = 2)
    (hlen : imageDataOffset (headerOf data) + getImageDataSize (headerOf data).imageSpec
      ≤ data.length) :
    decode E s data =
      match parseTrueColorImageData E
          (withImageData (afterHeader s (headerOf data)) data (headerOf data)) (headerOf data) with
      | .error e => (withImageData (afterHeader s (headerOf data)) data (headerOf data), .error e)
      | .ok s2 => ({ s2 with validDecode := true }, .ok ()) := by
  have ht2 : (headerOf data).imageType = 2 := ht
  rw [decode_valid E s data hv, decodeBody_data E _ data _ (Or.inr (Or.inl ht2)) hlen]
  unfold parseImage
  rw [if_neg (by omega), if_neg (by omega), if_pos ht2]

/-- The colour-map table of a colour-mapped input whose colour map was read: it has
`colorMapLength` entries, entry `i` converted from octets `[i * S, i * S + S)`. -/
theorem convertColorMap_of_read (E : Externals) (s : TGADecoder) (data : List Byte)
    (P : Pixel) (S : Nat)
    (hc : byteAt data 1 ≠ 0) (hes : (headerOf data).colorMapSpec.colorMapEntrySize = 8 * S)
    (hlen : imageDataOffset (headerOf data) ≤ data.length) :
    ∃ cm, convertColorMap E (withImageData s data (headerOf data)) (headerOf data) P S = .ok cm
      ∧ cm.length = (headerOf data).colorMapSpec.colorMapLength
      ∧ ∀ i, i < (headerOf data).colorMapSpec.colorMapLength →
          cm[i]? = some (E.convert P
            (slice (withImageData s data (headerOf data)).colorMapData (i * S) S)) := by
  have hc2 : (headerOf data).colorMapType ≠ 0 := hc
  obtain ⟨hb1, hb2⟩ := headerOf_colorMapSpec_bounds data
  have hsize := getColorMapSize_eq (headerOf data).colorMapSpec hb1 hb2
  have hoff : 18 + (headerOf data).idLength + getColorMapSize (headerOf data).colorMapSpec
      ≤ data.length := by
    unfold imageDataOffset colorMapBytes at hlen
    rw [if_pos hc2] at hlen
    exact hlen
  apply convertColorMap_ok
  rw [withImageData_colorMapData s data _ hc2, slice_length _ _ _ hoff, hsize, hes]
  have : (headerOf data).colorMapSpec.colorMapLength * (8 * S) / 8
      = (headerOf data).colorMapSpec.colorMapLength * S := by
    rw [Nat.mul_comm 8 S, ← Nat.mul_assoc, Nat.mul_div_cancel _ (by omega)]
  omega

/-! ## Inputs that agree on a prefix -/

theorem length_ge_of_take_eq (data data2 : List Byte) (n : Nat) (hn : n ≤ data.length)
    (h : data2.take n = data.take n) : n ≤ data2.length := by
  have h1 := congrArg List.length h
  rw [List.length_take, List.length_take] at h1
  omega

theorem byteAt_eq_of_take_eq (data data2 : List Byte) (n i : Nat) (hi : i < n)
    (h : data2.take n = data.take n) : byteAt data2 i = byteAt data i := by
  have h1 : (data2.take n)[i]? = (data.take n)[i]? := by rw [h]
  rw [List.getElem?_take, List.getElem?_take, if_pos hi, if_pos hi] at h1
  unfold byteAt
  rw [List.getD_eq_getElem?_getD, List.getD_eq_getElem?_getD, h1]

theorem headerOf_eq_of_take_eq (data data2 : List Byte) (n : Nat) (hn : 18 ≤ n)
    (h : data2.take n = data.take n) : headerOf data2 = headerOf data := by
  have hb : ∀ i, i < 18 → byteAt data2 i = byteAt data i :=
    fun i hi => byteAt_eq_of_take_eq data data2 n i (by omega) h
  unfold headerOf wordAt
  rw [hb 0 (by omega), hb 1 (by omega), hb 2 (by omega), hb 3 (by omega), hb 4 (by omega),
    hb 5 (by omega), hb 6 (by omega), hb 7 (by omega), hb 8 (by omega), hb 9 (by omega),
    hb 10 (by omega), hb 11 (by omega), hb 12 (by omega), hb 13 (by omega), hb 14 (by omega),
    hb 15 (by omega), hb 16 (by omega), hb 17 (by omega)]

theorem validHeader_of_take_eq (data data2 : List Byte) (n : Nat) (hn : 18 ≤ n)
    (hlen : n ≤ data.length) (h : data2.take n = data.take n)
    (hv : validHeader data = true) : validHeader data2 = true := by
  have hb : ∀ i, i < 18 → byteAt data2 i = byteAt data i :=
    fun i hi => byteAt_eq_of_take_eq data data2 n i (by omega) h
  have hl := length_ge_of_take_eq data data2 n hlen h
  obtain ⟨h1, h2, h3, h4, h5⟩ := (validHeader_iff data).1 hv
  rw [validHeader_iff]
  unfold wordAt at h4 h5 ⊢
  rw [hb 1 (by omega), hb 2 (by omega), hb 12 (by omega), hb 13 (by omega), hb 14 (by omega),
    hb 15 (by omega)]
  exact ⟨by omega, h2, h3, h4, h5⟩

theorem slice_eq_of_take_eq (data data2 : List Byte) (n off cnt : Nat) (hn : off + cnt ≤ n)
    (h : data2.take n = data.take n) : slice data2 off cnt = slice data off cnt := by
  unfold slice
  have h1 : ∀ v : List Byte, (v.drop off).take cnt = ((v.take n).drop off).take cnt := by
    intro v
    rw [List.drop_take, List.take_take, Nat.min_eq_left (by omega)]
  rw [h1 data2, h1 data, h]

theorem withColorMap_eq_of_take_eq (s : TGADecoder) (data data2 : List Byte) (hdr : TGAHeader)
    (h : data2.take (imageDataOffset hdr) = data.take (imageDataOffset hdr)) :
    withColorMap s data2 hdr = withColorMap s data hdr := by
  unfold withColorMap
  by_cases hc : hdr.colorMapType ≠ 0
  · rw [if_pos hc, if_pos hc]
    have hn : 18 + hdr.idLength + getColorMapSize hdr.colorMapSpec ≤ imageDataOffset hdr := by
      unfold imageDataOffset colorMapBytes
      rw [if_pos hc]
    rw [slice_eq_of_take_eq data data2 _ _ _ hn h]
  · rw [if_neg hc, if_neg hc]

/-! ## C5: run-length encoded images -/

/-- On a valid header of a run-length encoded type with id field and colour map present,
`decode` throws the unsupported-operation error after the colour map has been read. -/
theorem decode_runLength (E : Externals) (s : TGADecoder) (data : List Byte)
    (hv : validHeader data = true)
    (ht : byteAt data 2 = 9 ∨ byteAt data 2 = 10 ∨ byteAt data 2 = 11)
    (hlen : imageDataOffset (headerOf data) ≤ data.length) :
    decode E s data =
      (withColorMap (afterHeader s (headerOf data)) data (headerOf data),
        .error (.unsupportedOperation "Run-Length Encoded images are not supported")) := by
  have ht2 : (headerOf data).imageType = 9 ∨ (headerOf data).imageType = 10
      ∨ (headerOf data).imageType = 11 := ht
  have hnd : ¬ ((headerOf data).imageType = 1 ∨ (headerOf data).imageType = 2
      ∨ (headerOf data).imageType = 3) := by omega
  have hp : parseImage E (withColorMap (afterHeader s (headerOf data)) data (headerOf data))
      (headerOf data)
      = .error (.unsupportedOperation "Run-Length Encoded images are not supported") := by
    unfold parseImage
    rw [if_neg (by omega), if_neg (by omega), if_neg (by omega), if_neg (by omega), if_pos ht2]
  rw [decode_valid E s data hv, decodeBody_noData E _ data _ hnd hlen, hp]

/-- C5. For every input with a valid header of image type 9, 10 or 11 whose id field and
colour map (if any) are present, `decode` fails with the unsupported-operation error, not a
format error, and the octets after the header, id field and colour map play no part: every
input that agrees with it up to there (in particular the input cut off there) gives the
same outcome and leaves the same decoder object. -/
theorem runLength_unsupported (E : Externals) (s : TGADecoder) (data : List Byte)
    (hv : validHeader data = true)
    (ht : byteAt data 2 = 9 ∨ byteAt data 2 = 10 ∨ byteAt data 2 = 11)
    (hlen : imageDataOffset (headerOf data) ≤ data.length) :
    (decode E s data).2
        = .error (.unsupportedOperation "Run-Length Encoded images are not supported")
    ∧ isUnsupported (decode E s data).2 = true
    ∧ isFormatError (decode E s data).2 = false
    ∧ decode E s (data.take (imageDataOffset (headerOf data))) = decode E s data
    ∧ ∀ data2, data2.take (imageDataOffset (headerOf data))
          = data.take (imageDataOffset (headerOf data)) →
        decode E s data2 = decode E s data := by
  have h18 : 18 ≤ imageDataOffset (headerOf data) := by unfold imageDataOffset; omega
  have hall : ∀ data2, data2.take (imageDataOffset (headerOf data))
        = data.take (imageDataOffset (headerOf data)) →
      decode E s data2 = decode E s data := by
    intro data2 h
    have hh := headerOf_eq_of_take_eq data data2 _ h18 h
    have hv2 := validHeader_of_take_eq data data2 _ h18 hlen h hv
    have hl2 := length_ge_of_take_eq data data2 _ hlen h
    have hb2 : byteAt data2 2 = byteAt data 2 := byteAt_eq_of_take_eq data data2 _ 2 (by omega) h
    rw [decode_runLength E s data hv ht hlen,
      decode_runLength E s data2 hv2 (by rw [hb2]; exact ht) (by rw [hh]; exact hl2), hh,
      withColorMap_eq_of_take_eq _ data data2 _ h]
  rw [decode_runLength E s data hv ht hlen]
  refine ⟨rfl, rfl, rfl, ?_, ?_⟩
  · rw [← decode_runLength E s data hv ht hlen]
    apply hall
    rw [List.take_take, Nat.min_self]
  · rw [← decode_runLength E s data hv ht hlen]
    exact hall

/-- C5 at a sample of image type 10 that ends with its colour map. -/
theorem runLength_unsupported_witness :
    imageDataOffset (headerOf sampleRunLength) = sampleRunLength.length
    ∧ (decode sampleExternals freshDecoder sampleRunLength).2
        = .error (.unsupportedOperation "Run-Length Encoded images are not supported")
    ∧ isUnsupported (decode sampleExternals freshDecoder sampleRunLength).2 = true
    ∧ isFormatError (decode sampleExternals freshDecoder sampleRunLength).2 = false
    ∧ decode sampleExternals freshDecoder
          (sampleRunLength.take (imageDataOffset (headerOf sampleRunLength)))
        = decode sampleExternals freshDecoder sampleRunLength
    ∧ ∀ data2, data2.take (imageDataOffset (headerOf sampleRunLength))
          = sampleRunLength.take (imageDataOffset (headerOf sampleRunLength)) →
        decode sampleExternals freshDecoder data2
          = decode sampleExternals freshDecoder sampleRunLength :=
  ⟨by decide, runLength_unsupported sampleExternals freshDecoder sampleRunLength (by decide)
    (Or.inr (Or.inl rfl)) (by decide)⟩

/-! ## The depths of a colour-mapped image -/

theorem headerOf_entrySize (data : List Byte) (hc : byteAt data 1 ≠ 0) :
    (headerOf data).colorMapSpec.colorMapEntrySize = byteAt data 7 := by
  unfold headerOf
  rw [if_pos hc]

/-- Once the table is built, `parseColorMapImageData` dispatches on the pixel depth. -/
theorem parseColorMapImageData_of_table (E : Externals) (s : TGADecoder) (hdr : TGAHeader)
    (P : Pixel) (S : Nat) (cm : List PixelBGRA8)
    (h1 : pixelOfDepth hdr.colorMapSpec.colorMapEntrySize = some (P, S))
    (h2 : convertColorMap E s hdr P S = .ok cm) :
    parseColorMapImageData E s hdr =
      if hdr.imageSpec.pixelDepth = 8 then buildImage E s hdr cm
      else if hdr.imageSpec.pixelDepth = 16 ∨ hdr.imageSpec.pixelDepth = 24
          ∨ hdr.imageSpec.pixelDepth = 32 then
        .error (.unsupportedOperation "Color map TGA format with %d-bits indices is not supported")
      else .error (.imageDecoder "Invalid pixel format") := by
  unfold parseColorMapImageData
  rw [h1]
  simp only []
  rw [h2]

/-- A colour-mapped input with a colour map of a supported entry depth and a pixel depth
other than 8: the unsupported-operation error for the depths 16, 24 and 32, the format
error "Invalid pixel format" for every other depth. -/
theorem decode_colorMapped_not8 (E : Externals) (s : TGADecoder) (data : List Byte)
    (hv : validHeader data = true) (ht : byteAt data 2 = 1) (hc : byteAt data 1 = 1)
    (hes : byteAt data 7 = 16 ∨ byteAt data 7 = 24 ∨ byteAt data 7 = 32)
    (hd : byteAt data 16 ≠ 8)
    (hlen : imageDataOffset (headerOf data) + getImageDataSize (headerOf data).imageSpec
      ≤ data.length) :
    (decode E s data).2 =
      if byteAt data 16 = 16 ∨ byteAt data 16 = 24 ∨ byteAt data 16 = 32 then
        .error (.unsupportedOperation "Color map TGA format with %d-bits indices is not supported")
      else .error (.imageDecoder "Invalid pixel format") := by
  have hc0 : byteAt data 1 ≠ 0 := by omega
  have hes2 := headerOf_entrySize data hc0
  obtain ⟨P, S, hp, hS⟩ := pixelOfDepth_some _ hes
  obtain ⟨cm, hcm, _, _⟩ := convertColorMap_of_read E (afterHeader s (headerOf data)) data P S
    hc0 (by rw [hes2]; exact hS) (by omega)
  have hd2 : (headerOf data).imageSpec.pixelDepth = byteAt data 16 := rfl
  rw [decode_colorMapped E s data hv ht hlen,
    parseColorMapImageData_of_table E _ _ P S cm (by rw [hes2]; exact hp) hcm, hd2,
    if_neg hd]
  by_cases hdd : byteAt data 16 = 16 ∨ byteAt data 16 = 24 ∨ byteAt data 16 = 32
  · rw [if_pos hdd, if_pos hdd]
  · rw [if_neg hdd, if_neg hdd]

/-- A colour-mapped input whose colour-map entry depth is not 16, 24 or 32. -/
theorem decode_colorMapped_badEntry (E : Externals) (s : TGADecoder) (data : List Byte)
    (hv : validHeader data = true) (ht : byteAt data 2 = 1) (hc : byteAt data 1 = 1)
    (hes : ¬ (byteAt data 7 = 16 ∨ byteAt data 7 = 24 ∨ byteAt data 7 = 32))
    (hlen : imageDataOffset (headerOf data) + getImageDataSize (headerOf data).imageSpec
      ≤ data.length) :
    (decode E s data).2 = .error (.imageDecoder "Invalid color map color format") := by
  have hes2 := headerOf_entrySize data (by omega)
  have hp : parseColorMapImageData E
      (withImageData (afterHeader s (headerOf data)) data (headerOf data)) (headerOf data)
      = .error (.imageDecoder "Invalid color map color format") := by
    unfold parseColorMapImageData
    rw [hes2, pixelOfDepth_none _ hes]
  rw [decode_colorMapped E s data hv ht hlen, hp]

/-! ## Image data shorter than the pixel plane -/

/-- With no image data the first read of `loadData` leaves the buffer. -/
theorem loadDataPixels_empty (E : Externals) (self : TGADecoder) (hdr : TGAHeader) (P : Pixel)
    (Size : Nat) (hd : self.imageData = []) (hw : 0 < hdr.imageSpec.width)
    (hh : 0 < hdr.imageSpec.height) (hS : 0 < Size) :
    loadDataPixels E self hdr P Size = .error .outOfBounds := by
  unfold loadDataPixels
  apply forLoop_first_error _ _ _ _ _ hh
  apply forLoop_first_error _ _ _ _ _ hw
  have hr : BinaryReader.readSpan ⟨self.imageData, 0⟩ Size = .error .outOfBounds := by
    unfold BinaryReader.readSpan
    rw [hd]
    rw [if_neg (by simp; omega)]
  simp only [hr]

/-- With no image data the first index access of `buildImage` is outside the vector. -/
theorem buildImagePixels_empty (E : Externals) (self : TGADecoder) (hdr : TGAHeader)
    (cm : List PixelBGRA8) (hd : self.imageData = []) (hw : 0 < hdr.imageSpec.width)
    (hh : 0 < hdr.imageSpec.height) :
    buildImagePixels E self hdr cm = .error .undefinedAccess := by
  unfold buildImagePixels
  apply forLoop_first_error _ _ _ _ _ hh
  apply forLoop_first_error _ _ _ _ _ hw
  simp only [hd, List.getElem?_nil]

theorem slice_zero (v : List Byte) (off : Nat) : slice v off 0 = [] := by
  unfold slice
  exact List.take_zero _

theorem validHeader_dims (data : List Byte) (hv : validHeader data = true) :
    0 < (headerOf data).imageSpec.width ∧ 0 < (headerOf data).imageSpec.height := by
  obtain ⟨_, _, _, h4, h5⟩ := (validHeader_iff data).1 hv
  exact ⟨Nat.pos_of_ne_zero h4, Nat.pos_of_ne_zero h5⟩

/-- A true-colour input of a supported depth for which `getImageDataSize` comes out as 0:
no image data is read, and the first pixel read of `loadData` fails. -/
theorem decode_trueColor_sizeZero (E : Externals) (s : TGADecoder) (data : List Byte)
    (hv : validHeader data = true) (ht : byteAt data 2 = 2)
    (hd : byteAt data 16 = 16 ∨ byteAt data 16 = 24 ∨ byteAt data 16 = 32)
    (hsize : getImageDataSize (headerOf data).imageSpec = 0)
    (hlen : imageDataOffset (headerOf data) ≤ data.length) :
    (decode E s data).2 = .error .outOfBounds := by
  obtain ⟨P, S, hp, hS⟩ := pixelOfDepth_some _ hd
  obtain ⟨hw, hh⟩ := validHeader_dims data hv
  have hd2 : (headerOf data).imageSpec.pixelDepth = byteAt data 16 := rfl
  have himg : (withImageData (afterHeader s (headerOf data)) data (headerOf data)).imageData
      = [] := by
    rw [withImageData_imageData, hsize, slice_zero]
  have hpar : parseTrueColorImageData E
      (withImageData (afterHeader s (headerOf data)) data (headerOf data)) (headerOf data)
      = .error .outOfBounds := by
    unfold parseTrueColorImageData
    rw [hd2, hp]
    simp only []
    unfold loadData
    rw [loadDataPixels_empty E _ _ P S himg hw hh (by omega)]
  rw [decode_trueColor E s data hv ht (by rw [hsize]; exact hlen), hpar]

/-- A colour-mapped input with 8 bit indices and a supported colour map for which
`getImageDataSize` comes out as 0: no image data is read, and the first index access of
`buildImage` is outside the (empty) image data. -/
theorem decode_colorMapped_sizeZero (E : Externals) (s : TGADecoder) (data : List Byte)
    (hv : validHeader data = true) (ht : byteAt data 2 = 1) (hc : byteAt data 1 = 1)
    (hes : byteAt data 7 = 16 ∨ byteAt data 7 = 24 ∨ byteAt data 7 = 32)
    (hd : byteAt data 16 = 8)
    (hsize : getImageDataSize (headerOf data).imageSpec = 0)
    (hlen : imageDataOffset (headerOf data) ≤ data.length) :
    (decode E s data).2 = .error .undefinedAccess := by
  have hc0 : byteAt data 1 ≠ 0 := by omega
  have hes2 := headerOf_entrySize data hc0
  obtain ⟨P, S, hp, hS⟩ := pixelOfDepth_some _ hes
  obtain ⟨cm, hcm, _, _⟩ := convertColorMap_of_read E (afterHeader s (headerOf data)) data P S
    hc0 (by rw [hes2]; exact hS) hlen
  obtain ⟨hw, hh⟩ := validHeader_dims data hv
  have hd2 : (headerOf data).imageSpec.pixelDepth = 8 := hd
  have himg : (withImageData (afterHeader s (headerOf data)) data (headerOf data)).imageData
      = [] := by
    rw [withImageData_imageData, hsize, slice_zero]
  have hpar : parseColorMapImageData E
      (withImageData (afterHeader s (headerOf data)) data (headerOf data)) (headerOf data)
      = .error .undefinedAccess := by
    rw [parseColorMapImageData_of_table E _ _ P S cm (by rw [hes2]; exact hp) hcm, if_pos hd2]
    unfold buildImage
    rw [buildImagePixels_empty E _ _ cm himg hw hh]
  rw [decode_colorMapped E s data hv ht (by rw [hsize]; exact hlen), hpar]

theorem validHeader_append (hdr rest : List Byte) (hv : validHeader hdr = true) :
    validHeader (hdr ++ rest) = true := by
  have hl : 18 ≤ hdr.length := ((validHeader_iff hdr).1 hv).1
  have ht : (hdr ++ rest).take 18 = hdr.take 18 := by
    rw [List.take_append_of_le_length hl]
  exact validHeader_of_take_eq hdr (hdr ++ rest) 18 (Nat.le_refl _) hl ht hv

theorem headerOf_append (hdr rest : List Byte) (hl : 18 ≤ hdr.length) :
    headerOf (hdr ++ rest) = headerOf hdr := by
  apply headerOf_eq_of_take_eq hdr (hdr ++ rest) 18 (Nat.le_refl _)
  rw [List.take_append_of_le_length hl]

theorem byteAt_append (hdr rest : List Byte) (i : Nat) (hi : i < hdr.length) :
    byteAt (hdr ++ rest) i = byteAt hdr i := by
  apply byteAt_eq_of_take_eq hdr (hdr ++ rest) hdr.length i hi
  rw [List.take_append_of_le_length (Nat.le_refl _)]

/-! ## C2, C9, C3, C4 on images of `2 ^ 32` bits -/

/-- C2 fails on the code for a large image.  The input is the header of an uncompressed
true-colour image of 16384 by 16384 pixels of 16 bits followed by its 536870912 octets of
image data (here all zero; any other content gives the same).  `width * height * depth` is
`2 ^ 32`, `getImageDataSize` returns 0, no image data is read, and the first pixel read of
`loadData` fails: `decode` throws the bounds error instead of succeeding. -/
theorem trueColor_16384x16384x16_fails (E : Externals) (s : TGADecoder) :
    validHeader headerTrueColor16384x16384x16 = true
    ∧ (headerTrueColor16384x16384x16 ++ List.replicate 536870912 (0 : Byte)).length
        = 18 + 16384 * 16384 * (16 / 8)
    ∧ (decode E s (headerTrueColor16384x16384x16 ++ List.replicate 536870912 (0 : Byte))).2
        = .error .outOfBounds
    ∧ ∀ rest, (decode E s (headerTrueColor16384x16384x16 ++ rest)).2 = .error .outOfBounds := by
  have hv : validHeader headerTrueColor16384x16384x16 = true := by decide
  have hall : ∀ rest,
      (decode E s (headerTrueColor16384x16384x16 ++ rest)).2 = .error .outOfBounds := by
    intro rest
    apply decode_trueColor_sizeZero E s _ (validHeader_append _ rest hv)
    · rw [byteAt_append _ _ _ (by decide)]
      rfl
    · rw [byteAt_append _ _ _ (by decide)]
      exact Or.inl rfl
    · rw [headerOf_append _ _ (by decide)]
      decide
    · rw [headerOf_append _ _ (by decide), List.length_append]
      have h18 : imageDataOffset (headerOf headerTrueColor16384x16384x16) = 18 := by decide
      have hl : headerTrueColor16384x16384x16.length = 18 := rfl
      omega
  refine ⟨hv, ?_, hall _, hall⟩
  rw [List.length_append, List.length_replicate]
  rfl

/-- C9 fails on the code for a large image of a supported depth.  The input is the header of
an uncompressed true-colour image of 16384 by 8192 pixels of 32 bits followed by its
536870912 octets of image data.  `getImageDataSize` returns 0 and `decode` throws the bounds
error, although the depth is 32. -/
theorem trueColor_16384x8192x32_fails (E : Externals) (s : TGADecoder) :
    validHeader headerTrueColor16384x8192x32 = true
    ∧ (headerTrueColor16384x8192x32 ++ List.replicate 536870912 (0 : Byte)).length
        = 18 + 16384 * 8192 * (32 / 8)
    ∧ (decode E s (headerTrueColor16384x8192x32 ++ List.replicate 536870912 (0 : Byte))).2
        = .error .outOfBounds
    ∧ ∀ rest, (decode E s (headerTrueColor16384x8192x32 ++ rest)).2 = .error .outOfBounds := by
  have hv : validHeader headerTrueColor16384x8192x32 = true := by decide
  have hall : ∀ rest,
      (decode E s (headerTrueColor16384x8192x32 ++ rest)).2 = .error .outOfBounds := by
    intro rest
    apply decode_trueColor_sizeZero E s _ (validHeader_append _ rest hv)
    · rw [byteAt_append _ _ _ (by decide)]
      rfl
    · rw [byteAt_append _ _ _ (by decide)]
      exact Or.inr (Or.inr rfl)
    · rw [headerOf_append _ _ (by decide)]
      decide
    · rw [headerOf_append _ _ (by decide), List.length_append]
      have h18 : imageDataOffset (headerOf headerTrueColor16384x8192x32) = 18 := by decide
      have hl : headerTrueColor16384x8192x32.length = 18 := rfl
      omega
  refine ⟨hv, ?_, hall _, hall⟩
  rw [List.length_append, List.length_replicate]
  rfl

/-- C3 fails on the code for a large image.  The input is the header and the one-entry
colour map of an uncompressed colour-mapped image of 32768 by 16384 pixels with 8 bit
indices, followed by its 536870912 index octets, all 0 (a valid index).
`getImageDataSize` returns 0, no image data is read, and the first index access of
`buildImage` is outside the image data: the run does not succeed. -/
theorem colorMapped_32768x16384_fails (E : Externals) (s : TGADecoder) :
    validHeader headerIndexed32768x16384 = true
    ∧ (headerIndexed32768x16384 ++ List.replicate 536870912 (0 : Byte)).length
        = 18 + 3 + 32768 * 16384
    ∧ (decode E s (headerIndexed32768x16384 ++ List.replicate 536870912 (0 : Byte))).2
        = .error .undefinedAccess
    ∧ ∀ rest, (decode E s (headerIndexed32768x16384 ++ rest)).2 = .error .undefinedAccess := by
  have hv : validHeader headerIndexed32768x16384 = true := by decide
  have hall : ∀ rest,
      (decode E s (headerIndexed32768x16384 ++ rest)).2 = .error .undefinedAccess := by
    intro rest
    apply decode_colorMapped_sizeZero E s _ (validHeader_append _ rest hv)
    · rw [byteAt_append _ _ _ (by decide)]
      rfl
    · rw [byteAt_append _ _ _ (by decide)]
      rfl
    · rw [byteAt_append _ _ _ (by decide)]
      exact Or.inr (Or.inl rfl)
    · rw [byteAt_append _ _ _ (by decide)]
      rfl
    · rw [headerOf_append _ _ (by decide)]
      decide
    · rw [headerOf_append _ _ (by decide), List.length_append]
      have h21 : imageDataOffset (headerOf headerIndexed32768x16384) = 21 := by decide
      have hl : headerIndexed32768x16384.length = 21 := rfl
      omega
  refine ⟨hv, ?_, hall _, hall⟩
  rw [List.length_append, List.length_replicate]
  rfl

/-- C4 fails on the code for a large image.  The input is the header and the two-entry
colour map of an uncompressed colour-mapped image of 16384 by 32768 pixels with 8 bit
indices, followed by 536870912 index octets.  With every index 1 (the length minus one) the
claim has `decode` succeed, with every index 2 (the length) it has `decode` throw the format
error; the code reads no image data (`getImageDataSize` returns 0) and in both cases stops at
an access outside the image data, neither succeeding nor throwing a format error. -/
theorem colorMapped_16384x32768_fails (E : Externals) (s : TGADecoder) :
    validHeader headerIndexed16384x32768 = true
    ∧ wordAt headerIndexed16384x32768 5 = 2
    ∧ (headerIndexed16384x32768 ++ List.replicate 536870912 (1 : Byte)).length
        = 18 + 4 + 16384 * 32768
    ∧ (decode E s (headerIndexed16384x32768 ++ List.replicate 536870912 (1 : Byte))).2
        = .error .undefinedAccess
    ∧ (decode E s (headerIndexed16384x32768 ++ List.replicate 536870912 (2 : Byte))).2
        = .error .undefinedAccess
    ∧ isFormatError
        (decode E s (headerIndexed16384x32768 ++ List.replicate 536870912 (2 : Byte))).2 = false
    ∧ ∀ rest, (decode E s (headerIndexed16384x32768 ++ rest)).2 = .error .undefinedAccess := by
  have hv : validHeader headerIndexed16384x32768 = true := by decide
  have hall : ∀ rest,
      (decode E s (headerIndexed16384x32768 ++ rest)).2 = .error .undefinedAccess := by
    intro rest
    apply decode_colorMapped_sizeZero E s _ (validHeader_append _ rest hv)
    · rw [byteAt_append _ _ _ (by decide)]
      rfl
    · rw [byteAt_append _ _ _ (by decide)]
      rfl
    · rw [byteAt_append _ _ _ (by decide)]
      exact Or.inl rfl
    · rw [byteAt_append _ _ _ (by decide)]
      rfl
    · rw [headerOf_append _ _ (by decide)]
      decide
    · rw [headerOf_append _ _ (by decide), List.length_append]
      have h22 : imageDataOffset (headerOf headerIndexed16384x32768) = 22 := by decide
      have hl : headerIndexed16384x32768.length = 22 := rfl
      omega
  refine ⟨hv, by decide, ?_, hall _, hall _, ?_, hall⟩
  · rw [List.length_append, List.length_replicate]
    rfl
  · rw [hall]
    rfl

/-! ## True-colour images below `2 ^ 31` bits -/

theorem slice_slice (v : List Byte) (off n a b : Nat) (h : a + b ≤ n) :
    slice (slice v off n) a b = slice v (off + a) b := by
  unfold slice
  rw [List.drop_take, List.take_take, List.drop_drop, Nat.min_eq_left (by omega)]

/-- The image data read for a header below `2 ^ 31` bits whose depth is `8 * S`. -/
theorem imageData_length_of_bound (s : TGADecoder) (data : List Byte) (S : Nat)
    (hS : (headerOf data).imageSpec.pixelDepth = 8 * S)
    (hb : (headerOf data).imageSpec.width * (headerOf data).imageSpec.height
      * (headerOf data).imageSpec.pixelDepth < 2147483648)
    (hlen : imageDataOffset (headerOf data) + getImageDataSize (headerOf data).imageSpec
      ≤ data.length) :
    getImageDataSize (headerOf data).imageSpec
        = (headerOf data).imageSpec.width * (headerOf data).imageSpec.height * S
    ∧ (withImageData s data (headerOf data)).imageData.length
        = (headerOf data).imageSpec.width * (headerOf data).imageSpec.height * S := by
  have h1 := getImageDataSize_eq (headerOf data).imageSpec hb
  have h2 : (headerOf data).imageSpec.width * (headerOf data).imageSpec.height
      * (headerOf data).imageSpec.pixelDepth / 8
      = (headerOf data).imageSpec.width * (headerOf data).imageSpec.height * S := by
    rw [hS, Nat.mul_comm 8 S, ← Nat.mul_assoc, Nat.mul_div_cancel _ (by omega)]
  rw [withImageData_imageData, slice_length _ _ _ hlen, h1, h2]
  exact ⟨rfl, rfl⟩

/-- Functional correctness of the true-colour path below `2 ^ 31` bits of image data: for
every valid uncompressed true-colour input of depth 16, 24 or 32 with the octets the decoder
asks for present, `decode` succeeds, the image has the declared dimensions, the inner reader
ends exactly at the end of the image data, and the pixel at the remapped position of every
logical `(x, y)` is the conversion of the `S = depth / 8` input octets at offset
`18 + idLength + colour-map size + (x + y * width) * S`. -/
theorem decode_trueColor_pixels (E : Externals) (s : TGADecoder) (data : List Byte)
    (hv : validHeader data = true) (ht : byteAt data 2 = 2)
    (hd : byteAt data 16 = 16 ∨ byteAt data 16 = 24 ∨ byteAt data 16 = 32)
    (hb : wordAt data 12 * wordAt data 14 * byteAt data 16 < 2147483648)
    (hlen : imageDataOffset (headerOf data) + getImageDataSize (headerOf data).imageSpec
      ≤ data.length) :
    ∃ P S, pixelOfDepth (byteAt data 16) = some (P, S) ∧ byteAt data 16 = 8 * S
      ∧ (decode E s data).2 = .ok ()
      ∧ (decode E s data).1.image.width = wordAt data 12
      ∧ (decode E s data).1.image.height = wordAt data 14
      ∧ (∃ img, loadDataPixels E (withImageData (afterHeader s (headerOf data)) data
            (headerOf data)) (headerOf data) P S
          = .ok (⟨(withImageData (afterHeader s (headerOf data)) data (headerOf data)).imageData,
              (withImageData (afterHeader s (headerOf data)) data
                (headerOf data)).imageData.length⟩, img))
      ∧ ∀ x y, x < wordAt data 12 → y < wordAt data 14 →
          (decode E s data).1.image.getPixel
              (getTransformedX E (headerOf data).imageSpec x)
              (getTransformedY E (headerOf data).imageSpec y)
            = some (E.convert P
                (slice data (imageDataOffset (headerOf data) + (x + y * wordAt data 12) * S) S)) := by
  obtain ⟨P, S, hp, hS⟩ := pixelOfDepth_some _ hd
  obtain ⟨hw, hh, _⟩ := headerOf_imageSpec_bounds data
  have hd2 : (headerOf data).imageSpec.pixelDepth = byteAt data 16 := rfl
  have hwd : (headerOf data).imageSpec.width = wordAt data 12 := rfl
  have hhd : (headerOf data).imageSpec.height = wordAt data 14 := rfl
  obtain ⟨hsz, hil⟩ := imageData_length_of_bound (afterHeader s (headerOf data)) data S
    (by rw [hd2]; exact hS) hb hlen
  obtain ⟨img, hrun, hwr⟩ := loadDataPixels_ok E
    (withImageData (afterHeader s (headerOf data)) data (headerOf data)) (headerOf data) P S
    (by omega) (by omega) (by rw [hil])
  have hpar : parseTrueColorImageData E
      (withImageData (afterHeader s (headerOf data)) data (headerOf data)) (headerOf data)
      = .ok { withImageData (afterHeader s (headerOf data)) data (headerOf data) with
          image := img } := by
    unfold parseTrueColorImageData
    rw [hd2, hp]
    simp only []
    unfold loadData
    rw [hrun]
  have hend : (headerOf data).imageSpec.height * (headerOf data).imageSpec.width * S
      = (withImageData (afterHeader s (headerOf data)) data (headerOf data)).imageData.length := by
    rw [hil, Nat.mul_comm (headerOf data).imageSpec.height]
  have hdec : decode E s data
      = ({ withImageData (afterHeader s (headerOf data)) data (headerOf data) with
            image := img, validDecode := true }, .ok ()) := by
    rw [decode_trueColor E s data hv ht hlen, hpar]
  rw [hdec]
  refine ⟨P, S, hp, hS, rfl, hwr.1.1, hwr.1.2.1, ⟨img, by rw [← hend]; exact hrun⟩, ?_⟩
  intro x y hx hy
  have hpx := hwr.2 x y hx (Or.inl hy)
  have hidx : (x + y * wordAt data 12) * S + S
      ≤ getImageDataSize (headerOf data).imageSpec := by
    rw [hsz, hwd, hhd]
    have h1 : y * wordAt data 12 + x + 1 ≤ wordAt data 12 * wordAt data 14 := by
      have := index_lt (w := wordAt data 12) (h := wordAt data 14) hx hy
      omega
    have h2 := Nat.mul_le_mul_right S h1
    have h3 : (y * wordAt data 12 + x + 1) * S = (y * wordAt data 12 + x) * S + S :=
      Nat.succ_mul _ S
    rw [Nat.add_comm x]
    omega
  show img.getPixel _ _ = _
  rw [hpx]
  unfold trueColorPixel
  rw [withImageData_imageData, hwd, slice_slice _ _ _ _ _ hidx]

/-! ## Colour-mapped images below `2 ^ 31` bits -/

theorem slice_getD (v : List Byte) (off n j : Nat) (hj : j < n) :
    (slice v off n).getD j 0 = v.getD (off + j) 0 := by
  unfold slice
  rw [List.getD_eq_getElem?_getD, List.getD_eq_getElem?_getD, List.getElem?_take, if_pos hj,
    List.getElem?_drop]

/-- The outcome of the colour-mapped path below `2 ^ 31` bits of image data, for a valid
colour-mapped input with 8 bit indices, colour-map type 1, a colour-map entry depth of 16,
24 or 32 and the octets the decoder asks for present.  Either every index octet is below the
colour-map length, `decode` succeeds, the image has the declared dimensions and the pixel at
the remapped position of every logical `(x, y)` is the conversion of the `S` colour-map
octets at `[k * S, k * S + S)`, `k` being the image-data octet at `x + y * width`; or some
index octet is not below the colour-map length and `decode` throws the format error
"Invalid color map index found in image data". -/
theorem decode_colorMapped_pixels (E : Externals) (s : TGADecoder) (data : List Byte)
    (hv : validHeader data = true) (ht : byteAt data 2 = 1) (hc : byteAt data 1 = 1)
    (hes : byteAt data 7 = 16 ∨ byteAt data 7 = 24 ∨ byteAt data 7 = 32)
    (hd : byteAt data 16 = 8)
    (hb : wordAt data 12 * wordAt data 14 * byteAt data 16 < 2147483648)
    (hlen : imageDataOffset (headerOf data) + getImageDataSize (headerOf data).imageSpec
      ≤ data.length) :
    ∃ P S, pixelOfDepth (byteAt data 7) = some (P, S) ∧ byteAt data 7 = 8 * S
      ∧ (((decode E s data).2 = .ok ()
          ∧ (decode E s data).1.image.width = wordAt data 12
          ∧ (decode E s data).1.image.height = wordAt data 14
          ∧ (∀ x y, x < wordAt data 12 → y < wordAt data 14 →
              byteAt data (imageDataOffset (headerOf data) + (x + y * wordAt data 12))
                < wordAt data 5)
          ∧ ∀ x y, x < wordAt data 12 → y < wordAt data 14 →
              (decode E s data).1.image.getPixel
                  (getTransformedX E (headerOf data).imageSpec x)
                  (getTransformedY E (headerOf data).imageSpec y)
                = some (E.convert P (slice data (18 + byteAt data 0
                    + byteAt data (imageDataOffset (headerOf data) + (x + y * wordAt data 12))
                      * S) S)))
        ∨ ((decode E s data).2
              = .error (.imageDecoder "Invalid color map index found in image data")
          ∧ ∃ x y, x < wordAt data 12 ∧ y < wordAt data 14
              ∧ wordAt data 5
                ≤ byteAt data (imageDataOffset (headerOf data) + (x + y * wordAt data 12)))) := by
  have hc0 : byteAt data 1 ≠ 0 := by omega
  have hc2 : (headerOf data).colorMapType ≠ 0 := hc0
  have hes2 := headerOf_entrySize data hc0
  have hlen5 : (headerOf data).colorMapSpec.colorMapLength = wordAt data 5 := by
    unfold headerOf
    rw [if_pos hc0]
  obtain ⟨P, S, hp, hS⟩ := pixelOfDepth_some _ hes
  obtain ⟨cm, hcm, hcml, hcme⟩ := convertColorMap_of_read E (afterHeader s (headerOf data)) data
    P S hc0 (by rw [hes2]; exact hS) (by omega)
  obtain ⟨hw, hh, _⟩ := headerOf_imageSpec_bounds data
  have hd2 : (headerOf data).imageSpec.pixelDepth = 8 := hd
  have hwd : (headerOf data).imageSpec.width = wordAt data 12 := rfl
  have hhd : (headerOf data).imageSpec.height = wordAt data 14 := rfl
  have hil := imageData_length_of_bound (afterHeader s (headerOf data)) data 1
    (by rw [hd2]) hb hlen
  rw [Nat.mul_one] at hil
  obtain ⟨hsz, hil⟩ := hil
  have hidx : ∀ x y, x < wordAt data 12 → y < wordAt data 14 →
      ((withImageData (afterHeader s (headerOf data)) data (headerOf data)).imageData.getD
          (x + y * (headerOf data).imageSpec.width) 0).val
        = byteAt data (imageDataOffset (headerOf data) + (x + y * wordAt data 12)) := by
    intro x y hx hy
    have hi : x + y * wordAt data 12 < getImageDataSize (headerOf data).imageSpec := by
      rw [hsz, hwd, hhd]
      have := index_lt (w := wordAt data 12) (h := wordAt data 14) hx hy
      omega
    rw [withImageData_imageData, hwd, slice_getD _ _ _ _ hi]
    rfl
  have hpar := parseColorMapImageData_of_table E _ _ P S cm (by rw [hes2]; exact hp) hcm
  rw [if_pos hd2] at hpar
  unfold buildImage at hpar
  refine ⟨P, S, hp, hS, ?_⟩
  rcases buildImagePixels_rule E
      (withImageData (afterHeader s (headerOf data)) data (headerOf data)) (headerOf data) cm
      (by omega) (by omega) hcml (by rw [hil]) with ⟨img, hrun, hwr, hok⟩ | ⟨hrun, x, y, hx, hy, hbad⟩
  · left
    rw [hrun] at hpar
    have hdec : decode E s data
        = ({ withImageData (afterHeader s (headerOf data)) data (headerOf data) with
              image := img, validDecode := true }, .ok ()) := by
      rw [decode_colorMapped E s data hv ht hlen, hpar]
    rw [hdec]
    refine ⟨rfl, hwr.1.1, hwr.1.2.1, ?_, ?_⟩
    · intro x y hx hy
      have h1 := hok x y hx hy
      rw [hidx x y hx hy, hlen5] at h1
      exact h1
    · intro x y hx hy
      have hpx := hwr.2 x y hx (Or.inl hy)
      have hk := hok x y hx hy
      show img.getPixel _ _ = _
      rw [hpx]
      unfold colorMappedPixel
      rw [List.getD_eq_getElem?_getD, hcme _ hk, Option.getD_some, hidx x y hx hy]
      rw [hidx x y hx hy, hlen5] at hk
      have hcmd := withImageData_colorMapData (afterHeader s (headerOf data)) data _ hc2
      obtain ⟨hb1, hb2⟩ := headerOf_colorMapSpec_bounds data
      have hsize := getColorMapSize_eq (headerOf data).colorMapSpec hb1 hb2
      have hin : byteAt data (imageDataOffset (headerOf data) + (x + y * wordAt data 12)) * S + S
          ≤ getColorMapSize (headerOf data).colorMapSpec := by
        rw [hsize, hes2, hS, hlen5, Nat.mul_comm 8 S, ← Nat.mul_assoc,
          Nat.mul_div_cancel _ (by omega)]
        have h2 := Nat.mul_le_mul_right S (Nat.succ_le_of_lt hk)
        rw [Nat.succ_mul] at h2
        exact h2
      rw [hcmd, slice_slice _ _ _ _ _ hin]
      rfl
  · right
    rw [hrun] at hpar
    constructor
    · rw [decode_colorMapped E s data hv ht hlen, hpar]
    · refine ⟨x, y, hx, hy, ?_⟩
      rw [hidx x y hx hy, hlen5] at hbad
      exact hbad

/-! ## C20: no access outside a buffer -/

/-- A colour-mapped header without colour map (colour-map type 0) has entry depth 0. -/
theorem decode_colorMapped_noMap (E : Externals) (s : TGADecoder) (data : List Byte)
    (hv : validHeader data = true) (ht : byteAt data 2 = 1) (hc : byteAt data 1 = 0)
    (hlen : imageDataOffset (headerOf data) + getImageDataSize (headerOf data).imageSpec
      ≤ data.length) :
    (decode E s data).2 = .error (.imageDecoder "Invalid color map color format") := by
  have hes : (headerOf data).colorMapSpec.colorMapEntrySize = 0 := by
    unfold headerOf
    rw [if_neg (by omega)]
  have hp : parseColorMapImageData E
      (withImageData (afterHeader s (headerOf data)) data (headerOf data)) (headerOf data)
      = .error (.imageDecoder "Invalid color map color format") := by
    unfold parseColorMapImageData
    rw [hes, pixelOfDepth_none 0 (by omega)]
  rw [decode_colorMapped E s data hv ht hlen, hp]

/-- C20. For every valid header with `width * height * pixelDepth < 2 ^ 31`, once the
colour map and the image data have been read: (a) in the true-colour path with depth 16, 24
or 32 the inner reader never leaves the image data and ends exactly at its end, and `decode`
succeeds; (b) in the colour-mapped path with 8 bit indices every image index
`x + y * width` is inside the image data, every colour-map range `[i * S, i * S + S)` with
`i` below the colour-map length is inside the colour-map data, the table has that length,
and `decode` ends neither in an access outside a container nor in a bounds error; (c) every
remapped position lies inside the `width` by `height` image. -/
theorem plane_decoding_in_range (E : Externals) (s : TGADecoder) (data : List Byte)
    (hv : validHeader data = true)
    (hb : wordAt data 12 * wordAt data 14 * byteAt data 16 < 2147483648)
    (hlen : imageDataOffset (headerOf data) + getImageDataSize (headerOf data).imageSpec
      ≤ data.length) :
    (byteAt data 2 = 2 → (byteAt data 16 = 16 ∨ byteAt data 16 = 24 ∨ byteAt data 16 = 32) →
      (decode E s data).2 = .ok ()
      ∧ ∃ P S img, pixelOfDepth (byteAt data 16) = some (P, S)
        ∧ loadDataPixels E (withImageData (afterHeader s (headerOf data)) data (headerOf data))
            (headerOf data) P S
          = .ok (⟨(withImageData (afterHeader s (headerOf data)) data (headerOf data)).imageData,
              (withImageData (afterHeader s (headerOf data)) data
                (headerOf data)).imageData.length⟩, img))
    ∧ (byteAt data 2 = 1 → byteAt data 16 = 8 →
      (∀ x y, x < wordAt data 12 → y < wordAt data 14 →
        x + y * wordAt data 12
          < (withImageData (afterHeader s (headerOf data)) data (headerOf data)).imageData.length)
      ∧ (∀ P S, byteAt data 1 = 1 → pixelOfDepth (byteAt data 7) = some (P, S) →
          (∀ i, i < wordAt data 5 → i * S + S
            ≤ (withImageData (afterHeader s (headerOf data)) data
                (headerOf data)).colorMapData.length)
          ∧ ∃ cm, convertColorMap E
                (withImageData (afterHeader s (headerOf data)) data (headerOf data))
                (headerOf data) P S = .ok cm
              ∧ cm.length = wordAt data 5)
      ∧ (decode E s data).2 ≠ .error .undefinedAccess
      ∧ (decode E s data).2 ≠ .error .outOfBounds)
    ∧ (∀ x y, x < wordAt data 12 → y < wordAt data 14 →
      getTransformedX E (headerOf data).imageSpec x < wordAt data 12
      ∧ getTransformedY E (headerOf data).imageSpec y < wordAt data 14) := by
  obtain ⟨hw, hh, _⟩ := headerOf_imageSpec_bounds data
  have hwd : (headerOf data).imageSpec.width = wordAt data 12 := rfl
  have hhd : (headerOf data).imageSpec.height = wordAt data 14 := rfl
  refine ⟨?_, ?_, ?_⟩
  · intro ht hd
    obtain ⟨P, S, hp, _, hok, _, _, ⟨img, hrun⟩, _⟩ :=
      decode_trueColor_pixels E s data hv ht hd hb hlen
    exact ⟨hok, P, S, img, hp, hrun⟩
  · intro ht hd
    have hd2 : (headerOf data).imageSpec.pixelDepth = 8 * 1 := hd
    obtain ⟨_, hil⟩ := imageData_length_of_bound (afterHeader s (headerOf data)) data 1 hd2 hb hlen
    rw [Nat.mul_one] at hil
    refine ⟨?_, ?_, ?_⟩
    · intro x y hx hy
      rw [hil, hwd, hhd]
      have := index_lt (w := wordAt data 12) (h := wordAt data 14) hx hy
      omega
    · intro P S hc hp
      have hc0 : byteAt data 1 ≠ 0 := by omega
      have hc2 : (headerOf data).colorMapType ≠ 0 := hc0
      have hes2 := headerOf_entrySize data hc0
      have hlen5 : (headerOf data).colorMapSpec.colorMapLength = wordAt data 5 := by
        unfold headerOf
        rw [if_pos hc0]
      have hS : byteAt data 7 = 8 * S := by
        unfold pixelOfDepth at hp
        split at hp
        · cases hp; assumption
        · split at hp
          · cases hp; assumption
          · split at hp
            · cases hp; assumption
            · cases hp
      obtain ⟨cm, hcm, hcml, _⟩ := convertColorMap_of_read E (afterHeader s (headerOf data)) data
        P S hc0 (by rw [hes2]; exact hS) (by omega)
      refine ⟨?_, cm, hcm, by rw [hcml, hlen5]⟩
      intro i hi
      obtain ⟨hb1, hb2⟩ := headerOf_colorMapSpec_bounds data
      have hsize := getColorMapSize_eq (headerOf data).colorMapSpec hb1 hb2
      have hoff : 18 + (headerOf data).idLength + getColorMapSize (headerOf data).colorMapSpec
          ≤ data.length := by
        have h1 : imageDataOffset (headerOf data) ≤ data.length := by omega
        unfold imageDataOffset colorMapBytes at h1
        rw [if_pos hc2] at h1
        exact h1
      rw [withImageData_colorMapData _ data _ hc2, slice_length _ _ _ hoff, hsize, hes2, hS, hlen5,
        Nat.mul_comm 8 S, ← Nat.mul_assoc, Nat.mul_div_cancel _ (by omega)]
      have h2 := Nat.mul_le_mul_right S (Nat.succ_le_of_lt hi)
      rw [Nat.succ_mul] at h2
      exact h2
    · have hcases : byteAt data 1 = 0 ∨ byteAt data 1 = 1 := by
        have := ((validHeader_iff data).1 hv).2.1
        omega
      rcases hcases with hc | hc
      · rw [decode_colorMapped_noMap E s data hv ht hc hlen]
        exact ⟨by simp, by simp⟩
      · by_cases hes : byteAt data 7 = 16 ∨ byteAt data 7 = 24 ∨ byteAt data 7 = 32
        · obtain ⟨P, S, _, _, hres⟩ := decode_colorMapped_pixels E s data hv ht hc hes hd hb hlen
          rcases hres with ⟨hok, _⟩ | ⟨herr, _⟩
          · rw [hok]
            exact ⟨by simp, by simp⟩
          · rw [herr]
            exact ⟨by simp, by simp⟩
        · rw [decode_colorMapped_badEntry E s data hv ht hc hes hlen]
          exact ⟨by simp, by simp⟩
  · intro x y hx hy
    exact ⟨getTransformedX_lt E _ (by omega) x hx, getTransformedY_lt E _ (by omega) y hy⟩

/-- C20 at a true-colour sample and a colour-mapped sample. -/
theorem plane_decoding_in_range_witness :
    ((decode sampleExternals freshDecoder sampleTrueColor).2 = .ok ()
      ∧ ∃ P S img, pixelOfDepth (byteAt sampleTrueColor 16) = some (P, S)
        ∧ loadDataPixels sampleExternals
            (withImageData (afterHeader freshDecoder (headerOf sampleTrueColor)) sampleTrueColor
              (headerOf sampleTrueColor))
            (headerOf sampleTrueColor) P S
          = .ok (⟨(withImageData (afterHeader freshDecoder (headerOf sampleTrueColor))
                sampleTrueColor (headerOf sampleTrueColor)).imageData,
              (withImageData (afterHeader freshDecoder (headerOf sampleTrueColor))
                sampleTrueColor (headerOf sampleTrueColor)).imageData.length⟩, img))
    ∧ ((decode sampleExternals freshDecoder sampleIndexed8).2 ≠ .error .undefinedAccess
      ∧ (decode sampleExternals freshDecoder sampleIndexed8).2 ≠ .error .outOfBounds) :=
  ⟨(plane_decoding_in_range sampleExternals freshDecoder sampleTrueColor (by decide) (by decide)
      (by decide)).1 rfl (Or.inr (Or.inl rfl)),
    ((plane_decoding_in_range sampleExternals freshDecoder sampleIndexed8 (by decide) (by decide)
      (by decide)).2.1 rfl rfl).2.2⟩

/-! ## C19: the reserved descriptor bits -/

theorem drop_eq_of_drop18 (d1 d2 : List Byte) (pos : Nat) (hp : 18 ≤ pos)
    (h : d1.drop 18 = d2.drop 18) : d1.drop pos = d2.drop pos := by
  have h1 : ∀ v : List Byte, v.drop pos = (v.drop 18).drop (pos - 18) := by
    intro v
    rw [List.drop_drop]
    congr 1
    omega
  rw [h1 d1, h1 d2, h]

theorem readSpan_sameFrom18 (r1 r2 : BinaryReader) (n : Nat) (h : sameFrom18 r1 r2) :
    (∃ e, r1.readSpan n = .error e ∧ r2.readSpan n = .error e)
      ∨ (∃ bytes q1 q2, r1.readSpan n = .ok (bytes, q1) ∧ r2.readSpan n = .ok (bytes, q2)
          ∧ sameFrom18 q1 q2) := by
  obtain ⟨hp, h18, hl, hd⟩ := h
  unfold BinaryReader.readSpan
  by_cases hle : r1.position + n ≤ r1.data.length
  · right
    rw [if_pos hle, if_pos (by rw [← hp, ← hl]; exact hle), ← hp,
      drop_eq_of_drop18 r1.data r2.data r1.position h18 hd]
    exact ⟨_, _, _, rfl, rfl, rfl, by simp only []; omega, hl, hd⟩
  · left
    rw [if_neg hle, if_neg (by rw [← hp, ← hl]; exact hle)]
    exact ⟨_, rfl, rfl⟩

theorem readImageId_sameFrom18 (r1 r2 : BinaryReader) (hdr : TGAHeader)
    (h : sameFrom18 r1 r2) :
    (∃ e, readImageId r1 hdr = .error e ∧ readImageId r2 hdr = .error e)
      ∨ (∃ q1 q2, readImageId r1 hdr = .ok q1 ∧ readImageId r2 hdr = .ok q2
          ∧ sameFrom18 q1 q2) := by
  unfold readImageId
  by_cases hid : hdr.idLength ≠ 0
  · rw [if_pos hid, if_pos hid]
    rcases readSpan_sameFrom18 r1 r2 hdr.idLength h with ⟨e, h1, h2⟩ | ⟨b, q1, q2, h1, h2, hq⟩
    · rw [h1, h2]
      exact Or.inl ⟨e, rfl, rfl⟩
    · rw [h1, h2]
      exact Or.inr ⟨q1, q2, rfl, rfl, hq⟩
  · rw [if_neg hid, if_neg hid]
    exact Or.inr ⟨r1, r2, rfl, rfl, h⟩

theorem readColorMapData_sameFrom18 (s : TGADecoder) (r1 r2 : BinaryReader) (hdr : TGAHeader)
    (h : sameFrom18 r1 r2) :
    (∃ s2 e, readColorMapData s r1 hdr = (s2, .error e)
        ∧ readColorMapData s r2 hdr = (s2, .error e))
      ∨ (∃ s2 q1 q2, readColorMapData s r1 hdr = (s2, .ok q1)
          ∧ readColorMapData s r2 hdr = (s2, .ok q2) ∧ sameFrom18 q1 q2) := by
  unfold readColorMapData
  by_cases hc : hdr.colorMapType ≠ 0
  · rw [if_pos hc, if_pos hc]
    rcases readSpan_sameFrom18 r1 r2 (getColorMapSize hdr.colorMapSpec) h with
      ⟨e, h1, h2⟩ | ⟨b, q1, q2, h1, h2, hq⟩
    · rw [h1, h2]
      exact Or.inl ⟨_, e, rfl, rfl⟩
    · rw [h1, h2]
      exact Or.inr ⟨_, q1, q2, rfl, rfl, hq⟩
  · rw [if_neg hc, if_neg hc]
    exact Or.inr ⟨s, r1, r2, rfl, rfl, h⟩

theorem readImageData_sameFrom18 (s : TGADecoder) (r1 r2 : BinaryReader) (hdr : TGAHeader)
    (h : sameFrom18 r1 r2) :
    (∃ s2 e, readImageData s r1 hdr = (s2, .error e)
        ∧ readImageData s r2 hdr = (s2, .error e))
      ∨ (∃ s2 q1 q2, readImageData s r1 hdr = (s2, .ok q1)
          ∧ readImageData s r2 hdr = (s2, .ok q2) ∧ sameFrom18 q1 q2) := by
  unfold readImageData
  by_cases hc : hdr.imageType = 1 ∨ hdr.imageType = 2 ∨ hdr.imageType = 3
  · rw [if_pos hc, if_pos hc]
    rcases readSpan_sameFrom18 r1 r2 (getImageDataSize hdr.imageSpec) h with
      ⟨e, h1, h2⟩ | ⟨b, q1, q2, h1, h2, hq⟩
    · rw [h1, h2]
      exact Or.inl ⟨_, e, rfl, rfl⟩
    · rw [h1, h2]
      exact Or.inr ⟨_, q1, q2, rfl, rfl, hq⟩
  · rw [if_neg hc, if_neg hc]
    exact Or.inr ⟨s, r1, r2, rfl, rfl, h⟩

/-- `decodeBody` sees its input only from offset 18 on. -/
theorem decodeBody_sameFrom18 (E : Externals) (s : TGADecoder) (r1 r2 : BinaryReader)
    (hdr : TGAHeader) (h : sameFrom18 r1 r2) :
    decodeBody E s r1 hdr = decodeBody E s r2 hdr := by
  unfold decodeBody
  rcases readImageId_sameFrom18 r1 r2 hdr h with ⟨e, h1, h2⟩ | ⟨q1, q2, h1, h2, hq⟩
  · rw [h1, h2]
  · rw [h1, h2]
    simp only []
    rcases readColorMapData_sameFrom18 s q1 q2 hdr hq with
      ⟨s2, e, h3, h4⟩ | ⟨s2, p1, p2, h3, h4, hp⟩
    · rw [h3, h4]
    · rw [h3, h4]
      simp only []
      rcases readImageData_sameFrom18 s2 p1 p2 hdr hp with
        ⟨s3, e, h5, h6⟩ | ⟨s3, o1, o2, h5, h6, _⟩
      · rw [h5, h6]
      · rw [h5, h6]

theorem getTransformedX_descriptor (E : Externals) (ox oy w h d desc1 desc2 : Nat)
    (hm : E.mask desc1 4 2 = E.mask desc2 4 2) (x : Nat) :
    getTransformedX E ⟨ox, oy, w, h, d, desc1⟩ x = getTransformedX E ⟨ox, oy, w, h, d, desc2⟩ x := by
  unfold getTransformedX getImageOriginMode
  simp only [hm]

theorem getTransformedY_descriptor (E : Externals) (ox oy w h d desc1 desc2 : Nat)
    (hm : E.mask desc1 4 2 = E.mask desc2 4 2) (y : Nat) :
    getTransformedY E ⟨ox, oy, w, h, d, desc1⟩ y = getTransformedY E ⟨ox, oy, w, h, d, desc2⟩ y := by
  unfold getTransformedY getImageOriginMode
  simp only [hm]

theorem loadDataPixels_descriptor (E : Externals) (s : TGADecoder)
    (a b c : Nat) (cms : TGAColorMapSpecification) (ox oy w h d desc1 desc2 : Nat)
    (hm : E.mask desc1 4 2 = E.mask desc2 4 2) (P : Pixel) (S : Nat) :
    loadDataPixels E s ⟨a, b, c, cms, ⟨ox, oy, w, h, d, desc1⟩⟩ P S
      = loadDataPixels E s ⟨a, b, c, cms, ⟨ox, oy, w, h, d, desc2⟩⟩ P S := by
  unfold loadDataPixels
  simp only [getTransformedX_descriptor E ox oy w h d desc1 desc2 hm,
    getTransformedY_descriptor E ox oy w h d desc1 desc2 hm]

theorem buildImagePixels_descriptor (E : Externals) (s : TGADecoder)
    (a b c : Nat) (cms : TGAColorMapSpecification) (ox oy w h d desc1 desc2 : Nat)
    (hm : E.mask desc1 4 2 = E.mask desc2 4 2) (cm : List PixelBGRA8) :
    buildImagePixels E s ⟨a, b, c, cms, ⟨ox, oy, w, h, d, desc1⟩⟩ cm
      = buildImagePixels E s ⟨a, b, c, cms, ⟨ox, oy, w, h, d, desc2⟩⟩ cm := by
  unfold buildImagePixels
  simp only [getTransformedX_descriptor E ox oy w h d desc1 desc2 hm,
    getTransformedY_descriptor E ox oy w h d desc1 desc2 hm]

/-- `decodeBody` uses the descriptor octet only through `Bits::mask(descriptor, 4, 2)`. -/
theorem decodeBody_descriptor (E : Externals) (s : TGADecoder) (r : BinaryReader)
    (a b c : Nat) (cms : TGAColorMapSpecification) (ox oy w h d desc1 desc2 : Nat)
    (hm : E.mask desc1 4 2 = E.mask desc2 4 2) :
    decodeBody E s r ⟨a, b, c, cms, ⟨ox, oy, w, h, d, desc1⟩⟩
      = decodeBody E s r ⟨a, b, c, cms, ⟨ox, oy, w, h, d, desc2⟩⟩ := by
  have hp : ∀ s2 : TGADecoder,
      parseImage E s2 ⟨a, b, c, cms, ⟨ox, oy, w, h, d, desc1⟩⟩
        = parseImage E s2 ⟨a, b, c, cms, ⟨ox, oy, w, h, d, desc2⟩⟩ := by
    intro s2
    unfold parseImage parseColorMapImageData parseTrueColorImageData buildImage loadData
    simp only [loadDataPixels_descriptor E _ a b c cms ox oy w h d desc1 desc2 hm,
      buildImagePixels_descriptor E _ a b c cms ox oy w h d desc1 desc2 hm]
    rfl
  unfold decodeBody
  simp only [hp]
  rfl

/-- The specification's bit-field mask of the origin mode ignores the bits 6 and 7. -/
theorem Bits.mask_originMode_ignores_reserved (d1 d2 : Nat) (h : d1 % 64 = d2 % 64) :
    Bits.mask d1 4 2 = Bits.mask d2 4 2 := by
  show d1 &&& 48 = d2 &&& 48
  have h1 : ∀ d : Nat, d &&& 48 = (d % 64) &&& 48 := by
    intro d
    rw [show (64 : Nat) = 2 ^ 6 by decide]
    apply Nat.eq_of_testBit_eq
    intro i
    simp only [Nat.testBit_land, Nat.testBit_mod_two_pow]
    by_cases hi : i < 6
    · simp [hi]
    · have h48 : Nat.testBit 48 i = false := by
        apply Nat.testBit_lt_two_pow
        calc 48 < 2 ^ 6 := by decide
          _ ≤ 2 ^ i := Nat.pow_le_pow_right (by decide) (by omega)
      simp [h48]
  rw [h1 d1, h1 d2, h]

/-- C19. The reserved descriptor bits never affect the decode result.  Provided
`Bits::mask(descriptor, 4, 2)` does not depend on the bits 6 and 7 of the descriptor, any two
inputs that are identical except for those two bits of the descriptor octet (offset 17)
give the same outcome (success, or the same error) and leave the same decoder object, hence
equal images and equal recorded origin. -/
theorem reserved_bits_ignored (E : Externals) (s : TGADecoder) (data1 data2 : List Byte)
    (hmask : ∀ d1 d2, d1 % 64 = d2 % 64 → E.mask d1 4 2 = E.mask d2 4 2)
    (hlen : data1.length = data2.length)
    (hsame : ∀ i, i ≠ 17 → data1[i]? = data2[i]?)
    (hdesc : byteAt data1 17 % 64 = byteAt data2 17 % 64) :
    decode E s data1 = decode E s data2 := by
  by_cases h18 : 18 ≤ data1.length
  · have hb : ∀ i, i ≠ 17 → byteAt data1 i = byteAt data2 i := by
      intro i hi
      unfold byteAt
      rw [List.getD_eq_getElem?_getD, List.getD_eq_getElem?_getD, hsame i hi]
    have hR : sameFrom18 ⟨data1, 18⟩ ⟨data2, 18⟩ := by
      refine ⟨rfl, Nat.le_refl _, hlen, ?_⟩
      apply List.ext_getElem?
      intro i
      rw [List.getElem?_drop, List.getElem?_drop]
      exact hsame _ (by omega)
    have hH : ∀ s2 r, decodeBody E s2 r (headerOf data1) = decodeBody E s2 r (headerOf data2) := by
      intro s2 r
      unfold headerOf wordAt
      rw [hb 0 (by omega), hb 1 (by omega), hb 2 (by omega), hb 3 (by omega), hb 4 (by omega),
        hb 5 (by omega), hb 6 (by omega), hb 7 (by omega), hb 8 (by omega), hb 9 (by omega),
        hb 10 (by omega), hb 11 (by omega), hb 12 (by omega), hb 13 (by omega),
        hb 14 (by omega), hb 15 (by omega), hb 16 (by omega)]
      exact decodeBody_descriptor E s2 r _ _ _ _ _ _ _ _ _ _ _ (hmask _ _ hdesc)
    have hA : afterHeader s (headerOf data1) = afterHeader s (headerOf data2) := by
      unfold afterHeader headerOf wordAt
      rw [hb 8 (by omega), hb 9 (by omega), hb 10 (by omega), hb 11 (by omega)]
    have hw12 : wordAt data1 12 = wordAt data2 12 := by
      unfold wordAt
      rw [hb 12 (by omega), hb 13 (by omega)]
    have hw14 : wordAt data1 14 = wordAt data2 14 := by
      unfold wordAt
      rw [hb 14 (by omega), hb 15 (by omega)]
    rw [decode_header E s data1 h18, decode_header E s data2 (by omega), hb 1 (by omega),
      hb 2 (by omega), hw12, hw14, hA, decodeBody_sameFrom18 E _ _ _ (headerOf data1) hR, hH]
  · have heq : data1 = data2 := by
      apply List.ext_getElem?
      intro i
      by_cases hi : i = 17
      · rw [hi, List.getElem?_eq_none (by omega), List.getElem?_eq_none (by omega)]
      · exact hsame i hi
    rw [heq]

/-- C19 at the 2 by 1 true-colour sample and the same input with both reserved bits set
(descriptor `0xE0` in place of `0x20`). -/
theorem reserved_bits_ignored_witness :
    decode sampleExternals freshDecoder sampleTrueColor
      = decode sampleExternals freshDecoder
          [0, 0, 2, 0, 0, 0, 0, 0, 0, 0, 0, 0, 2, 0, 1, 0, 24, 0xE0, 1, 2, 3, 4, 5, 6] :=
  reserved_bits_ignored sampleExternals freshDecoder sampleTrueColor
    [0, 0, 2, 0, 0, 0, 0, 0, 0, 0, 0, 0, 2, 0, 1, 0, 24, 0xE0, 1, 2, 3, 4, 5, 6]
    Bits.mask_originMode_ignores_reserved
    rfl
    (by
      intro i hi
      rcases i with _ | _ | _ | _ | _ | _ | _ | _ | _ | _ | _ | _ | _ | _ | _ | _ | _ | _ | _ | _
        | _ | _ | _ | _ | i <;> first
        | rfl
        | (exact absurd rfl hi))
    (by decide)

/-! ## Further properties of the true-colour path -/

/-- Depth 24 with descriptor `0x20` and a mask that keeps the origin-mode field in place:
below `2 ^ 31` bits of image data the output pixel `(x, y)` is the conversion of the triplet
stored for `(x, y)`; no row or column is flipped. -/
theorem decode_trueColor24_topOrigin (E : Externals) (s : TGADecoder) (data : List Byte)
    (hmask : E.mask 0x20 4 2 = Bits.mask 0x20 4 2)
    (hv : validHeader data = true) (ht : byteAt data 2 = 2)
    (hd : byteAt data 16 = 24) (hdesc : byteAt data 17 = 0x20)
    (hb : wordAt data 12 * wordAt data 14 * byteAt data 16 < 2147483648)
    (hlen : imageDataOffset (headerOf data) + getImageDataSize (headerOf data).imageSpec
      ≤ data.length) :
    (decode E s data).2 = .ok ()
    ∧ (decode E s data).1.image.width = wordAt data 12
    ∧ (decode E s data).1.image.height = wordAt data 14
    ∧ ∀ x y, x < wordAt data 12 → y < wordAt data 14 →
        (decode E s data).1.image.getPixel x y
          = some (E.convert Pixel.RGB8
              (slice data (imageDataOffset (headerOf data) + (x + y * wordAt data 12) * 3) 3)) := by
  obtain ⟨P, S, hp, hS, hok, hwid, hhei, _, hpx⟩ :=
    decode_trueColor_pixels E s data hv ht (Or.inr (Or.inl hd)) hb hlen
  rw [hd] at hp
  have hP : P = Pixel.RGB8 ∧ S = 3 := by
    have h24 : pixelOfDepth 24 = some (Pixel.RGB8, 3) := rfl
    rw [h24] at hp
    cases hp
    exact ⟨rfl, rfl⟩
  obtain ⟨rfl, rfl⟩ := hP
  have hdesc2 : (headerOf data).imageSpec.imageDescriptor = 0x20 := hdesc
  have hm := originMode_of_mask E (headerOf data).imageSpec (by rw [hdesc2]; exact hmask)
  rw [hdesc2] at hm
  have hX : ∀ x, getTransformedX E (headerOf data).imageSpec x = x := by
    intro x
    unfold getTransformedX
    rw [hm.1, if_neg (by decide)]
  have hY : ∀ y, getTransformedY E (headerOf data).imageSpec y = y := by
    intro y
    unfold getTransformedY
    rw [hm.2, if_pos (by decide)]
  refine ⟨hok, hwid, hhei, fun x y hx hy => ?_⟩
  have h := hpx x y hx hy
  rw [hX, hY] at h
  exact h

/-- The scenario of the specification: a header with colour-map type 0, image type 2, width
2, height 1, depth 24, descriptor `0x20`, followed by the octets 1 to 6, decodes to a 2 by 1
image whose pixel (0, 0) is the conversion of the first three octets and whose pixel (1, 0)
is the conversion of the next three, for every conversion function. -/
theorem trueColor_2x1_scenario (convert : Pixel → List Byte → PixelBGRA8) (s : TGADecoder) :
    (decode ⟨Bits.mask, convert⟩ s sampleTrueColor).2 = .ok ()
    ∧ (decode ⟨Bits.mask, convert⟩ s sampleTrueColor).1.image.width = 2
    ∧ (decode ⟨Bits.mask, convert⟩ s sampleTrueColor).1.image.height = 1
    ∧ (decode ⟨Bits.mask, convert⟩ s sampleTrueColor).1.image.getPixel 0 0
        = some (convert Pixel.RGB8 [1, 2, 3])
    ∧ (decode ⟨Bits.mask, convert⟩ s sampleTrueColor).1.image.getPixel 1 0
        = some (convert Pixel.RGB8 [4, 5, 6]) := by
  obtain ⟨h1, h2, h3, h4⟩ := decode_trueColor24_topOrigin ⟨Bits.mask, convert⟩ s sampleTrueColor
    rfl (by decide) rfl rfl rfl (by decide) (by decide)
  exact ⟨h1, h2, h3, h4 0 0 (by decide) (by decide), h4 1 0 (by decide) (by decide)⟩

/-- Below `2 ^ 31` bits of image data, a valid colour-mapped input with 8 bit indices, a
colour map of entry depth 16, 24 or 32 and the octets the decoder asks for present fails
with a format error exactly when one of its `width * height` index octets is not below the
colour-map length, and succeeds otherwise. -/
theorem decode_colorMapped_formatError_iff (E : Externals) (s : TGADecoder) (data : List Byte)
    (hv : validHeader data = true) (ht : byteAt data 2 = 1) (hc : byteAt data 1 = 1)
    (hes : byteAt data 7 = 16 ∨ byteAt data 7 = 24 ∨ byteAt data 7 = 32)
    (hd : byteAt data 16 = 8)
    (hb : wordAt data 12 * wordAt data 14 * byteAt data 16 < 2147483648)
    (hlen : imageDataOffset (headerOf data) + getImageDataSize (headerOf data).imageSpec
      ≤ data.length) :
    (isFormatError (decode E s data).2 = true ↔
      ∃ i, i < wordAt data 12 * wordAt data 14
        ∧ wordAt data 5 ≤ byteAt data (imageDataOffset (headerOf data) + i))
    ∧ ((¬ ∃ i, i < wordAt data 12 * wordAt data 14
        ∧ wordAt data 5 ≤ byteAt data (imageDataOffset (headerOf data) + i)) →
      (decode E s data).2 = .ok ()) := by
  obtain ⟨P, S, _, _, hres⟩ := decode_colorMapped_pixels E s data hv ht hc hes hd hb hlen
  have hwpos : 0 < wordAt data 12 := (validHeader_dims data hv).1
  have hgood : (∀ x y, x < wordAt data 12 → y < wordAt data 14 →
      byteAt data (imageDataOffset (headerOf data) + (x + y * wordAt data 12)) < wordAt data 5) →
      ¬ ∃ i, i < wordAt data 12 * wordAt data 14
        ∧ wordAt data 5 ≤ byteAt data (imageDataOffset (headerOf data) + i) := by
    rintro hall ⟨i, hi, hbad⟩
    have hx : i % wordAt data 12 < wordAt data 12 := Nat.mod_lt _ hwpos
    have hy : i / wordAt data 12 < wordAt data 14 :=
      Nat.div_lt_of_lt_mul hi
    have hxy : i % wordAt data 12 + i / wordAt data 12 * wordAt data 12 = i := by
      rw [Nat.mul_comm]
      exact Nat.mod_add_div i _
    have := hall _ _ hx hy
    rw [hxy] at this
    omega
  rcases hres with ⟨hok, _, _, hall, _⟩ | ⟨herr, x, y, hx, hy, hbad⟩
  · rw [hok]
    refine ⟨⟨fun h => (by cases h), fun h => absurd h (hgood hall)⟩, fun _ => rfl⟩
  · rw [herr]
    have hex : ∃ i, i < wordAt data 12 * wordAt data 14
        ∧ wordAt data 5 ≤ byteAt data (imageDataOffset (headerOf data) + i) :=
      ⟨x + y * wordAt data 12, by
        have := index_lt (w := wordAt data 12) (h := wordAt data 14) hx hy
        omega, hbad⟩
    exact ⟨⟨fun _ => hex, fun _ => rfl⟩, fun h => absurd hex h⟩

/-! ## C14: the header occupies 18 octets for both colour-map flags -/

/-- C14. On every input with a valid header the image specification is read from the
offsets 8 to 17 (origin 8 and 10, width 12, height 14, depth 16, descriptor 17) whether the
colour-map type is 0 or 1: with type 1 the colour-map specification is read from offsets 3
to 7, with type 0 those five octets are skipped and the specification stays zero; in both
cases the rest of `decode` starts with the cursor at offset 18.  With type 0 the five
skipped octets play no part: an input that differs only there decodes to the same result. -/
theorem header_fields_at_fixed_offsets (E : Externals) (s : TGADecoder) (data : List Byte)
    (hv : validHeader data = true) :
    decode E s data =
      decodeBody E { s with validDecode := false, origin := ⟨wordAt data 8, wordAt data 10⟩ }
        ⟨data, 18⟩
        ⟨byteAt data 0, byteAt data 1, byteAt data 2,
          if byteAt data 1 = 1 then ⟨wordAt data 3, wordAt data 5, byteAt data 7⟩
          else ⟨0, 0, 0⟩,
          ⟨wordAt data 8, wordAt data 10, wordAt data 12, wordAt data 14, byteAt data 16,
            byteAt data 17⟩⟩
    ∧ (byteAt data 1 = 0 → ∀ data2 : List Byte, data2.length = data.length →
        (∀ i, i < 3 ∨ 7 < i → data2[i]? = data[i]?) → decode E s data2 = decode E s data) := by
  obtain ⟨h18, h2, _, _, _⟩ := (validHeader_iff data).1 hv
  constructor
  · rw [decode_valid E s data hv]
    have hc : (byteAt data 1 ≠ 0) = (byteAt data 1 = 1) := propext ⟨by omega, by omega⟩
    unfold headerOf afterHeader
    simp only [hc]
  · intro hc0 data2 hl hsame
    have hb : ∀ i, i < 3 ∨ 7 < i → byteAt data2 i = byteAt data i := by
      intro i hi
      unfold byteAt
      rw [List.getD_eq_getElem?_getD, List.getD_eq_getElem?_getD, hsame i hi]
    have hR : sameFrom18 ⟨data2, 18⟩ ⟨data, 18⟩ := by
      refine ⟨rfl, Nat.le_refl _, hl, ?_⟩
      apply List.ext_getElem?
      intro i
      rw [List.getElem?_drop, List.getElem?_drop]
      exact hsame _ (by omega)
    have hH : headerOf data2 = headerOf data := by
      unfold headerOf wordAt
      rw [hb 0 (by omega), hb 1 (by omega), hb 2 (by omega), hb 8 (by omega), hb 9 (by omega),
        hb 10 (by omega), hb 11 (by omega), hb 12 (by omega), hb 13 (by omega),
        hb 14 (by omega), hb 15 (by omega), hb 16 (by omega), hb 17 (by omega),
        if_neg (by omega), if_neg (by omega)]
    have hw12 : wordAt data2 12 = wordAt data 12 := by
      unfold wordAt
      rw [hb 12 (by omega), hb 13 (by omega)]
    have hw14 : wordAt data2 14 = wordAt data 14 := by
      unfold wordAt
      rw [hb 14 (by omega), hb 15 (by omega)]
    rw [decode_header E s data h18, decode_header E s data2 (by omega), hb 1 (by omega),
      hb 2 (by omega), hw12, hw14, hH, decodeBody_sameFrom18 E _ _ _ (headerOf data) hR]

/-- C14 at a sample with colour-map type 0. -/
theorem header_fields_at_fixed_offsets_witness :
    validHeader sampleNoData = true
    ∧ (decode sampleExternals freshDecoder sampleNoData =
        decodeBody sampleExternals { freshDecoder with validDecode := false, origin := ⟨5, 6⟩ }
          ⟨sampleNoData, 18⟩ ⟨0, 0, 0, ⟨0, 0, 0⟩, ⟨5, 6, 3, 2, 24, 0⟩⟩
      ∧ (byteAt sampleNoData 1 = 0 → ∀ data2 : List Byte, data2.length = sampleNoData.length →
          (∀ i, i < 3 ∨ 7 < i → data2[i]? = sampleNoData[i]?) →
          decode sampleExternals freshDecoder data2
            = decode sampleExternals freshDecoder sampleNoData)) :=
  ⟨by decide, header_fields_at_fixed_offsets sampleExternals freshDecoder sampleNoData (by decide)⟩

/-! ## Declared sizes and the sizes the decoder computes -/

/-- The colour-map size `decode` reads is the declared `length * entry depth / 8`: the
product of a 16 bit and an 8 bit field cannot overflow. -/
theorem colorMapBytes_headerOf (data : List Byte) :
    colorMapBytes (headerOf data)
      = if byteAt data 1 ≠ 0 then wordAt data 5 * byteAt data 7 / 8 else 0 := by
  unfold colorMapBytes
  by_cases hc : byteAt data 1 ≠ 0
  · have hc2 : (headerOf data).colorMapType ≠ 0 := hc
    obtain ⟨hb1, hb2⟩ := headerOf_colorMapSpec_bounds data
    rw [if_pos hc2, if_pos hc, getColorMapSize_eq _ hb1 hb2]
    unfold headerOf
    rw [if_pos hc]
  · have hc2 : ¬ (headerOf data).colorMapType ≠ 0 := hc
    rw [if_neg hc2, if_neg hc]

/-- Below `2 ^ 31` bits of image data the decoder computes the declared size. -/
theorem getImageDataSize_headerOf (data : List Byte)
    (hb : wordAt data 12 * wordAt data 14 * byteAt data 16 < 2147483648) :
    getImageDataSize (headerOf data).imageSpec = declaredImageBytes (headerOf data) :=
  getImageDataSize_eq (headerOf data).imageSpec hb

/-- With all declared octets present and below `2 ^ 31` bits of image data, the octets the
decoder asks for are present. -/
theorem requested_of_declared (data : List Byte)
    (hb : wordAt data 12 * wordAt data 14 * byteAt data 16 < 2147483648)
    (hlen : imageDataOffset (headerOf data) + declaredImageBytes (headerOf data) ≤ data.length) :
    imageDataOffset (headerOf data) + getImageDataSize (headerOf data).imageSpec
      ≤ data.length := by
  rw [getImageDataSize_headerOf data hb]
  exact hlen

theorem BinaryReader.readSpan_short (data : List Byte) (pos n : Nat)
    (h : data.length < pos + n) :
    BinaryReader.readSpan ⟨data, pos⟩ n = .error .outOfBounds :=
  if_neg (Nat.not_le.2 h)

theorem readImageData_short (s : TGADecoder) (data : List Byte) (pos : Nat) (hdr : TGAHeader)
    (ht : hdr.imageType = 1 ∨ hdr.imageType = 2 ∨ hdr.imageType = 3)
    (hlen : data.length < pos + getImageDataSize hdr.imageSpec) :
    (readImageData s ⟨data, pos⟩ hdr).2 = .error .outOfBounds := by
  unfold readImageData
  rw [if_pos ht]
  generalize getImageDataSize hdr.imageSpec = n at hlen ⊢
  rw [BinaryReader.readSpan_short data pos n hlen]

/-- An image type with image data whose header makes the decoder ask for more image data
than the input holds: the read of the image data throws the bounds error. -/
theorem decode_imageData_short (E : Externals) (s : TGADecoder) (data : List Byte)
    (hv : validHeader data = true)
    (ht : byteAt data 2 = 1 ∨ byteAt data 2 = 2 ∨ byteAt data 2 = 3)
    (hoff : imageDataOffset (headerOf data) ≤ data.length)
    (hlen : data.length
      < imageDataOffset (headerOf data) + getImageDataSize (headerOf data).imageSpec) :
    (decode E s data).2 = .error .outOfBounds := by
  have ht2 : (headerOf data).imageType = 1 ∨ (headerOf data).imageType = 2
      ∨ (headerOf data).imageType = 3 := ht
  have h1 : 18 + (headerOf data).idLength ≤ data.length := by
    unfold imageDataOffset at hoff
    omega
  have h := readImageData_short (withColorMap (afterHeader s (headerOf data)) data (headerOf data))
    data (imageDataOffset (headerOf data)) (headerOf data) ht2 hlen
  rw [decode_valid E s data hv]
  unfold decodeBody
  rw [readImageId_ok data _ h1]
  simp only []
  rw [readColorMapData_ok _ data _ hoff]
  simp only []
  rcases hr : readImageData (withColorMap (afterHeader s (headerOf data)) data (headerOf data))
    ⟨data, imageDataOffset (headerOf data)⟩ (headerOf data) with ⟨s2, res⟩
  rw [hr] at h
  simp only [] at h
  subst h
  rfl

/-! ## C6, C7, C8: the depths of a colour-mapped image, all declared octets present -/

/-- A colour-mapped input below `2 ^ 31` bits of image data with a colour map of a supported
entry depth, all declared octets present and a pixel depth other than 8: the
unsupported-operation error for the depths 16, 24 and 32, the format error
"Invalid pixel format" for every other depth. -/
theorem decode_colorMapped_not8_declared (E : Externals) (s : TGADecoder) (data : List Byte)
    (hv : validHeader data = true) (ht : byteAt data 2 = 1) (hc : byteAt data 1 = 1)
    (hes : byteAt data 7 = 16 ∨ byteAt data 7 = 24 ∨ byteAt data 7 = 32)
    (hd : byteAt data 16 ≠ 8)
    (hb : wordAt data 12 * wordAt data 14 * byteAt data 16 < 2147483648)
    (hlen : imageDataOffset (headerOf data) + declaredImageBytes (headerOf data)
      ≤ data.length) :
    (decode E s data).2 =
      if byteAt data 16 = 16 ∨ byteAt data 16 = 24 ∨ byteAt data 16 = 32 then
        .error (.unsupportedOperation "Color map TGA format with %d-bits indices is not supported")
      else .error (.imageDecoder "Invalid pixel format") :=
  decode_colorMapped_not8 E s data hv ht hc hes hd (requested_of_declared data hb hlen)

/-- Below `2 ^ 31` bits of image data the code does what C6 says: a colour-mapped input with
pixel depth 16, colour-map type 1, a colour-map entry depth of 16, 24 or 32, a valid header
and all declared octets present fails with the unsupported-operation error. -/
theorem decode_colorMapped_depth16 (E : Externals) (s : TGADecoder) (data : List Byte)
    (hv : validHeader data = true) (ht : byteAt data 2 = 1) (hc : byteAt data 1 = 1)
    (hes : byteAt data 7 = 16 ∨ byteAt data 7 = 24 ∨ byteAt data 7 = 32)
    (hd : byteAt data 16 = 16)
    (hb : wordAt data 12 * wordAt data 14 * byteAt data 16 < 2147483648)
    (hlen : imageDataOffset (headerOf data) + declaredImageBytes (headerOf data)
      ≤ data.length) :
    (decode E s data).2 = .error
        (.unsupportedOperation "Color map TGA format with %d-bits indices is not supported")
    ∧ isUnsupported (decode E s data).2 = true
    ∧ isFormatError (decode E s data).2 = false := by
  rw [decode_colorMapped_not8_declared E s data hv ht hc hes (by omega) hb hlen,
    if_pos (Or.inl hd)]
  exact ⟨rfl, rfl, rfl⟩

/-- C6 fails on the code for a large image.  The input is the header and the one-entry
colour map of an uncompressed colour-mapped image of 16384 by 8192 pixels with 16 bit
indices (colour-map type 1, 24 bit entries), followed by all its 268435456 declared octets
of image data.  `width * height * pixelDepth` is `2 ^ 31`, one more than the largest `int`:
the product of `getImageDataSize` overflows (undefined in C++; in two's complement it is
`-2 ^ 31`), the division by 8 gives `-2 ^ 28`, and the conversion to `u32` gives 4026531840.
The decoder asks the reader for that many octets and the read throws the bounds error,
before the pixel depth is looked at: `decode` fails, but not with the unsupported-operation
error.  The same holds for every content and for every input with this header that is
shorter than 4026531840 octets after the colour map. -/
theorem colorMapped_16384x8192x16_fails (E : Externals) (s : TGADecoder) :
    validHeader headerIndexed16384x8192x16 = true
    ∧ byteAt headerIndexed16384x8192x16 2 = 1 ∧ byteAt headerIndexed16384x8192x16 1 = 1
    ∧ byteAt headerIndexed16384x8192x16 7 = 24 ∧ byteAt headerIndexed16384x8192x16 16 = 16
    ∧ declaredImageBytes (headerOf headerIndexed16384x8192x16) = 268435456
    ∧ imageDataOffset (headerOf headerIndexed16384x8192x16)
          + declaredImageBytes (headerOf headerIndexed16384x8192x16)
        = (headerIndexed16384x8192x16 ++ List.replicate 268435456 (0 : Byte)).length
    ∧ getImageDataSize (headerOf headerIndexed16384x8192x16).imageSpec = 4026531840
    ∧ (decode E s (headerIndexed16384x8192x16 ++ List.replicate 268435456 (0 : Byte))).2
        = .error .outOfBounds
    ∧ isUnsupported
        (decode E s (headerIndexed16384x8192x16 ++ List.replicate 268435456 (0 : Byte))).2
        = false
    ∧ ∀ rest, rest.length < 4026531840 →
        (decode E s (headerIndexed16384x8192x16 ++ rest)).2 = .error .outOfBounds := by
  have hv : validHeader headerIndexed16384x8192x16 = true := by decide
  have hsz : getImageDataSize (headerOf headerIndexed16384x8192x16).imageSpec = 4026531840 := by
    decide
  have hoff : imageDataOffset (headerOf headerIndexed16384x8192x16) = 21 := by decide
  have hdecl : declaredImageBytes (headerOf headerIndexed16384x8192x16) = 268435456 := by
    decide
  have hl : headerIndexed16384x8192x16.length = 21 := rfl
  have hall : ∀ rest, rest.length < 4026531840 →
      (decode E s (headerIndexed16384x8192x16 ++ rest)).2 = .error .outOfBounds := by
    intro rest hrest
    apply decode_imageData_short E s _ (validHeader_append _ rest hv)
    · rw [byteAt_append _ _ _ (by decide)]
      exact Or.inl rfl
    · rw [headerOf_append _ _ (by decide), List.length_append]
      omega
    · rw [headerOf_append _ _ (by decide), List.length_append]
      omega
  have hrep : (List.replicate 268435456 (0 : Byte)).length < 4026531840 := by
    rw [List.length_replicate]
    omega
  refine ⟨hv, rfl, rfl, rfl, rfl, hdecl, ?_, hsz, hall _ hrep, ?_, hall⟩
  · rw [List.length_append, List.length_replicate]
    omega
  · rw [hall _ hrep]
    rfl

/-- Where the bound of C7 comes from.  A colour-mapped input of 16384 by 8192 pixels with
24 bit indices, 24 bit colour-map entries and all its 402653184 declared octets of image
data has `3 * 2 ^ 30` bits of image data: the `int` product of `getImageDataSize` overflows,
the decoder asks for 4160749568 octets and `decode` throws the bounds error, neither the
unsupported-operation error nor a format error. -/
theorem colorMapped_16384x8192x24_bounds_error (E : Externals) (s : TGADecoder) :
    validHeader headerIndexed16384x8192x24 = true
    ∧ byteAt headerIndexed16384x8192x24 2 = 1 ∧ byteAt headerIndexed16384x8192x24 1 = 1
    ∧ byteAt headerIndexed16384x8192x24 7 = 24 ∧ byteAt headerIndexed16384x8192x24 16 = 24
    ∧ imageDataOffset (headerOf headerIndexed16384x8192x24)
          + declaredImageBytes (headerOf headerIndexed16384x8192x24)
        = (headerIndexed16384x8192x24 ++ List.replicate 402653184 (0 : Byte)).length
    ∧ getImageDataSize (headerOf headerIndexed16384x8192x24).imageSpec = 4160749568
    ∧ (decode E s (headerIndexed16384x8192x24 ++ List.replicate 402653184 (0 : Byte))).2
        = .error .outOfBounds := by
  have hv : validHeader headerIndexed16384x8192x24 = true := by decide
  have hsz : getImageDataSize (headerOf headerIndexed16384x8192x24).imageSpec = 4160749568 := by
    decide
  have hoff : imageDataOffset (headerOf headerIndexed16384x8192x24) = 21 := by decide
  have hdecl : declaredImageBytes (headerOf headerIndexed16384x8192x24) = 402653184 := by
    decide
  have hl : headerIndexed16384x8192x24.length = 21 := rfl
  refine ⟨hv, rfl, rfl, rfl, rfl, ?_, hsz, ?_⟩
  · rw [List.length_append, List.length_replicate]
    omega
  · apply decode_imageData_short E s _ (validHeader_append _ _ hv)
    · rw [byteAt_append _ _ _ (by decide)]
      exact Or.inl rfl
    · rw [headerOf_append _ _ (by decide), List.length_append]
      omega
    · rw [headerOf_append _ _ (by decide), List.length_append, List.length_replicate]
      omega

/-- C7, as the code has it.  For every colour-mapped input (image type 1, colour-map type 1)
with a valid header (nonzero dimensions), a colour-map entry depth of 16, 24 or 32, all
declared octets present (the id field, the colour map and the
`width * height * pixelDepth / 8` octets of image data), less than `2 ^ 31` bits of image
data and a pixel depth other than 8: `decode` fails with the unsupported-operation error
when the pixel depth is 16, 24 or 32, and with the format error "Invalid pixel format" for
every other pixel depth. -/
theorem colorMapped_depth_not8 (E : Externals) (s : TGADecoder) (data : List Byte)
    (hv : validHeader data = true) (ht : byteAt data 2 = 1) (hc : byteAt data 1 = 1)
    (hes : byteAt data 7 = 16 ∨ byteAt data 7 = 24 ∨ byteAt data 7 = 32)
    (hd : byteAt data 16 ≠ 8)
    (hb : wordAt data 12 * wordAt data 14 * byteAt data 16 < 2147483648)
    (hlen : imageDataOffset (headerOf data) + declaredImageBytes (headerOf data)
      ≤ data.length) :
    ((byteAt data 16 = 16 ∨ byteAt data 16 = 24 ∨ byteAt data 16 = 32) →
      (decode E s data).2 = .error
          (.unsupportedOperation "Color map TGA format with %d-bits indices is not supported")
        ∧ isUnsupported (decode E s data).2 = true
        ∧ isFormatError (decode E s data).2 = false)
    ∧ (¬ (byteAt data 16 = 16 ∨ byteAt data 16 = 24 ∨ byteAt data 16 = 32) →
      (decode E s data).2 = .error (.imageDecoder "Invalid pixel format")
        ∧ isFormatError (decode E s data).2 = true
        ∧ isUnsupported (decode E s data).2 = false) := by
  rw [decode_colorMapped_not8_declared E s data hv ht hc hes hd hb hlen]
  constructor
  · intro h
    rw [if_pos h]
    exact ⟨rfl, rfl, rfl⟩
  · intro h
    rw [if_neg h]
    exact ⟨rfl, rfl, rfl⟩

/-- C7 at two samples with all declared octets present: 24 bit entries with 16 bit indices,
and with 4 bit indices. -/
theorem colorMapped_depth_not8_witness :
    (imageDataOffset (headerOf sampleIndexed16) + declaredImageBytes (headerOf sampleIndexed16)
        = sampleIndexed16.length
      ∧ imageDataOffset (headerOf sampleIndexed4) + declaredImageBytes (headerOf sampleIndexed4)
        = sampleIndexed4.length)
    ∧ ((decode sampleExternals freshDecoder sampleIndexed16).2 = .error
          (.unsupportedOperation "Color map TGA format with %d-bits indices is not supported")
      ∧ isUnsupported (decode sampleExternals freshDecoder sampleIndexed16).2 = true
      ∧ isFormatError (decode sampleExternals freshDecoder sampleIndexed16).2 = false)
    ∧ ((decode sampleExternals freshDecoder sampleIndexed4).2
          = .error (.imageDecoder "Invalid pixel format")
      ∧ isFormatError (decode sampleExternals freshDecoder sampleIndexed4).2 = true
      ∧ isUnsupported (decode sampleExternals freshDecoder sampleIndexed4).2 = false) :=
  ⟨by decide,
    (colorMapped_depth_not8 sampleExternals freshDecoder sampleIndexed16 (by decide) rfl rfl
      (Or.inr (Or.inl rfl)) (by decide) (by decide) (by decide)).1 (Or.inl rfl),
    (colorMapped_depth_not8 sampleExternals freshDecoder sampleIndexed4 (by decide) rfl rfl
      (Or.inr (Or.inl rfl)) (by decide) (by decide) (by decide)).2 (by decide)⟩

/-- C7 fails as stated: a colour-mapped input with a valid header, colour-map type 1, 24 bit
colour-map entries, 2 by 1 pixels of depth 4 (a depth other than 8) and all declared octets
present (the one octet of image data, which is also what the decoder asks for) fails with a
format error, not with the unsupported-operation error. -/
theorem colorMapped_depth4_is_format_error :
    validHeader sampleIndexed4 = true
    ∧ byteAt sampleIndexed4 2 = 1 ∧ byteAt sampleIndexed4 1 = 1 ∧ byteAt sampleIndexed4 7 = 24
    ∧ byteAt sampleIndexed4 16 = 4
    ∧ imageDataOffset (headerOf sampleIndexed4) + declaredImageBytes (headerOf sampleIndexed4)
        = sampleIndexed4.length
    ∧ getImageDataSize (headerOf sampleIndexed4).imageSpec
        = declaredImageBytes (headerOf sampleIndexed4)
    ∧ (decode sampleExternals freshDecoder sampleIndexed4).2
        = .error (.imageDecoder "Invalid pixel format")
    ∧ isUnsupported (decode sampleExternals freshDecoder sampleIndexed4).2 = false
    ∧ isFormatError (decode sampleExternals freshDecoder sampleIndexed4).2 = true := by
  refine ⟨by decide, rfl, rfl, rfl, rfl, by decide, by decide, rfl, rfl, rfl⟩

/-- Where the bound of C8 comes from.  A colour-mapped input of 16384 by 16384 pixels with
8 bit indices, one 8 bit colour-map entry and all its 268435456 declared index octets has
`2 ^ 31` bits of image data: the `int` product of `getImageDataSize` overflows, the decoder
asks for 4026531840 octets and `decode` throws the bounds error before the entry depth is
looked at, not the format error. -/
theorem colorMapped_entry8_16384x16384_bounds_error (E : Externals) (s : TGADecoder) :
    validHeader headerIndexedEntry8x16384x16384 = true
    ∧ byteAt headerIndexedEntry8x16384x16384 2 = 1
    ∧ byteAt headerIndexedEntry8x16384x16384 1 = 1
    ∧ byteAt headerIndexedEntry8x16384x16384 7 = 8
    ∧ imageDataOffset (headerOf headerIndexedEntry8x16384x16384)
          + declaredImageBytes (headerOf headerIndexedEntry8x16384x16384)
        = (headerIndexedEntry8x16384x16384 ++ List.replicate 268435456 (0 : Byte)).length
    ∧ getImageDataSize (headerOf headerIndexedEntry8x16384x16384).imageSpec = 4026531840
    ∧ (decode E s (headerIndexedEntry8x16384x16384 ++ List.replicate 268435456 (0 : Byte))).2
        = .error .outOfBounds := by
  have hv : validHeader headerIndexedEntry8x16384x16384 = true := by decide
  have hsz : getImageDataSize (headerOf headerIndexedEntry8x16384x16384).imageSpec
      = 4026531840 := by
    decide
  have hoff : imageDataOffset (headerOf headerIndexedEntry8x16384x16384) = 19 := by decide
  have hdecl : declaredImageBytes (headerOf headerIndexedEntry8x16384x16384) = 268435456 := by
    decide
  have hl : headerIndexedEntry8x16384x16384.length = 19 := rfl
  refine ⟨hv, rfl, rfl, rfl, ?_, hsz, ?_⟩
  · rw [List.length_append, List.length_replicate]
    omega
  · apply decode_imageData_short E s _ (validHeader_append _ _ hv)
    · rw [byteAt_append _ _ _ (by decide)]
      exact Or.inl rfl
    · rw [headerOf_append _ _ (by decide), List.length_append]
      omega
    · rw [headerOf_append _ _ (by decide), List.length_append, List.length_replicate]
      omega

end Arclight
